import Mathlib

/-!
# Game-Sprite-Creator: formal model of `game_sprite_addon.py`

This file gives a shallow embedding of the Blender addon in
`src/game_sprite_addon.py` and proves properties of its iteration state
machine, its validators, its scene save/restore code and its image-merge
code.

Conventions used throughout:

* Blender objects (`bpy.data.objects`) are modelled as a list `objs : List SObj`;
  an object reference ("pointer") is the object's position in that list.
* The `Group Order` and `Output Orientation` string fields are modelled by
  their comma-split token lists (`List String`); the source lowercases the
  raw string before splitting inside the validators, so the token list
  stands for the lowercased, comma-split field.
* Python's `%` on positive divisors agrees with `Nat.mod`; Python raises
  `ZeroDivisionError` on a zero divisor while `Nat.mod` is total, so divisor
  positivity is tracked by explicit side conditions (claim C9).
* Python float angles (`math.radians`) are modelled in degrees over `ℚ`:
  the (constant, positive) `π/180` scaling is irrelevant to every property
  proved here, and it preserves zero-ness, which is what the truthiness
  checks in `reset_scene` depend on.
-/

namespace GameSprite

/-! ## Validators for the Group Order and Output Orientation fields

`validate_output_order` (source lines 322-369) and
`validate_output_orientation` (source lines 372-405).  Both operate on the
lowercased, comma-split field, which is what the `List String` argument
models.  The source returns `None` (no error), a single error string (the
too-short case) or a list of error strings; we model all error results as
`some` of a (always non-empty) list of messages. -/

def output_types : List String := ["angle", "camera", "frame", "object", "sheet", "track"]

def validate_output_order (output_array : List String) : Option (List String) :=
  if output_array.length < 6 then
    some ["* The following six elements must be in the list, separated by commas:\nangle, camera, frame, object, sheet, track."]
  else
    -- collect unrecognised elements
    let err1 := output_array.filterMap fun element =>
      if element ∈ output_types then none
      else some ("* " ++ element ++ " is not a recognised element.")
    if err1 = [] then
      -- multiplicity of each of the six names
      let err2 := output_types.filterMap fun output_type =>
        let type_count := output_array.count output_type
        if type_count > 1 then some ("* " ++ output_type ++ " must only appear once.")
        else if type_count < 1 then some ("* " ++ output_type ++ " must appear once.")
        else none
      if err2 = [] then
        -- ordering constraints
        let err3 :=
          (if output_array.headD "" ≠ "sheet" then ["* The first element must be 'sheet'"] else [])
          ++ (if output_array.indexOf "object" < output_array.indexOf "sheet" then
                ["* 'object' must be after 'sheet'"] else [])
          ++ (if output_array.indexOf "track" < output_array.indexOf "object" then
                ["* 'track' must be after 'object'"] else [])
          ++ (if output_array.indexOf "frame" < output_array.indexOf "track" then
                ["* 'frame' must be after 'track'"] else [])
        if err3 = [] then none else some err3
      else some err2
    else some (err1 ++ ["* Elements must be one of:\nangle, camera, frame, object, sheet, track"])

def orientation_types : List String := ["-", "h", "v"]

def validate_output_orientation (output_array : List String) : Option (List String) :=
  if output_array.length < 6 then
    some ["* The string must contain a '-' followed by six values of either 'h' or 'v', separated by commas."]
  else
    let err1 := output_array.filterMap fun element =>
      if element ∈ orientation_types then none
      else some ("* " ++ element ++ " is not a recognised element.")
    if err1 = [] then
      if output_array.headD "" ≠ "-" then some ["* The first element must be '-'"]
      else none
    else some (err1 ++ ["* Elements must be one of: -, h, v"])

/-- The acceptance condition claim C5 states for the Group Order field:
each of the six group names occurs exactly once, `sheet` is first, `object`
comes after `sheet`, `track` after `object` and `frame` after `track`. -/
def orderClaimCond (a : List String) : Prop :=
  a.count "angle" = 1 ∧ a.count "camera" = 1 ∧ a.count "frame" = 1 ∧
  a.count "object" = 1 ∧ a.count "sheet" = 1 ∧ a.count "track" = 1 ∧
  a.headD "" = "sheet" ∧
  a.indexOf "sheet" < a.indexOf "object" ∧
  a.indexOf "object" < a.indexOf "track" ∧
  a.indexOf "track" < a.indexOf "frame"

instance (a : List String) : Decidable (orderClaimCond a) := by
  unfold orderClaimCond; infer_instance

/-- The acceptance condition of claim C10 for the Output Orientation field:
at least six elements, every element one of `-`, `h`, `v`, first element `-`. -/
def orientationClaimCond (a : List String) : Prop :=
  6 ≤ a.length ∧ (∀ x ∈ a, x ∈ orientation_types) ∧ a.headD "" = "-"

instance (a : List String) : Decidable (orientationClaimCond a) := by
  unfold orientationClaimCond; infer_instance

/-! ## The iteration state machine

`RenderSprites.iterate` (source lines 721-747) and
`RenderSprites.incr_index` (source lines 749-795).  The class keeps six
group lists with a current index into each, plus the user-configured
`output_order`.  For the state machine only the lists and indices matter, so
camera/object/sheet entries are modelled by their object ids and tracks by
their names; `iterate`'s call to `render_iteration` renders exactly one
image at the current combination and, under claim C1's hypothesis that the
lists are fixed for the run, leaves the lists unchanged, so a run is
modelled by recording the current combination before each index step. -/

structure RSCounter where
  angles : List Nat
  i_current_angle : Nat
  cameras : List Nat
  i_current_camera : Nat
  frames : List Int
  i_current_frame : Nat
  sheets : List (List Nat)
  i_current_sheet : Nat
  objects : List Nat
  i_current_object : Nat
  tracks : List String
  i_current_track : Nat
  output_order : List String
  deriving Repr, DecidableEq

/-- `RenderSprites.incr_index` (lines 749-795): increment the index named by
`output_order[level_index]` modulo its list's length and report whether it
wrapped to zero.  The source raises `ZeroDivisionError` on an empty list
(`Nat.mod` is total here; claim C9 establishes the divisors are positive) and
leaves `wrap = False` when the level name is unrecognised. -/
def incr_index (s : RSCounter) (level_index : Nat) : RSCounter × Bool :=
  let index_type := s.output_order.getD level_index ""
  if index_type = "angle" then
    let i := (s.i_current_angle + 1) % s.angles.length
    ({ s with i_current_angle := i }, i == 0)
  else if index_type = "camera" then
    let i := (s.i_current_camera + 1) % s.cameras.length
    ({ s with i_current_camera := i }, i == 0)
  else if index_type = "frame" then
    let i := (s.i_current_frame + 1) % s.frames.length
    ({ s with i_current_frame := i }, i == 0)
  else if index_type = "object" then
    let i := (s.i_current_object + 1) % s.objects.length
    ({ s with i_current_object := i }, i == 0)
  else if index_type = "sheet" then
    let i := (s.i_current_sheet + 1) % s.sheets.length
    ({ s with i_current_sheet := i }, i == 0)
  else if index_type = "track" then
    let i := (s.i_current_track + 1) % s.tracks.length
    ({ s with i_current_track := i }, i == 0)
  else (s, false)

/-- The index-increment loop of `RenderSprites.iterate` (lines 737-746):
walk the levels from innermost to outermost, stopping at the first level
that does not wrap; when level 0 wraps, the run is finished (the source then
also merges sheets and calls `cleanup()`, which do not touch the indices). -/
def iterate_levels (s : RSCounter) (finished : Bool) : List Nat → RSCounter × Bool
  | [] => (s, finished)
  | level_index :: rest =>
    let p := incr_index s level_index
    if !p.2 then (p.1, finished)
    else if level_index == 0 then iterate_levels p.1 true rest
    else iterate_levels p.1 finished rest

/-- `RenderSprites.iterate` (lines 721-747), index part: the loop runs over
`range(len(self.output_order)-1, -1, -1)`. -/
def iterate (s : RSCounter) : RSCounter × Bool :=
  iterate_levels s false (List.range s.output_order.length).reverse

/-- The combination a single `render_iteration` call renders, identified by
the six current indices `(sheet, object, camera, track, frame, angle)`. -/
def combo (s : RSCounter) : Nat × Nat × Nat × Nat × Nat × Nat :=
  (s.i_current_sheet, s.i_current_object, s.i_current_camera,
   s.i_current_track, s.i_current_frame, s.i_current_angle)

/-- Calling `iterate()` up to `fuel` times, recording the combination each
call renders, and stopping as soon as `iterate()` returns `True`.  The
boolean is `true` exactly when some call in the sequence returned `True`. -/
def runCalls : Nat → RSCounter → List (Nat × Nat × Nat × Nat × Nat × Nat) × Bool
  | 0, _ => ([], false)
  | fuel + 1, s =>
    let c := combo s
    let p := iterate s
    if p.2 then ([c], true)
    else
      let q := runCalls fuel p.1
      (c :: q.1, q.2)

/-! ## Mixed-radix odometer

The pure arithmetic content of the increment loop: a least-significant-first
digit list `ds` with radix list `rs` is stepped exactly like the loop in
`iterate` steps the per-level indices (innermost level first, carrying
outward on wrap, finished when every digit wraps). -/

def odoStep : List Nat → List Nat → List Nat × Bool
  | r :: rs, d :: ds =>
    if (d + 1) % r = 0 then
      let p := odoStep rs ds
      ((d + 1) % r :: p.1, p.2)
    else ((d + 1) % r :: ds, false)
  | _, _ => ([], true)

/-- The value of a least-significant-first mixed-radix digit list. -/
def odoVal : List Nat → List Nat → Nat
  | r :: rs, d :: ds => d + r * odoVal rs ds
  | _, _ => 0

/-- The digit list of a number in the given mixed radix. -/
def odoDecode : List Nat → Nat → List Nat
  | [], _ => []
  | r :: rs, k => k % r :: odoDecode rs (k / r)

/-! ## Bridging the named state and the odometer

Each of the six group names owns one list and one index; `output_order`
(validated to be a permutation of the six names) assigns a name to every
level.  Reading the indices and lengths along the reversed order yields a
least-significant-first digit/radix vector on which `iterate`'s loop acts
exactly like `odoStep`. -/

def lenFor (s : RSCounter) : String → Nat
  | "angle" => s.angles.length
  | "camera" => s.cameras.length
  | "frame" => s.frames.length
  | "object" => s.objects.length
  | "sheet" => s.sheets.length
  | "track" => s.tracks.length
  | _ => 0

def idxFor (s : RSCounter) : String → Nat
  | "angle" => s.i_current_angle
  | "camera" => s.i_current_camera
  | "frame" => s.i_current_frame
  | "object" => s.i_current_object
  | "sheet" => s.i_current_sheet
  | "track" => s.i_current_track
  | _ => 0

/-- The digits of the levels `k-1, …, 0`, innermost (level `k-1`) first. -/
def digitsUpto (s : RSCounter) (k : Nat) : List Nat :=
  (s.output_order.take k).reverse.map (idxFor s)

/-- The radices of the levels `k-1, …, 0`, innermost first. -/
def radsUpto (s : RSCounter) (k : Nat) : List Nat :=
  (s.output_order.take k).reverse.map (lenFor s)

/-- The full digit vector of a state, innermost level first. -/
def digitsLSB (s : RSCounter) : List Nat := digitsUpto s s.output_order.length

/-- The full radix vector of a state, innermost level first. -/
def radsLSB (s : RSCounter) : List Nat := radsUpto s s.output_order.length

/-- The combination with a given odometer value, reconstructed from the
group order and the radix vector alone. -/
def comboAt (order : List String) (rs : List Nat) (v : Nat) :
    Nat × Nat × Nat × Nat × Nat × Nat :=
  ((odoDecode rs v).getD (order.reverse.indexOf "sheet") 0,
   (odoDecode rs v).getD (order.reverse.indexOf "object") 0,
   (odoDecode rs v).getD (order.reverse.indexOf "camera") 0,
   (odoDecode rs v).getD (order.reverse.indexOf "track") 0,
   (odoDecode rs v).getD (order.reverse.indexOf "frame") 0,
   (odoDecode rs v).getD (order.reverse.indexOf "angle") 0)

/-- The in-range condition on a rendered combination: each of the six
indices is below the length of its group list. -/
def validCombo (s : RSCounter) (c : Nat × Nat × Nat × Nat × Nat × Nat) : Prop :=
  c.1 < s.sheets.length ∧ c.2.1 < s.objects.length ∧ c.2.2.1 < s.cameras.length ∧
  c.2.2.2.1 < s.tracks.length ∧ c.2.2.2.2.1 < s.frames.length ∧
  c.2.2.2.2.2 < s.angles.length

instance (s : RSCounter) (c : Nat × Nat × Nat × Nat × Nat × Nat) :
    Decidable (validCombo s c) := by
  unfold validCombo; infer_instance

/-- Component access of a combination by group name. -/
def cFor (c : Nat × Nat × Nat × Nat × Nat × Nat) : String → Nat
  | "sheet" => c.1
  | "object" => c.2.1
  | "camera" => c.2.2.1
  | "track" => c.2.2.2.1
  | "frame" => c.2.2.2.2.1
  | "angle" => c.2.2.2.2.2
  | _ => 0

/-- The number of combinations `(sheet, object, camera, track, frame, angle)`. -/
def totalCombos (s : RSCounter) : Nat :=
  s.sheets.length * s.objects.length * s.cameras.length * s.tracks.length *
    s.frames.length * s.angles.length

/-- A concrete run exercising claim C1: 1 sheet, 2 objects, 1 camera, 1
track, 3 frames, 2 angles. -/
def rsExample : RSCounter :=
  { angles := [0, 1], i_current_angle := 0,
    cameras := [10], i_current_camera := 0,
    frames := [0, 1, 2], i_current_frame := 0,
    sheets := [[1]], i_current_sheet := 0,
    objects := [1, 2], i_current_object := 0,
    tracks := ["No Action"], i_current_track := 0,
    output_order := ["sheet", "object", "camera", "track", "angle", "frame"] }

/-! ## Scene model

Blender objects (`bpy.data.objects`) and the pieces of scene state the addon
reads and writes.  Objects are referenced by their position in `Scene.objs`;
`matrix_world.to_translation()` is modelled as `worldOff + location`, where
`worldOff` is the (constant) contribution of the object's parent transform
(zero for unparented objects).  Rotations are stored in degrees over `ℚ`
(see the header). -/

structure NlaStrip where
  frame_start : Int
  frame_end : Int
  deriving Repr, DecidableEq

structure NlaTrack where
  tname : String
  mute : Bool
  strips : List NlaStrip
  deriving Repr, DecidableEq

abbrev V3 := ℚ × ℚ × ℚ

def v3add (a b : V3) : V3 := (a.1 + b.1, a.2.1 + b.2.1, a.2.2 + b.2.2)

structure SObj where
  name : String
  otype : String
  parent : Option Nat
  hide_render : Bool
  location : V3
  worldOff : V3
  rotZ : ℚ
  animTracks : Option (List NlaTrack)
  deriving Repr, DecidableEq

def noObj : SObj :=
  { name := "", otype := "", parent := none, hide_render := false,
    location := (0, 0, 0), worldOff := (0, 0, 0), rotZ := 0, animTracks := none }

structure Scene where
  objs : List SObj
  camera : Option Nat
  frame_current : Int
  render_filepath : String
  render_file_extension : String
  deriving Repr, DecidableEq

structure AddonProperties where
  int_camera_angles : Nat
  pointer_camera_one : Option Nat
  pointer_camera_two : Option Nat
  pointer_camera_three : Option Nat
  pointer_camera_four : Option Nat
  pointer_output_parent : Option Nat
  pointer_global_parent : Option Nat
  bool_keep_renders : Bool
  enum_sprite_sheet : String
  string_output_path : String
  output_order_toks : List String
  output_orientation_toks : List String
  deriving Repr, DecidableEq

/-- The host context the addon reads: the scene, the addon properties, the
filesystem answer for `os.path.isdir`, and whether PIL imported. -/
structure Ctx where
  scene : Scene
  props : AddonProperties
  isdir : String → Bool
  pil_installed : Bool

/-- The object a pointer refers to. -/
def objAt (sc : Scene) (i : Nat) : SObj := sc.objs.getD i noObj

/-- `find_children` (source lines 111-121): all objects whose `parent` is the
given object, optionally filtered by type, in `bpy.data.objects` order. -/
def find_children (objs : List SObj) (parent_id : Nat) (obj_type : Option String) : List Nat :=
  (List.range objs.length).filter fun i =>
    match obj_type with
    | none => (objs.getD i noObj).parent == some parent_id
    | some t => (objs.getD i noObj).parent == some parent_id && (objs.getD i noObj).otype == t

/-- `validate_camera_parent` (lines 125-140). -/
def validate_camera_parent (ctx : Ctx) : Option String :=
  if ctx.props.pointer_camera_one = none ∧ ctx.props.pointer_camera_two = none ∧
      ctx.props.pointer_camera_three = none ∧ ctx.props.pointer_camera_four = none then
    some "* At least one camera parent must be selected"
  else none

/-- The common body of `validate_camera_one` … `validate_camera_four`
(lines 144-220): each checks its own pointer. -/
def validate_camera_pointer (ctx : Ctx) (p : Option Nat) : Option String :=
  match p with
  | none => none
  | some cid =>
    let obj := objAt ctx.scene cid
    if obj.otype ≠ "EMPTY" then some ("* " ++ obj.name ++ " must be an empty")
    else if (find_children ctx.scene.objs cid (some "CAMERA")).length = 0 then
      some ("* " ++ obj.name ++ " does not have a child camera")
    else none

def validate_camera_one (ctx : Ctx) : Option String :=
  validate_camera_pointer ctx ctx.props.pointer_camera_one

def validate_camera_two (ctx : Ctx) : Option String :=
  validate_camera_pointer ctx ctx.props.pointer_camera_two

def validate_camera_three (ctx : Ctx) : Option String :=
  validate_camera_pointer ctx ctx.props.pointer_camera_three

def validate_camera_four (ctx : Ctx) : Option String :=
  validate_camera_pointer ctx ctx.props.pointer_camera_four

/-- `validate_output_parent` (lines 224-273); the source returns `None`, a
string or a list of strings — errors are modelled uniformly as message
lists. -/
def validate_output_parent (ctx : Ctx) : Option (List String) :=
  match ctx.props.pointer_output_parent with
  | none => some ["* Output parent must be selected"]
  | some oid =>
    let obj := objAt ctx.scene oid
    if obj.otype ≠ "EMPTY" then some ["* " ++ obj.name ++ " must be an empty"]
    else if (find_children ctx.scene.objs oid none).length = 0 then
      some ["* " ++ obj.name ++ " has no children"]
    else
      let errs := (find_children ctx.scene.objs oid none).filterMap fun cid =>
        if ctx.props.enum_sprite_sheet = "SPRITE" then
          let child := objAt ctx.scene cid
          if child.otype ≠ "EMPTY" then some (child.name ++ " must be empty")
          else if (find_children ctx.scene.objs cid none).length = 0 then
            some (child.name ++ " has no children")
          else none
        else none
      if errs = [] then none else some errs

/-- `validate_output_path` (lines 277-291). -/
def validate_output_path (ctx : Ctx) : Option String :=
  if ctx.props.string_output_path = "" then some "* Select File Path"
  else if ¬ ctx.isdir ctx.props.string_output_path then some "* Invalid File Path"
  else none

/-- `validate_sprite_dropdown` (lines 294-306). -/
def validate_sprite_dropdown (ctx : Ctx) : Option String :=
  if ¬ ctx.pil_installed ∧ ctx.props.enum_sprite_sheet ≠ "OFF" then
    some "* PIL is not installed, sprite sheets cannot be created."
  else none

/-- `validate_settings` (lines 408-425): all validators must pass. -/
def validate_settings (ctx : Ctx) : Bool :=
  (validate_camera_parent ctx).isNone && (validate_camera_one ctx).isNone &&
  (validate_camera_two ctx).isNone && (validate_camera_three ctx).isNone &&
  (validate_camera_four ctx).isNone && (validate_output_parent ctx).isNone &&
  (validate_output_path ctx).isNone && (validate_sprite_dropdown ctx).isNone &&
  (validate_output_order ctx.props.output_order_toks).isNone &&
  (validate_output_orientation ctx.props.output_orientation_toks).isNone

/-- Apply a field update to the object a pointer refers to (out-of-range ids
leave the scene unchanged; the live host never has dangling references). -/
def updateObj (sc : Scene) (i : Nat) (f : SObj → SObj) : Scene :=
  { sc with objs := sc.objs.set i (f (sc.objs.getD i noObj)) }

/-- Set one object's `hide_render` flag. -/
def setHideRender (sc : Scene) (i : Nat) (b : Bool) : Scene :=
  updateObj sc i fun o => { o with hide_render := b }

/-- A `for child in …: child.hide_render = b` loop. -/
def hideFold (sc : Scene) (ids : List Nat) (b : Bool) : Scene :=
  ids.foldl (fun s c => setHideRender s c b) sc

/-- `RenderSprites.prepare_render` (lines 937-953): record every object's
`hide_render` flag, hide everything, then unhide the global parent and its
children. -/
def prepare_render (ctx : Ctx) : List (Nat × Bool) × Scene :=
  let orig_visibility := ctx.scene.objs.enum.map fun p => (p.1, p.2.hide_render)
  let scn := { ctx.scene with objs := ctx.scene.objs.map fun o => { o with hide_render := true } }
  let scn :=
    match ctx.props.pointer_global_parent with
    | none => scn
    | some g => hideFold (setHideRender scn g false) (find_children scn.objs g none) false
  (orig_visibility, scn)

/-- The fields `RenderSprites.__init__` (lines 700-719) sets on success. -/
structure RSInit where
  output_order : List String
  output_orientation : List String
  orig_visibility : List (Nat × Bool)

/-- `RenderSprites.__init__`: validate, then read the order/orientation
fields and run `prepare_render`.  A `none` first component models the
`ValidationError` raised before anything is touched; the returned scene is
the (possibly mutated) host scene. -/
def RenderSprites_init (ctx : Ctx) : Option RSInit × Scene :=
  if ¬ validate_settings ctx then (none, ctx.scene)
  else
    let pr := prepare_render ctx
    (some { output_order := ctx.props.output_order_toks,
            output_orientation := ctx.props.output_orientation_toks,
            orig_visibility := pr.1 }, pr.2)

inductive ExecResult where
  | CANCELLED
  | RUNNING_MODAL
  deriving Repr, DecidableEq

/-- `RenderSprites_OT_Operator.execute` (lines 1235-1245): construct the
renderer, catching `ValidationError` as `{'CANCELLED'}`; on success start the
timer (final `Bool`) and go modal. -/
def RenderSprites_OT_execute (ctx : Ctx) : ExecResult × Scene × Bool :=
  match RenderSprites_init ctx with
  | (none, sc) => (ExecResult.CANCELLED, sc, false)
  | (some _, sc) => (ExecResult.RUNNING_MODAL, sc, true)

/-- A context that fails validation: no camera parent selected. -/
def ctxInvalid : Ctx :=
  { scene := { objs := [], camera := none, frame_current := 1,
               render_filepath := "p", render_file_extension := ".png" },
    props := { int_camera_angles := 8, pointer_camera_one := none,
               pointer_camera_two := none, pointer_camera_three := none,
               pointer_camera_four := none, pointer_output_parent := none,
               pointer_global_parent := none, bool_keep_renders := false,
               enum_sprite_sheet := "OFF", string_output_path := "",
               output_order_toks := ["sheet", "object", "camera", "track", "angle", "frame"],
               output_orientation_toks := ["-", "v", "h", "v", "v", "h"] },
    isdir := fun _ => false,
    pil_installed := true }

/-! ## The modal operator

`RenderSprites_OT_Operator.modal` (source lines 1214-1233) and `cancel`
(lines 1247-1249).  A modal call reads the validation outcome, the dirty
flag and the event, and either passes through or cancels (removing the
timer).  `iterate_calls` counts the calls to `self.r.iterate()` made during
the step and `cleanup_called` records whether `self.r.cleanup()` ran. -/

inductive ModalEvent where
  | TIMER
  | ESC
  | OTHER
  deriving Repr, DecidableEq

inductive ModalResult where
  | PASS_THROUGH
  | CANCELLED
  deriving Repr, DecidableEq

structure ModalStep where
  result : ModalResult
  stop_modal : Bool
  r : RSCounter
  iterate_calls : Nat
  cleanup_called : Bool
  timer_removed : Bool
  deriving Repr, DecidableEq

def modal (validation_ok : Bool) (is_dirty : Bool) (event : ModalEvent)
    (stop_modal : Bool) (r : RSCounter) : ModalStep :=
  if ¬ validation_ok then
    { result := .CANCELLED, stop_modal := false, r := r, iterate_calls := 0,
      cleanup_called := false, timer_removed := true }
  else if event = .ESC ∨ is_dirty then
    { result := .CANCELLED, stop_modal := false, r := r, iterate_calls := 0,
      cleanup_called := true, timer_removed := true }
  else if stop_modal then
    { result := .CANCELLED, stop_modal := false, r := r, iterate_calls := 0,
      cleanup_called := false, timer_removed := true }
  else if event = .TIMER then
    { result := .PASS_THROUGH, stop_modal := (iterate r).2, r := (iterate r).1,
      iterate_calls := 1, cleanup_called := false, timer_removed := false }
  else
    { result := .PASS_THROUGH, stop_modal := stop_modal, r := r, iterate_calls := 0,
      cleanup_called := false, timer_removed := false }

/-- The host's modal loop: deliver events (each with the validation outcome
and dirty flag observed at that moment) until the operator cancels. -/
def runModal : List (Bool × Bool × ModalEvent) → Bool → RSCounter → List ModalStep
  | [], _, _ => []
  | (vok, dirty, ev) :: evs, stop_modal, r =>
    let st := modal vok dirty ev stop_modal r
    match st.result with
    | .CANCELLED => [st]
    | .PASS_THROUGH => st :: runModal evs st.stop_modal st.r

/-! ## The renderer's per-iteration scene mutation

`RenderSprites.setup_scene` (source lines 970-1010), `reset_scene`
(1036-1072), `render_scene` (1012-1033) and `get_item_string` (914-935),
over the run-time state of the `RenderSprites` instance.  Lists are `Option`s
because the source initialises them to `None`; `self.tracks` is either the
`["No Action"]` marker or an alias of the current object's live
`nla_tracks` collection, modelled by the id of the object whose collection
it aliases. -/

inductive TracksVal where
  | noneV
  | noAction
  | live (objId : Nat)
  deriving Repr, DecidableEq

structure RSRun where
  angles : Option (List Nat)
  i_current_angle : Nat
  cameras : Option (List Nat)
  i_current_camera : Nat
  frames : Option (List Int)
  i_current_frame : Nat
  sheets : Option (List (List Nat))
  i_current_sheet : Nat
  objects : Option (List Nat)
  i_current_object : Nat
  tracks : TracksVal
  i_current_track : Nat
  output_order : List String
  output_orientation : List String
  cam_orig_location : Option V3
  cam_orig_rotation : Option ℚ
  orig_scene_camera : Option Nat
  global_parent_orig_location : Option V3
  orig_frame : Option Int
  orig_render_path : Option String
  deriving Repr, DecidableEq

def RSRun.objList (rs : RSRun) : List Nat := rs.objects.getD []

def RSRun.camList (rs : RSRun) : List Nat := rs.cameras.getD []

def RSRun.frameList (rs : RSRun) : List Int := rs.frames.getD []

def RSRun.angleList (rs : RSRun) : List Nat := rs.angles.getD []

def RSRun.sheetList (rs : RSRun) : List (List Nat) := rs.sheets.getD []

/-- `self.objects[self.i_current_object]`. -/
def RSRun.curObj (rs : RSRun) : Nat := rs.objList.getD rs.i_current_object 0

/-- `self.cameras[self.i_current_camera]`. -/
def RSRun.curCam (rs : RSRun) : Nat := rs.camList.getD rs.i_current_camera 0

def noTrack : NlaTrack := { tname := "", mute := false, strips := [] }

/-- `matrix_world.to_translation()`. -/
def world (o : SObj) : V3 := v3add o.worldOff o.location

def setLocation (sc : Scene) (i : Nat) (v : V3) : Scene :=
  updateObj sc i fun o => { o with location := v }

def setRotZ (sc : Scene) (i : Nat) (r : ℚ) : Scene :=
  updateObj sc i fun o => { o with rotZ := r }

/-- `for track in obj_animations.nla_tracks: track.mute = b`. -/
def setAllMute (sc : Scene) (i : Nat) (b : Bool) : Scene :=
  updateObj sc i fun o =>
    { o with animTracks := o.animTracks.map (·.map fun t => { t with mute := b }) }

/-- `self.tracks[tIdx].mute = b` through the live alias. -/
def setTrackMute (sc : Scene) (i : Nat) (tIdx : Nat) (b : Bool) : Scene :=
  updateObj sc i fun o =>
    { o with animTracks := o.animTracks.map fun ts =>
        ts.set tIdx { ts.getD tIdx noTrack with mute := b } }

/-- `obj.hide_render = b` followed by `for child in find_children(obj):
child.hide_render = b` — the loop shape used four times in
`setup_scene`/`reset_scene`. -/
def hideHierarchy (objId : Nat) (b : Bool) (scn : Scene) : Scene :=
  hideFold (setHideRender scn objId b) (find_children (setHideRender scn objId b).objs objId none) b

/-- `setup_scene` lines 986-990: mute all NLA tracks of the current object,
then unmute the current one (through the `self.tracks` alias). -/
def setupMuteTracks (rs : RSRun) (objId : Nat) (scn : Scene) : Scene :=
  if rs.tracks ≠ TracksVal.noAction then
    let scn1 := setAllMute scn objId true
    match rs.tracks with
    | TracksVal.live aId => setTrackMute scn1 aId rs.i_current_track false
    | _ => scn1
  else scn

/-- `RenderSprites.setup_scene` (lines 970-1010), stage for stage in source
order; the `rs` component records the five `orig_*` values at the moments
the source reads them. -/
def setup_scene (rs : RSRun) (props : AddonProperties) (scn : Scene) : RSRun × Scene :=
  let objId := rs.curObj
  let camId := rs.curCam
  -- Show current object and children
  let scn1 := hideHierarchy objId false scn
  -- Mute all tracks, then show the current track
  let scn2 := setupMuteTracks rs objId scn1
  -- Show camera hierarchy
  let obj_cam := (find_children scn2.objs camId (some "CAMERA")).getD 0 0
  let scn3 := hideHierarchy camId false scn2
  let scn4 := { scn3 with camera := some obj_cam }
  -- Move camera to object
  let scn5 := setLocation scn4 camId (world (objAt scn4 objId))
  -- Rotate camera (degrees model of math.radians(angle * (360 / n)))
  let scn6 := setRotZ scn5 camId
    ((rs.angleList.getD rs.i_current_angle 0 : ℚ) * (360 / (props.int_camera_angles : ℚ)))
  -- Move global to object
  let scn7 :=
    match props.pointer_global_parent with
    | some g => setLocation scn6 g (world (objAt scn6 objId))
    | none => scn6
  -- Set frame
  let scn8 := { scn7 with frame_current := rs.frameList.getD rs.i_current_frame 0 }
  ({ rs with
      orig_scene_camera := scn3.camera,
      cam_orig_location := some (world (objAt scn4 camId)),
      cam_orig_rotation := some (objAt scn5 camId).rotZ,
      global_parent_orig_location :=
        match props.pointer_global_parent with
        | some g => some (world (objAt scn6 g))
        | none => rs.global_parent_orig_location,
      orig_frame := some scn7.frame_current }, scn8)

/-- `RenderSprites.reset_scene` (lines 1036-1072), stage for stage.  Note the
truthiness checks of the source: a saved `mathutils.Vector` is always truthy
while a saved rotation of `0.0` or a saved frame number `0` is falsy, so
those two are then not restored. -/
def reset_scene (rs : RSRun) (props : AddonProperties) (scn : Scene) : RSRun × Scene :=
  let objId := rs.curObj
  let camId := rs.curCam
  -- Hide current object and children
  let scn1 := hideHierarchy objId true scn
  -- Unmute all tracks
  let scn2 := if rs.tracks ≠ TracksVal.noAction then setAllMute scn1 objId false else scn1
  -- Hide camera hierarchy
  let scn3 := hideHierarchy camId true scn2
  let scn4 := { scn3 with camera := rs.orig_scene_camera }
  -- Reset camera
  let scn5 :=
    match rs.cam_orig_location with
    | some v => setLocation scn4 camId v
    | none => scn4
  let scn6 :=
    match rs.cam_orig_rotation with
    | some rz => if rz ≠ 0 then setRotZ scn5 camId rz else scn5
    | none => scn5
  -- Reset global
  let scn7 :=
    match props.pointer_global_parent with
    | some g => setLocation scn6 g (rs.global_parent_orig_location.getD (0, 0, 0))
    | none => scn6
  -- Reset frame
  let scn8 :=
    match rs.orig_frame with
    | some f => if f ≠ 0 then { scn7 with frame_current := f } else scn7
    | none => scn7
  ({ rs with
      cam_orig_location := if rs.cam_orig_location.isSome then none else rs.cam_orig_location,
      cam_orig_rotation :=
        match rs.cam_orig_rotation with
        | some rz => if rz ≠ 0 then none else some rz
        | none => none,
      global_parent_orig_location :=
        if props.pointer_global_parent.isSome then none else rs.global_parent_orig_location,
      orig_frame :=
        match rs.orig_frame with
        | some f => if f ≠ 0 then none else some f
        | none => none }, scn8)

/-- Left-pad a decimal string with zeros (`str.zfill`). -/
def zfill (s : String) (w : Nat) : String :=
  if s.length < w then String.mk (List.replicate (w - s.length) '0') ++ s else s

/-- `RenderSprites.get_item_string` (lines 914-935).  The angle value
`int(angle * (360 / n))` is computed in exact integer arithmetic here. -/
def get_item_string (rs : RSRun) (props : AddonProperties) (scn : Scene)
    (level_index : Nat) : String :=
  let item_type := rs.output_order.getD level_index ""
  if item_type = "angle" then
    zfill (toString (rs.angleList.getD rs.i_current_angle 0 * 360 / props.int_camera_angles)) 3
  else if item_type = "camera" then
    (objAt scn rs.curCam).name
  else if item_type = "frame" then
    zfill (toString (rs.frameList.getD rs.i_current_frame 0)) 3
  else if item_type = "object" then
    (objAt scn rs.curObj).name
  else if item_type = "sheet" then
    (objAt scn ((objAt scn rs.curObj).parent.getD 0)).name
  else if item_type = "track" then
    if rs.tracks ≠ TracksVal.noAction then
      match rs.tracks with
      | TracksVal.live aId =>
        (((objAt scn aId).animTracks.getD []).getD rs.i_current_track noTrack).tname
      | _ => ""
    else "Static"
  else ""

/-- `RenderSprites.render_scene` (lines 1012-1033): build the per-iteration
output path, save the render filepath, point it at the output file, render
one still image, then restore the filepath. -/
def render_scene (rs : RSRun) (props : AddonProperties) (scn : Scene) : RSRun × Scene :=
  let output_folder := props.string_output_path ++ get_item_string rs props scn 0 ++ "\\" ++
    get_item_string rs props scn 1 ++ "\\" ++ get_item_string rs props scn 2 ++ "\\" ++
    get_item_string rs props scn 3 ++ "\\" ++ get_item_string rs props scn 4 ++ "\\"
  let output_name := get_item_string rs props scn 0 ++ "_" ++
    get_item_string rs props scn 1 ++ "_" ++ get_item_string rs props scn 2 ++ "_" ++
    get_item_string rs props scn 3 ++ "_" ++ get_item_string rs props scn 4 ++ "_" ++
    get_item_string rs props scn 5 ++ scn.render_file_extension
  let rs := { rs with orig_render_path := some scn.render_filepath }
  let scn := { scn with render_filepath := output_folder ++ output_name }
  -- bpy.ops.render.render(write_still=True) writes one image file here
  let scn := { scn with render_filepath := rs.orig_render_path.getD "" }
  let rs := { rs with orig_render_path := none }
  (rs, scn)

/-- One full `setup_scene`/`reset_scene` round trip on the host scene. -/
def roundTrip (rs : RSRun) (props : AddonProperties) (scn : Scene) : Scene :=
  (reset_scene (setup_scene rs props scn).1 props (setup_scene rs props scn).2).2

/-- A small concrete scene for claim C2: one render object (id 0), a camera
rig (id 1) with a child camera (id 2), and the output parent (id 3). -/
def scnC2 : Scene :=
  { objs :=
      [ { name := "Obj", otype := "MESH", parent := some 3, hide_render := true,
          location := (1, 0, 0), worldOff := (0, 0, 0), rotZ := 0, animTracks := none },
        { name := "Rig", otype := "EMPTY", parent := none, hide_render := true,
          location := (5, 5, 0), worldOff := (0, 0, 0), rotZ := 45, animTracks := none },
        { name := "Cam", otype := "CAMERA", parent := some 1, hide_render := true,
          location := (0, 0, 3), worldOff := (5, 5, 0), rotZ := 0, animTracks := none },
        { name := "Output", otype := "EMPTY", parent := none, hide_render := true,
          location := (0, 0, 0), worldOff := (0, 0, 0), rotZ := 0, animTracks := none } ],
    camera := some 2, frame_current := 7, render_filepath := "orig",
    render_file_extension := ".png" }

/-- The same scene with the current frame number 0 (Python falsy). -/
def scnC2zero : Scene := { scnC2 with frame_current := 0 }

def rsC2 : RSRun :=
  { angles := some [0, 1], i_current_angle := 1,
    cameras := some [1], i_current_camera := 0,
    frames := some [5], i_current_frame := 0,
    sheets := some [[0]], i_current_sheet := 0,
    objects := some [0], i_current_object := 0,
    tracks := TracksVal.noAction, i_current_track := 0,
    output_order := ["sheet", "object", "camera", "track", "angle", "frame"],
    output_orientation := ["-", "v", "h", "v", "v", "h"],
    cam_orig_location := none, cam_orig_rotation := none, orig_scene_camera := none,
    global_parent_orig_location := none, orig_frame := none, orig_render_path := none }

def propsC2 : AddonProperties :=
  { int_camera_angles := 8, pointer_camera_one := some 1, pointer_camera_two := none,
    pointer_camera_three := none, pointer_camera_four := none,
    pointer_output_parent := some 3, pointer_global_parent := none,
    bool_keep_renders := false, enum_sprite_sheet := "OFF",
    string_output_path := "C:\\out\\",
    output_order_toks := ["sheet", "object", "camera", "track", "angle", "frame"],
    output_orientation_toks := ["-", "v", "h", "v", "v", "h"] }

/-! ## Claim C9: `update_lists` and per-iteration index/division safety -/

/-- `range(a, b)` over the integers. -/
def intRange (a b : Int) : List Int := (List.range (b - a).toNat).map (fun k => a + (k : Int))

/-- The `anim_end` loop of `update_lists` (lines 838-846): the largest
`int(strip.frame_end)`, starting from `0`. -/
def animEnd (strips : List NlaStrip) : Int :=
  strips.foldl (fun e s => if s.frame_end > e then s.frame_end else e) 0

/-- The `anim_start` loop of `update_lists` (lines 838-846): the smallest
`int(strip.frame_start)`, starting from `None`. -/
def animStart (strips : List NlaStrip) : Option Int :=
  strips.foldl (fun a s =>
    match a with
    | none => some s.frame_start
    | some a0 => if s.frame_start < a0 then some s.frame_start else some a0) none

/-- `self.tracks[i].strips` for a live track list owned by object `aId`. -/
def stripsFor (scn : Scene) (aId : Nat) (i : Nat) : List NlaStrip :=
  (((objAt scn aId).animTracks.getD []).getD i noTrack).strips

/-- Python truthiness of `self.tracks`: `None` is falsy, `["No Action"]` is
truthy, and a live `nla_tracks` collection is truthy exactly when it is
non-empty. -/
def tracksTruthy (scn : Scene) : TracksVal → Bool
  | TracksVal.noneV => false
  | TracksVal.noAction => true
  | TracksVal.live aId => ((objAt scn aId).animTracks.getD []).length != 0

/-- `len(self.tracks)`: `["No Action"]` has length 1, a live collection has
the length of the object's NLA track list; `len(None)` raises `TypeError`
in the source and is modelled as 0 so that no safety condition accepts it. -/
def trackLenV (scn : Scene) : TracksVal → Nat
  | TracksVal.noneV => 0
  | TracksVal.noAction => 1
  | TracksVal.live aId => ((objAt scn aId).animTracks.getD []).length

/-- The `cameras` list `update_lists` builds (lines 816-828): the camera
parent pointers that are set, in box order. -/
def camerasOf (props : AddonProperties) : List Nat :=
  [props.pointer_camera_one, props.pointer_camera_two,
   props.pointer_camera_three, props.pointer_camera_four].filterMap id

/-- The `sheet_array` that `update_lists` builds at the sheet level
(lines 857-880), per the Sprite Sheet dropdown.  A missing output parent
(`find_children(None)`) is ruled out by `validate_settings` and by the
preconditions of claim C9. -/
def sheetsOf (ctx : Ctx) : List (List Nat) :=
  match ctx.props.pointer_output_parent with
  | none => []
  | some output =>
    if ctx.props.enum_sprite_sheet = "OFF" ∨ ctx.props.enum_sprite_sheet = "OUTPUT" then
      [find_children ctx.scene.objs output none]
    else if ctx.props.enum_sprite_sheet = "SPRITE" then
      (find_children ctx.scene.objs output none).map
        (fun child => find_children ctx.scene.objs child none)
    else if ctx.props.enum_sprite_sheet = "OBJECT" then
      (find_children ctx.scene.objs output none).map (fun child => [child])
    else []

/-- The `tracks` value `update_lists` builds at the track level for the
current object `oid` (lines 882-891): the live NLA track collection when
the object has animation data, `["No Action"]` otherwise. -/
def tracksOf (scn : Scene) (oid : Nat) : TracksVal :=
  if (objAt scn oid).animTracks.isSome then TracksVal.live oid else TracksVal.noAction

/-- The `frames` list `update_lists` builds at the frame level
(lines 830-852): `[0]` with no action, otherwise the frame range spanned by
the current track's strips.  With no strips the source raises `TypeError`
on `range(None, …)`; that case is mapped to `[]`, which no safety
condition accepts. -/
def framesOf (scn : Scene) (tv : TracksVal) (i_track : Nat) : List Int :=
  match tv with
  | TracksVal.noneV => []
  | TracksVal.noAction => [0]
  | TracksVal.live aId =>
    match animStart (stripsFor scn aId i_track) with
    | some a => intRange a (animEnd (stripsFor scn aId i_track) + 1)
    | none => []

/-- `RenderSprites.update_lists` (lines 797-894), `reset=False` path: rebuild
the list named by `output_order[level_index]` from the addon properties, the
scene and the lists it depends on (`objects` from the current sheet,
`tracks` from the current object, `frames` from the current track), leaving
it untouched when a dependency is falsy. -/
def update_lists (ctx : Ctx) (rs : RSRun) (level_index : Nat) : RSRun :=
  let list_type := rs.output_order.getD level_index ""
  if list_type = "angle" then
    { rs with angles := some (List.range ctx.props.int_camera_angles) }
  else if list_type = "camera" then
    { rs with cameras := some (camerasOf ctx.props) }
  else if list_type = "frame" then
    if tracksTruthy ctx.scene rs.tracks then
      if rs.tracks = TracksVal.noAction then { rs with frames := some [0] }
      else
        match rs.tracks with
        | TracksVal.live aId =>
          match animStart (stripsFor ctx.scene aId rs.i_current_track) with
          | some a =>
            let fl := intRange a (animEnd (stripsFor ctx.scene aId rs.i_current_track) + 1)
            { rs with frames := some fl }
          | none => rs
        | _ => rs
    else rs
  else if list_type = "object" then
    match rs.sheets with
    | some sl => if sl ≠ [] then { rs with objects := some (sl.getD rs.i_current_sheet []) } else rs
    | none => rs
  else if list_type = "sheet" then
    { rs with sheets := some (sheetsOf ctx) }
  else if list_type = "track" then
    match rs.objects with
    | some ol =>
      if ol ≠ [] then
        { rs with tracks := tracksOf ctx.scene (ol.getD rs.i_current_object 0) }
      else rs
    | none => rs
  else rs

/-- The list-update loop of `render_iteration` (lines 1186-1192):
`for level_index in range(0, len(self.output_order)):
self.update_lists(level_index)`. -/
def update_all (ctx : Ctx) (rs : RSRun) : RSRun :=
  (List.range rs.output_order.length).foldl (update_lists ctx) rs

/-- The group lists and indices of a run state as `incr_index` reads them
(a live `self.tracks` collection takes its length from the scene). -/
def counterOf (scn : Scene) (rs : RSRun) : RSCounter :=
  { angles := rs.angleList, i_current_angle := rs.i_current_angle,
    cameras := rs.camList, i_current_camera := rs.i_current_camera,
    frames := rs.frameList, i_current_frame := rs.i_current_frame,
    sheets := rs.sheetList, i_current_sheet := rs.i_current_sheet,
    objects := rs.objList, i_current_object := rs.i_current_object,
    tracks := List.replicate (trackLenV scn rs.tracks) "",
    i_current_track := rs.i_current_track,
    output_order := rs.output_order }

/-- The index-increment loop of `iterate` (lines 737-746) acting on a run
state: step the six indices exactly as the chain of `incr_index` calls does
and report `finished`. -/
def iterate_indices (scn : Scene) (rs : RSRun) : RSRun × Bool :=
  let p := iterate (counterOf scn rs)
  ({ rs with
      i_current_angle := p.1.i_current_angle, i_current_camera := p.1.i_current_camera,
      i_current_frame := p.1.i_current_frame, i_current_sheet := p.1.i_current_sheet,
      i_current_object := p.1.i_current_object, i_current_track := p.1.i_current_track }, p.2)

/-- The divisor `incr_index` takes a modulo by for a given group name. -/
def lenForRun (scn : Scene) (rs : RSRun) : String → Nat
  | "angle" => rs.angleList.length
  | "camera" => rs.camList.length
  | "frame" => rs.frameList.length
  | "object" => rs.objList.length
  | "sheet" => rs.sheetList.length
  | "track" => trackLenV scn rs.tracks
  | _ => 0

/-- Every subscript and division one `render_iteration` performs after its
`update_lists` loop is defined: each `incr_index` level divides by a
positive list length, each `self.<list>[self.i_current_<…>]` access in
`get_item_string` and `setup_scene` is within bounds, the angle string
divides by a positive `int_camera_angles`, and
`find_children(self.cameras[self.i_current_camera], 'CAMERA')[0]` in
`setup_scene` indexes a non-empty list. -/
def step_safe (ctx : Ctx) (rs : RSRun) : Prop :=
  (∀ l, l < rs.output_order.length → 0 < lenForRun ctx.scene rs (rs.output_order.getD l "")) ∧
  0 < ctx.props.int_camera_angles ∧
  rs.i_current_angle < rs.angleList.length ∧
  rs.i_current_camera < rs.camList.length ∧
  rs.i_current_frame < rs.frameList.length ∧
  rs.i_current_object < rs.objList.length ∧
  rs.i_current_sheet < rs.sheetList.length ∧
  rs.i_current_track < trackLenV ctx.scene rs.tracks ∧
  find_children ctx.scene.objs rs.curCam (some "CAMERA") ≠ []

instance (ctx : Ctx) (rs : RSRun) : Decidable (step_safe ctx rs) := by
  unfold step_safe; infer_instance

/-- The object pointer the track and frame lists of a state depend on:
`self.sheets[self.i_current_sheet][self.i_current_object]` as rebuilt from
the scene. -/
def oidOf (ctx : Ctx) (rs : RSRun) : Nat :=
  ((sheetsOf ctx).getD rs.i_current_sheet []).getD rs.i_current_object 0

/-- The between-iterations invariant of the six indices: each is in range
for the list `update_lists` will rebuild for it. -/
def c9inv (ctx : Ctx) (rs : RSRun) : Prop :=
  rs.i_current_angle < ctx.props.int_camera_angles ∧
  rs.i_current_camera < (camerasOf ctx.props).length ∧
  rs.i_current_sheet < (sheetsOf ctx).length ∧
  rs.i_current_object < ((sheetsOf ctx).getD rs.i_current_sheet []).length ∧
  rs.i_current_track < trackLenV ctx.scene (tracksOf ctx.scene (oidOf ctx rs)) ∧
  rs.i_current_frame <
    (framesOf ctx.scene (tracksOf ctx.scene (oidOf ctx rs)) rs.i_current_track).length

instance (ctx : Ctx) (rs : RSRun) : Decidable (c9inv ctx rs) := by
  unfold c9inv; infer_instance

/-- A scene satisfying every group-list precondition of claim C9 whose
camera rig (object 2) has no child `CAMERA` object. -/
def scnC9bad : Scene :=
  { objs :=
      [ { name := "Output", otype := "EMPTY", parent := none, hide_render := false,
          location := (0, 0, 0), worldOff := (0, 0, 0), rotZ := 0, animTracks := none },
        { name := "A", otype := "MESH", parent := some 0, hide_render := false,
          location := (0, 0, 0), worldOff := (0, 0, 0), rotZ := 0, animTracks := none },
        { name := "Rig", otype := "EMPTY", parent := none, hide_render := false,
          location := (0, 0, 0), worldOff := (0, 0, 0), rotZ := 0, animTracks := none } ],
    camera := none, frame_current := 1, render_filepath := "f",
    render_file_extension := ".png" }

def propsC9 : AddonProperties :=
  { int_camera_angles := 4, pointer_camera_one := some 2,
    pointer_camera_two := none, pointer_camera_three := none, pointer_camera_four := none,
    pointer_output_parent := some 0, pointer_global_parent := none,
    bool_keep_renders := false, enum_sprite_sheet := "OFF",
    string_output_path := "C:\\out\\",
    output_order_toks := ["sheet", "object", "camera", "track", "angle", "frame"],
    output_orientation_toks := ["-", "v", "h", "v", "v", "h"] }

def ctxC9bad : Ctx :=
  { scene := scnC9bad, props := propsC9, isdir := fun _ => true, pil_installed := true }

def rsC9bad : RSRun :=
  { angles := none, i_current_angle := 0,
    cameras := none, i_current_camera := 0,
    frames := none, i_current_frame := 0,
    sheets := none, i_current_sheet := 0,
    objects := none, i_current_object := 0,
    tracks := TracksVal.noneV, i_current_track := 0,
    output_order := ["sheet", "object", "camera", "track", "angle", "frame"],
    output_orientation := ["-", "v", "h", "v", "v", "h"],
    cam_orig_location := none, cam_orig_rotation := none, orig_scene_camera := none,
    global_parent_orig_location := none, orig_frame := none, orig_render_path := none }

/-- The walk track of the render object in the claim C9 witness scene. -/
def walkTrack : NlaTrack :=
  { tname := "Walk", mute := false, strips := [{ frame_start := 2, frame_end := 4 }] }

/-- The scene of `ctxC9bad` with a child `CAMERA` object (3) under the rig
and an animation track with one strip on the render object. -/
def scnC9 : Scene :=
  { objs :=
      [ { name := "Output", otype := "EMPTY", parent := none, hide_render := false,
          location := (0, 0, 0), worldOff := (0, 0, 0), rotZ := 0, animTracks := none },
        { name := "A", otype := "MESH", parent := some 0, hide_render := false,
          location := (0, 0, 0), worldOff := (0, 0, 0), rotZ := 0,
          animTracks := some [walkTrack] },
        { name := "Rig", otype := "EMPTY", parent := none, hide_render := false,
          location := (0, 0, 0), worldOff := (0, 0, 0), rotZ := 0, animTracks := none },
        { name := "Cam", otype := "CAMERA", parent := some 2, hide_render := false,
          location := (0, 0, 3), worldOff := (0, 0, 0), rotZ := 0, animTracks := none } ],
    camera := none, frame_current := 1, render_filepath := "f",
    render_file_extension := ".png" }

def ctxC9 : Ctx :=
  { scene := scnC9, props := propsC9, isdir := fun _ => true, pil_installed := true }

def rsC9 : RSRun := { rsC9bad with i_current_angle := 3 }

/-! ## Claims C6 and C7: `merge_images` -/

/-- A PIL image: its `size` (width, height) and its pixel payload, which
`merge_images` never inspects or modifies. -/
structure PILImage where
  size : Nat × Nat
  data : List Nat
  deriving Repr, DecidableEq

def anyImg : PILImage := { size := (0, 0), data := [] }

/-- The paste loop of `merge_images` (lines 1152-1160): paste each image at
the running `offset` along the merge direction, advancing the offset by the
image's width (HORIZONTAL) or height (VERTICAL).  Each event records the
image pasted (unchanged) and the (x, y) position it is pasted at. -/
def paste_loop (direction : String) : List PILImage → Nat → List (PILImage × Nat × Nat)
  | [], _ => []
  | img :: rest, offset =>
    if direction = "HORIZONTAL" then
      (img, offset, 0) :: paste_loop direction rest (offset + img.size.1)
    else if direction = "VERTICAL" then
      (img, 0, offset) :: paste_loop direction rest (offset + img.size.2)
    else paste_loop direction rest offset

/-- The flat-merge body of `merge_images` (lines 1137-1165): compute the
output dimensions from `zip(*(img.size for img in images))` — sum along the
merge direction, maximum across it — and paste every input at its
cumulative offset.  On an empty image list the source raises `ValueError`
unpacking the empty zip. -/
def merge_images_flat (direction : String) (images : List PILImage) :
    (Nat × Nat) × List (PILImage × Nat × Nat) :=
  let widths := images.map (fun i => i.size.1)
  let heights := images.map (fun i => i.size.2)
  let dims :=
    if direction = "HORIZONTAL" then (widths.sum, heights.foldl max 0)
    else if direction = "VERTICAL" then (widths.foldl max 0, heights.sum)
    else (0, 0)
  (dims, paste_loop direction images 0)

/-- A rendered-output directory tree: a folder name and its sub-folders
(the image files of each folder are implicit — `merge_images` merges
whatever files with the render extension the folder holds). -/
inductive FTree where
  | node (name : String) (subs : List FTree)

def treeName : FTree → String
  | FTree.node n _ => n

/-- The merge events `merge_images(folder, recursive=True, level)` emits
(lines 1090-1112): recurse into every sub-folder at `level + 1` first, in
listing order, then merge the folder's own files — unless the orientation
configured for this level is `'-'`, in which case `merge = False` and the
folder's own files are not merged.  `fuel` bounds the recursion depth; the
source recursion terminates because the directory tree is finite. -/
def mergeEvents (ori : List String) : Nat → FTree → Nat → List (String × Nat)
  | 0, _, _ => []
  | fuel + 1, FTree.node name subs, level =>
    let subEvents := subs.foldr (fun s acc => mergeEvents ori fuel s (level + 1) ++ acc) []
    if ori.getD level "" = "-" then subEvents else subEvents ++ [(name, level)]

def imgA : PILImage := { size := (3, 2), data := [10, 11] }

def imgB : PILImage := { size := (5, 7), data := [12] }

def sampleTree : FTree :=
  FTree.node "out" [FTree.node "000" [], FTree.node "045" []]

/-! ## Theorems -/

/-- First occurrences of two distinct members of a list are distinct. -/
theorem indexOf_ne_of_mem_of_ne {α : Type} [DecidableEq α] {a b : α} {l : List α}
    (ha : a ∈ l) (hb : b ∈ l) (hab : a ≠ b) : l.indexOf a ≠ l.indexOf b := by
  intro h
  have h1 := List.indexOf_get (List.indexOf_lt_length.mpr ha)
  have h2 := List.indexOf_get (List.indexOf_lt_length.mpr hb)
  apply hab
  rw [← h1, ← h2]
  simp [h]

/-- If each of the six group names occurs exactly once, the token list has at
least six entries. -/
theorem six_le_length_of_counts {a : List String}
    (h : ∀ t ∈ output_types, a.count t = 1) : 6 ≤ a.length := by
  have hs : List.Subperm output_types a := by
    rw [List.subperm_ext_iff]
    intro x hx
    have hx' := hx
    have hcx : output_types.count x = 1 := by
      simp only [output_types, List.mem_cons, List.not_mem_nil, or_false] at hx'
      rcases hx' with rfl | rfl | rfl | rfl | rfl | rfl <;> decide
    rw [hcx, h x hx]
  simpa [output_types] using hs.length_le

theorem orderClaimCond_counts {a : List String} (h : orderClaimCond a) :
    ∀ t ∈ output_types, a.count t = 1 := by
  obtain ⟨h1, h2, h3, h4, h5, h6, -⟩ := h
  intro t ht
  simp only [output_types, List.mem_cons, List.not_mem_nil, or_false] at ht
  rcases ht with rfl | rfl | rfl | rfl | rfl | rfl <;> assumption

/-- The multiplicity pass of `validate_output_order` produces no message
precisely when each of the six names occurs exactly once. -/
theorem order_counts_pass_iff (a : List String) :
    (output_types.filterMap fun output_type =>
        if a.count output_type > 1 then some ("* " ++ output_type ++ " must only appear once.")
        else if a.count output_type < 1 then some ("* " ++ output_type ++ " must appear once.")
        else none) = [] ↔ ∀ t ∈ output_types, a.count t = 1 := by
  rw [List.filterMap_eq_nil_iff]
  constructor
  · intro h t ht
    have := h t ht
    by_cases c1 : a.count t > 1
    · rw [if_pos c1] at this; exact absurd this (by simp)
    · rw [if_neg c1] at this
      by_cases c2 : a.count t < 1
      · rw [if_pos c2] at this; exact absurd this (by simp)
      · omega
  · intro h t ht
    simp [h t ht]

/-- The element-recognition pass of `validate_output_order` produces no message
precisely when every token is one of the six names. -/
theorem order_recognised_pass_iff (a : List String) :
    (a.filterMap fun element =>
        if element ∈ output_types then none
        else some ("* " ++ element ++ " is not a recognised element.")) = []
      ↔ ∀ x ∈ a, x ∈ output_types := by
  rw [List.filterMap_eq_nil_iff]
  constructor
  · intro h x hx
    have := h x hx
    by_contra hc
    rw [if_neg hc] at this
    exact absurd this (by simp)
  · intro h x hx
    simp [h x hx]

/-- Claim C5 (amended): `validate_output_order` accepts a (lowercased,
comma-split) Group Order token list exactly when every token is one of the six
group names, each of the six names occurs exactly once, `sheet` comes first,
`object` comes after `sheet`, `track` after `object` and `frame` after
`track`; every rejected list is rejected with at least one error message. -/
theorem c5_order_validator_iff :
    (∀ a : List String,
      (validate_output_order a = none ↔ orderClaimCond a ∧ ∀ x ∈ a, x ∈ output_types) ∧
      (∀ msgs, validate_output_order a = some msgs → msgs ≠ [])) := by
  intro a
  have hsheet_ne_obj : ("sheet" : String) ≠ "object" := by decide
  have hobj_ne_track : ("object" : String) ≠ "track" := by decide
  have htrack_ne_frame : ("track" : String) ≠ "frame" := by decide
  constructor
  · unfold validate_output_order
    by_cases hlen : a.length < 6
    · rw [if_pos hlen]
      simp only [reduceCtorEq, false_iff, not_and]
      intro hcond
      have := six_le_length_of_counts (orderClaimCond_counts hcond)
      omega
    · rw [if_neg hlen]
      simp only []
      by_cases h1 : (a.filterMap fun element =>
          if element ∈ output_types then none
          else some ("* " ++ element ++ " is not a recognised element.")) = []
      · rw [if_pos h1]
        have hrec : ∀ x ∈ a, x ∈ output_types := (order_recognised_pass_iff a).mp h1
        by_cases h2 : (output_types.filterMap fun output_type =>
            if a.count output_type > 1 then some ("* " ++ output_type ++ " must only appear once.")
            else if a.count output_type < 1 then some ("* " ++ output_type ++ " must appear once.")
            else none) = []
        · rw [if_pos h2]
          have hcnt : ∀ t ∈ output_types, a.count t = 1 := (order_counts_pass_iff a).mp h2
          have hmem : ∀ t ∈ output_types, t ∈ a := by
            intro t ht
            have := hcnt t ht
            exact List.count_pos_iff.mp (by omega)
          have hmem_sheet : "sheet" ∈ a := hmem _ (by simp [output_types])
          have hmem_obj : "object" ∈ a := hmem _ (by simp [output_types])
          have hmem_track : "track" ∈ a := hmem _ (by simp [output_types])
          have hmem_frame : "frame" ∈ a := hmem _ (by simp [output_types])
          by_cases h3 : ((if a.headD "" ≠ "sheet" then ["* The first element must be 'sheet'"] else [])
              ++ (if a.indexOf "object" < a.indexOf "sheet" then
                    ["* 'object' must be after 'sheet'"] else [])
              ++ (if a.indexOf "track" < a.indexOf "object" then
                    ["* 'track' must be after 'object'"] else [])
              ++ (if a.indexOf "frame" < a.indexOf "track" then
                    ["* 'frame' must be after 'track'"] else [])) = []
          · rw [if_pos h3]
            have h3' := h3
            simp only [List.append_eq_nil] at h3'
            obtain ⟨⟨⟨e1, e2⟩, e3⟩, e4⟩ := h3'
            have hh : a.headD "" = "sheet" := by
              by_contra hc
              rw [if_pos hc] at e1; exact absurd e1 (by simp)
            have ho : ¬ a.indexOf "object" < a.indexOf "sheet" := by
              intro hc; rw [if_pos hc] at e2; exact absurd e2 (by simp)
            have ht : ¬ a.indexOf "track" < a.indexOf "object" := by
              intro hc; rw [if_pos hc] at e3; exact absurd e3 (by simp)
            have hf : ¬ a.indexOf "frame" < a.indexOf "track" := by
              intro hc; rw [if_pos hc] at e4; exact absurd e4 (by simp)
            simp only [true_iff]
            refine ⟨⟨?_, ?_, ?_, ?_, ?_, ?_, hh, ?_, ?_, ?_⟩, hrec⟩
            · exact hcnt _ (by simp [output_types])
            · exact hcnt _ (by simp [output_types])
            · exact hcnt _ (by simp [output_types])
            · exact hcnt _ (by simp [output_types])
            · exact hcnt _ (by simp [output_types])
            · exact hcnt _ (by simp [output_types])
            · exact lt_of_le_of_ne (not_lt.mp ho)
                (indexOf_ne_of_mem_of_ne hmem_sheet hmem_obj hsheet_ne_obj)
            · exact lt_of_le_of_ne (not_lt.mp ht)
                (indexOf_ne_of_mem_of_ne hmem_obj hmem_track hobj_ne_track)
            · exact lt_of_le_of_ne (not_lt.mp hf)
                (indexOf_ne_of_mem_of_ne hmem_track hmem_frame htrack_ne_frame)
          · rw [if_neg h3]
            simp only [reduceCtorEq, false_iff, not_and]
            intro hcond _
            obtain ⟨-, -, -, -, -, -, hh, hso, hot, htf⟩ := hcond
            apply h3
            rw [if_neg (not_ne_iff.mpr hh),
              if_neg (not_lt.mpr hso.le), if_neg (not_lt.mpr hot.le),
              if_neg (not_lt.mpr htf.le)]
            rfl
        · rw [if_neg h2]
          simp only [reduceCtorEq, false_iff, not_and]
          intro hcond _
          exact h2 ((order_counts_pass_iff a).mpr (orderClaimCond_counts hcond))
      · rw [if_neg h1]
        simp only [reduceCtorEq, false_iff, not_and]
        intro _ hrec
        exact h1 ((order_recognised_pass_iff a).mpr hrec)
  · -- every `some` result carries at least one message
    unfold validate_output_order
    intro msgs
    by_cases hlen : a.length < 6
    · rw [if_pos hlen]; intro h
      simp only [Option.some.injEq] at h; subst h; simp
    · rw [if_neg hlen]
      simp only []
      by_cases h1 : (a.filterMap fun element =>
          if element ∈ output_types then none
          else some ("* " ++ element ++ " is not a recognised element.")) = []
      · rw [if_pos h1]
        by_cases h2 : (output_types.filterMap fun output_type =>
            if a.count output_type > 1 then some ("* " ++ output_type ++ " must only appear once.")
            else if a.count output_type < 1 then some ("* " ++ output_type ++ " must appear once.")
            else none) = []
        · rw [if_pos h2]
          by_cases h3 : ((if a.headD "" ≠ "sheet" then ["* The first element must be 'sheet'"] else [])
              ++ (if a.indexOf "object" < a.indexOf "sheet" then
                    ["* 'object' must be after 'sheet'"] else [])
              ++ (if a.indexOf "track" < a.indexOf "object" then
                    ["* 'track' must be after 'object'"] else [])
              ++ (if a.indexOf "frame" < a.indexOf "track" then
                    ["* 'frame' must be after 'track'"] else [])) = []
          · rw [if_pos h3]; intro h; exact absurd h (by simp)
          · rw [if_neg h3]; intro h
            simp only [Option.some.injEq] at h; subst h; exact h3
        · rw [if_neg h2]; intro h
          simp only [Option.some.injEq] at h; subst h; exact h2
      · rw [if_neg h1]
        intro h
        simp only [Option.some.injEq] at h; subst h; simp [h1]

/-- Claim C5 as frozen is refuted by the seven-token list for the string
`sheet,object,camera,track,angle,frame,x`: it contains each of the six group
names exactly once with all the required orderings, yet the validator rejects
it (the extra token `x` is not recognised). -/
theorem c5_counterexample :
    orderClaimCond ["sheet", "object", "camera", "track", "angle", "frame", "x"] ∧
    validate_output_order ["sheet", "object", "camera", "track", "angle", "frame", "x"] ≠ none := by
  decide

/-- Claim C10: `validate_output_orientation` accepts a (lowercased,
comma-split) Output Orientation token list exactly when it has at least six
entries, every entry is one of `-`, `h`, `v`, and the first entry is `-`; in
particular a seven-entry list with a second `-` after the first position is
accepted. -/
theorem c10_orientation_validator_iff :
    (∀ a : List String, validate_output_orientation a = none ↔ orientationClaimCond a) ∧
    validate_output_orientation ["-", "h", "v", "-", "h", "v", "v"] = none := by
  refine ⟨?_, by decide⟩
  intro a
  unfold validate_output_orientation orientationClaimCond
  by_cases hlen : a.length < 6
  · rw [if_pos hlen]
    simp only [reduceCtorEq, false_iff, not_and]
    intro h6
    omega
  · rw [if_neg hlen]
    simp only []
    by_cases h1 : (a.filterMap fun element =>
        if element ∈ orientation_types then none
        else some ("* " ++ element ++ " is not a recognised element.")) = []
    · rw [if_pos h1]
      have hrec : ∀ x ∈ a, x ∈ orientation_types := by
        intro x hx
        have := (List.filterMap_eq_nil_iff.mp h1) x hx
        by_contra hc
        rw [if_neg hc] at this
        exact absurd this (by simp)
      by_cases hh : a.headD "" ≠ "-"
      · rw [if_pos hh]
        simp only [reduceCtorEq, false_iff, not_and]
        intro _ _
        exact hh
      · rw [if_neg hh]
        push_neg at hh
        simp only [true_iff]
        exact ⟨by omega, hrec, hh⟩
    · rw [if_neg h1]
      simp only [reduceCtorEq, false_iff, not_and]
      intro _ hrec
      exfalso
      apply h1
      rw [List.filterMap_eq_nil_iff]
      intro x hx
      simp [hrec x hx]

theorem odoVal_lt {rs ds : List Nat} (h : List.Forall₂ (· < ·) ds rs) :
    odoVal rs ds < rs.prod := by
  induction h with
  | nil => simp [odoVal]
  | @cons d r ds rs hdr htail ih =>
    rw [List.prod_cons]
    show d + r * odoVal rs ds < r * rs.prod
    have h1 : d + r * odoVal rs ds < r * (odoVal rs ds + 1) := by
      rw [Nat.mul_succ]; omega
    have h2 : r * (odoVal rs ds + 1) ≤ r * rs.prod := Nat.mul_le_mul_left r ih
    omega

theorem odoDecode_spec {rs : List Nat} (hpos : ∀ r ∈ rs, 0 < r) :
    ∀ k, k < rs.prod →
      List.Forall₂ (· < ·) (odoDecode rs k) rs ∧ odoVal rs (odoDecode rs k) = k := by
  induction rs with
  | nil =>
    intro k hk
    simp only [List.prod_nil, Nat.lt_one_iff] at hk
    subst hk
    exact ⟨List.Forall₂.nil, rfl⟩
  | cons r rs ih =>
    intro k hk
    have hr : 0 < r := hpos r (by simp)
    rw [List.prod_cons] at hk
    have hdiv : k / r < rs.prod := by
      rw [Nat.div_lt_iff_lt_mul hr, Nat.mul_comm]; exact hk
    obtain ⟨h1, h2⟩ := ih (fun x hx => hpos x (by simp [hx])) (k / r) hdiv
    refine ⟨List.Forall₂.cons (Nat.mod_lt _ hr) h1, ?_⟩
    show k % r + r * odoVal rs (odoDecode rs (k / r)) = k
    rw [h2, Nat.mod_add_div]

theorem odoVal_inj {rs : List Nat} :
    ∀ {ds ds' : List Nat}, List.Forall₂ (· < ·) ds rs → List.Forall₂ (· < ·) ds' rs →
      odoVal rs ds = odoVal rs ds' → ds = ds' := by
  induction rs with
  | nil =>
    intro ds ds' h h' _
    cases h; cases h'; rfl
  | cons r rs ih =>
    intro ds ds' h h'
    cases h with
    | @cons d _ dt _ hd ht =>
      cases h' with
      | @cons d' _ dt' _ hd' ht' =>
        intro hv
        show d :: dt = d' :: dt'
        have hv' : d + r * odoVal rs dt = d' + r * odoVal rs dt' := hv
        have hr : 0 < r := by omega
        have hdd : d = d' := by
          have hm := congrArg (· % r) hv'
          simpa [Nat.add_mul_mod_self_left, Nat.mod_eq_of_lt hd, Nat.mod_eq_of_lt hd'] using hm
        subst hdd
        have hvv : odoVal rs dt = odoVal rs dt' :=
          Nat.eq_of_mul_eq_mul_left hr (by omega)
        rw [ih ht ht' hvv]

theorem odoStep_spec {rs ds : List Nat} (h : List.Forall₂ (· < ·) ds rs) :
    List.Forall₂ (· < ·) (odoStep rs ds).1 rs ∧
    odoVal rs (odoStep rs ds).1 = (odoVal rs ds + 1) % rs.prod ∧
    ((odoStep rs ds).2 = true ↔ odoVal rs ds + 1 = rs.prod) := by
  induction h with
  | nil => refine ⟨List.Forall₂.nil, by decide, by decide⟩
  | @cons d r ds rs hdr htail ih =>
    obtain ⟨ih1, ih2, ih3⟩ := ih
    have hr : 0 < r := by omega
    by_cases hw : (d + 1) % r = 0
    · have hdr1 : d + 1 = r := by
        rcases Nat.lt_or_ge (d + 1) r with hlt | hge
        · rw [Nat.mod_eq_of_lt hlt] at hw; omega
        · omega
      have hred : odoStep (r :: rs) (d :: ds) = ((d + 1) % r :: (odoStep rs ds).1, (odoStep rs ds).2) := by
        rw [odoStep, if_pos hw]
      rw [hred, hw]
      simp only [odoVal, List.prod_cons]
      refine ⟨List.Forall₂.cons hr ih1, ?_, ?_⟩
      · rw [ih2, Nat.zero_add]
        have hv1 : d + r * odoVal rs ds + 1 = r * (odoVal rs ds + 1) := by
          rw [Nat.mul_succ]; omega
        rw [hv1, Nat.mul_mod_mul_left]
      · rw [ih3]
        constructor
        · intro hv
          rw [show d + r * odoVal rs ds + 1 = r * (odoVal rs ds + 1) by rw [Nat.mul_succ]; omega, hv]
        · intro hv
          have hv' : r * (odoVal rs ds + 1) = r * rs.prod := by
            rw [Nat.mul_succ]; omega
          exact Nat.eq_of_mul_eq_mul_left hr hv'
    · have hlt : d + 1 < r := by
        rcases Nat.lt_or_ge (d + 1) r with hlt | hge
        · exact hlt
        · exfalso; apply hw
          have hdr1 : d + 1 = r := by omega
          rw [hdr1, Nat.mod_self]
      have hred : odoStep (r :: rs) (d :: ds) = ((d + 1) % r :: ds, false) := by
        rw [odoStep, if_neg hw]
      rw [hred, Nat.mod_eq_of_lt hlt]
      simp only [odoVal, List.prod_cons]
      have hbound : d + r * odoVal rs ds + 1 < r * rs.prod := by
        have h1 : d + r * odoVal rs ds + 1 < r * (odoVal rs ds + 1) := by
          rw [Nat.mul_succ]; omega
        have h2 : r * (odoVal rs ds + 1) ≤ r * rs.prod := Nat.mul_le_mul_left r (odoVal_lt htail)
        omega
      refine ⟨List.Forall₂.cons hlt htail, ?_, ?_⟩
      · rw [Nat.mod_eq_of_lt hbound]; omega
      · simp only [Bool.false_eq_true, false_iff]
        omega

theorem incr_index_spec (s : RSCounter) (l : Nat) (nm : String)
    (hnm : s.output_order.getD l "" = nm) (hmem : nm ∈ output_types) :
    (incr_index s l).1.output_order = s.output_order ∧
    (∀ m ∈ output_types, lenFor (incr_index s l).1 m = lenFor s m) ∧
    idxFor (incr_index s l).1 nm = (idxFor s nm + 1) % lenFor s nm ∧
    (∀ m ∈ output_types, m ≠ nm → idxFor (incr_index s l).1 m = idxFor s m) ∧
    (incr_index s l).2 = ((idxFor s nm + 1) % lenFor s nm == 0) := by
  simp only [output_types, List.mem_cons, List.not_mem_nil, or_false] at hmem
  rcases hmem with rfl | rfl | rfl | rfl | rfl | rfl <;>
    refine ⟨?_, ?_, ?_, ?_, ?_⟩ <;>
      simp only [incr_index, hnm, reduceIte, String.reduceEq] <;>
        first
        | trivial
        | (intro m hm
           simp only [output_types, List.mem_cons, List.not_mem_nil, or_false] at hm
           first
           | (rcases hm with rfl | rfl | rfl | rfl | rfl | rfl <;> rfl)
           | (intro hne
              rcases hm with rfl | rfl | rfl | rfl | rfl | rfl <;>
                first | rfl | exact absurd rfl hne))

theorem getElem_not_mem_take {α : Type} {l : List α} {k : Nat} (hnd : l.Nodup)
    (hk : k < l.length) : l[k] ∉ l.take k := by
  intro hmem
  have hsub : (l.take (k + 1)).Nodup := (List.take_sublist _ _).nodup hnd
  rw [List.take_succ, List.getElem?_eq_getElem hk, Option.toList_some] at hsub
  obtain ⟨-, -, hdisj⟩ := List.nodup_append.mp hsub
  exact hdisj hmem (by simp)

/-- The loop of `iterate` over levels `k-1, …, 0` acts on the digit vector of
those levels exactly as one odometer step, leaves the lists and the outer
levels untouched, and reports `finished` exactly as the odometer reports a
full wrap. -/
theorem iterate_levels_spec : ∀ (k : Nat) (s : RSCounter),
    s.output_order.Nodup →
    (∀ x ∈ s.output_order, x ∈ output_types) →
    1 ≤ k → k ≤ s.output_order.length →
    (iterate_levels s false ((List.range k).reverse)).1.output_order = s.output_order ∧
    (∀ m ∈ output_types, lenFor (iterate_levels s false ((List.range k).reverse)).1 m = lenFor s m) ∧
    digitsUpto (iterate_levels s false ((List.range k).reverse)).1 k
      = (odoStep (radsUpto s k) (digitsUpto s k)).1 ∧
    (∀ m ∈ output_types, m ∉ s.output_order.take k →
      idxFor (iterate_levels s false ((List.range k).reverse)).1 m = idxFor s m) ∧
    (iterate_levels s false ((List.range k).reverse)).2
      = (odoStep (radsUpto s k) (digitsUpto s k)).2 := by
  intro k
  induction k with
  | zero => intro s _ _ h1 _; omega
  | succ k ih =>
    intro s hnd hsub h1 hk
    have hklen : k < s.output_order.length := by omega
    set nm := s.output_order.getD k "" with hnmdef
    have hnm : s.output_order.getD k "" = nm := rfl
    have hnm_eq : nm = s.output_order[k] := by
      rw [hnmdef, List.getD_eq_getElem?_getD, List.getElem?_eq_getElem hklen]; rfl
    have hnm_mem : nm ∈ output_types := by
      apply hsub
      rw [hnm_eq]
      exact List.getElem_mem hklen
    have hnm_take : nm ∉ s.output_order.take k := by
      rw [hnm_eq]; exact getElem_not_mem_take hnd hklen
    have hlv : (List.range (k + 1)).reverse = k :: (List.range k).reverse := by
      rw [List.range_succ, List.reverse_append]; rfl
    have htk : s.output_order.take (k + 1) = s.output_order.take k ++ [nm] := by
      rw [List.take_succ, List.getElem?_eq_getElem hklen, hnm_eq]; rfl
    obtain ⟨hio, hilen, hiidx, hiother, hiw⟩ := incr_index_spec s k nm hnm hnm_mem
    set s₁ := (incr_index s k).1 with hs₁
    have hdigCons : ∀ (t : RSCounter), t.output_order = s.output_order →
        digitsUpto t (k + 1) = idxFor t nm :: digitsUpto t k := by
      intro t ht
      rw [digitsUpto, digitsUpto, ht, htk, List.reverse_append]; rfl
    have hradCons : ∀ (t : RSCounter), t.output_order = s.output_order →
        radsUpto t (k + 1) = lenFor t nm :: radsUpto t k := by
      intro t ht
      rw [radsUpto, radsUpto, ht, htk, List.reverse_append]; rfl
    have hD1 : digitsUpto s₁ k = digitsUpto s k := by
      rw [digitsUpto, digitsUpto, hio]
      apply List.map_congr_left
      intro m hm
      have hm' : m ∈ s.output_order.take k := List.mem_reverse.mp hm
      exact hiother m (hsub m (List.take_subset _ _ hm')) (fun he => hnm_take (he ▸ hm'))
    have hR1 : radsUpto s₁ k = radsUpto s k := by
      rw [radsUpto, radsUpto, hio]
      apply List.map_congr_left
      intro m hm
      have hm' : m ∈ s.output_order.take k := List.mem_reverse.mp hm
      exact hilen m (hsub m (List.take_subset _ _ hm'))
    rw [hlv]
    by_cases hw : (idxFor s nm + 1) % lenFor s nm = 0
    · -- level k wraps
      have hpw : (incr_index s k).2 = true := by rw [hiw]; simp [hw]
      rcases Nat.eq_zero_or_pos k with hk0 | hkpos
      · -- level 0 wraps: finished
        subst hk0
        have hred : iterate_levels s false (0 :: (List.range 0).reverse) = (s₁, true) := by
          rw [iterate_levels, hpw]; rfl
        rw [hred]
        have htake0 : digitsUpto s 0 = [] := rfl
        have hodo : odoStep (radsUpto s 1) (digitsUpto s 1)
            = ((idxFor s nm + 1) % lenFor s nm :: [], true) := by
          rw [hradCons s rfl, hdigCons s rfl, odoStep, if_pos hw]
          rfl
        refine ⟨hio, hilen, ?_, ?_, by rw [hodo]⟩
        · rw [hdigCons s₁ hio, hodo, hiidx]
          have : digitsUpto s₁ 0 = [] := rfl
          rw [this]
        · intro m hm hmem
          refine hiother m hm (fun he => hmem ?_)
          rw [htk]; simp [he]
      · -- carry into the next level out
        have hred : iterate_levels s false (k :: (List.range k).reverse)
            = iterate_levels s₁ false ((List.range k).reverse) := by
          rw [iterate_levels, hpw]
          have hkne : (k == 0) = false := by simp; omega
          rw [hkne]; rfl
        rw [hred]
        obtain ⟨j1, j2, j3, j4, j5⟩ := ih s₁ (hio ▸ hnd) (fun x hx => hsub x (hio ▸ hx)) hkpos
          (by rw [hio]; omega)
        set res := (iterate_levels s₁ false ((List.range k).reverse)).1 with hres
        have hro : res.output_order = s.output_order := by rw [j1, hio]
        have hodo : odoStep (radsUpto s (k + 1)) (digitsUpto s (k + 1))
            = ((idxFor s nm + 1) % lenFor s nm :: (odoStep (radsUpto s k) (digitsUpto s k)).1,
               (odoStep (radsUpto s k) (digitsUpto s k)).2) := by
          rw [hradCons s rfl, hdigCons s rfl, odoStep, if_pos hw]
        have hresnm : idxFor res nm = (idxFor s nm + 1) % lenFor s nm := by
          have : idxFor res nm = idxFor s₁ nm :=
            j4 nm hnm_mem (by rw [hio]; exact hnm_take)
          rw [this, hiidx]
        refine ⟨hro, ?_, ?_, ?_, ?_⟩
        · intro m hm
          rw [j2 m hm, hilen m hm]
        · rw [hdigCons res hro, hodo, hresnm, j3, hD1, hR1]
        · intro m hm hmem
          have hm1 : m ∉ s.output_order.take k := fun hc => hmem (by rw [htk]; simp [hc])
          have hm2 : m ≠ nm := fun he => hmem (by rw [htk]; simp [he])
          rw [j4 m hm (by rw [hio]; exact hm1), hiother m hm hm2]
        · rw [j5, hodo, hD1, hR1]
    · -- level k does not wrap: the loop stops here
      have hpw : (incr_index s k).2 = false := by rw [hiw]; simp [hw]
      have hred : iterate_levels s false (k :: (List.range k).reverse) = (s₁, false) := by
        rw [iterate_levels, hpw]; rfl
      rw [hred]
      have hodo : odoStep (radsUpto s (k + 1)) (digitsUpto s (k + 1))
          = ((idxFor s nm + 1) % lenFor s nm :: digitsUpto s k, false) := by
        rw [hradCons s rfl, hdigCons s rfl, odoStep, if_neg hw]
      refine ⟨hio, hilen, ?_, ?_, by rw [hodo]⟩
      · rw [hdigCons s₁ hio, hodo, hiidx, hD1]
      · intro m hm hmem
        refine hiother m hm (fun he => hmem ?_)
        rw [htk]; simp [he]

theorem digitsLSB_eq (s : RSCounter) :
    digitsLSB s = s.output_order.reverse.map (idxFor s) := by
  rw [digitsLSB, digitsUpto, List.take_length]

theorem radsLSB_eq (s : RSCounter) :
    radsLSB s = s.output_order.reverse.map (lenFor s) := by
  rw [radsLSB, radsUpto, List.take_length]

theorem forall₂_map_lt {l : List String} {f g : String → Nat} :
    List.Forall₂ (· < ·) (l.map f) (l.map g) ↔ ∀ x ∈ l, f x < g x := by
  induction l with
  | nil => simp
  | cons x xs ih => simp [List.forall₂_cons, ih]

theorem map_eq_map_mem {α β : Type} {f g : α → β} :
    ∀ {l : List α}, l.map f = l.map g → ∀ x ∈ l, f x = g x := by
  intro l
  induction l with
  | nil => intro _ x hx; exact absurd hx (List.not_mem_nil x)
  | cons a t ih =>
    intro h x hx
    rw [List.map_cons, List.map_cons] at h
    obtain ⟨h1, h2⟩ := List.cons.injEq _ _ _ _ ▸ h
    cases hx with
    | head => exact h1
    | tail _ hx => exact ih h2 x hx

theorem pos_of_forall₂ {ds rs : List Nat} (h : List.Forall₂ (· < ·) ds rs) :
    ∀ r ∈ rs, 0 < r := by
  induction h with
  | nil => intro r hr; exact absurd hr (List.not_mem_nil r)
  | @cons d r ds rs hdr _ ih =>
    intro x hx
    cases hx with
    | head => omega
    | tail _ hx => exact ih x hx

theorem odoDecode_length : ∀ (rs : List Nat) (k : Nat), (odoDecode rs k).length = rs.length
  | [], _ => rfl
  | _ :: rs, k => by rw [odoDecode, List.length_cons, List.length_cons, odoDecode_length]

theorem map_getD_indexOf {l : List String} (f : String → Nat) {nm : String} (h : nm ∈ l) :
    (l.map f).getD (l.indexOf nm) 0 = f nm := by
  have hlt : l.indexOf nm < l.length := List.indexOf_lt_length.mpr h
  rw [List.getD_eq_getElem?_getD, List.getElem?_eq_getElem (by simpa using hlt)]
  rw [List.getElem_map]
  rw [List.getElem_indexOf hlt]
  rfl

/-- `iterate` under a valid (permutation) group order: the lists are
untouched and the digit vector takes one odometer step, with `finished`
reported exactly as the odometer's full wrap. -/
theorem iterate_full_spec (s : RSCounter) (hperm : s.output_order.Perm output_types) :
    (iterate s).1.output_order = s.output_order ∧
    (∀ m ∈ output_types, lenFor (iterate s).1 m = lenFor s m) ∧
    radsLSB (iterate s).1 = radsLSB s ∧
    digitsLSB (iterate s).1 = (odoStep (radsLSB s) (digitsLSB s)).1 ∧
    (iterate s).2 = (odoStep (radsLSB s) (digitsLSB s)).2 := by
  have hnd : s.output_order.Nodup := hperm.nodup_iff.mpr (by decide)
  have hsub : ∀ x ∈ s.output_order, x ∈ output_types := fun x hx => hperm.mem_iff.mp hx
  have hlen6 : s.output_order.length = 6 := by rw [hperm.length_eq]; rfl
  obtain ⟨a, b, c, d, e⟩ := iterate_levels_spec s.output_order.length s hnd hsub
    (by omega) le_rfl
  have hro : (iterate s).1.output_order = s.output_order := a
  refine ⟨a, b, ?_, ?_, e⟩
  · rw [radsLSB_eq, radsLSB_eq, hro]
    apply List.map_congr_left
    intro m hm
    exact b m (hsub m (List.mem_reverse.mp hm))
  · have : digitsLSB (iterate s).1 = digitsUpto (iterate s).1 s.output_order.length := by
      rw [digitsLSB, hro]
    rw [this]
    exact c

/-- The six current indices, by name, for a name among the six group names. -/
theorem combo_components (s : RSCounter) :
    combo s = (idxFor s "sheet", idxFor s "object", idxFor s "camera",
               idxFor s "track", idxFor s "frame", idxFor s "angle") := rfl

theorem combo_eq_comboAt (s : RSCounter) (hperm : s.output_order.Perm output_types)
    (hvalid : List.Forall₂ (· < ·) (digitsLSB s) (radsLSB s)) :
    combo s = comboAt s.output_order (radsLSB s) (odoVal (radsLSB s) (digitsLSB s)) := by
  have hpos := pos_of_forall₂ hvalid
  have hvlt := odoVal_lt hvalid
  obtain ⟨hdf, hdv⟩ := odoDecode_spec hpos _ hvlt
  have hdd : odoDecode (radsLSB s) (odoVal (radsLSB s) (digitsLSB s)) = digitsLSB s :=
    odoVal_inj hdf hvalid hdv
  have hmem : ∀ nm ∈ output_types, nm ∈ s.output_order.reverse := by
    intro nm hm
    rw [List.mem_reverse]
    exact hperm.mem_iff.mpr hm
  rw [comboAt, hdd, combo_components]
  rw [digitsLSB_eq]
  rw [map_getD_indexOf (idxFor s) (hmem _ (by decide)),
    map_getD_indexOf (idxFor s) (hmem _ (by decide)),
    map_getD_indexOf (idxFor s) (hmem _ (by decide)),
    map_getD_indexOf (idxFor s) (hmem _ (by decide)),
    map_getD_indexOf (idxFor s) (hmem _ (by decide)),
    map_getD_indexOf (idxFor s) (hmem _ (by decide))]

theorem comboAt_inj {order : List String} {rs : List Nat} (hperm : order.Perm output_types)
    (hlen : rs.length = order.length) (hpos : ∀ r ∈ rs, 0 < r) {v v' : Nat}
    (hv : v < rs.prod) (hv' : v' < rs.prod)
    (heq : comboAt order rs v = comboAt order rs v') : v = v' := by
  obtain ⟨hf, hval⟩ := odoDecode_spec hpos v hv
  obtain ⟨hf', hval'⟩ := odoDecode_spec hpos v' hv'
  suffices hds : odoDecode rs v = odoDecode rs v' by
    rw [← hval, ← hval', hds]
  have hndr : order.reverse.Nodup := by
    rw [List.nodup_reverse]
    exact hperm.nodup_iff.mpr (by decide)
  have hlenr : order.reverse.length = rs.length := by rw [List.length_reverse, hlen]
  simp only [comboAt, Prod.mk.injEq] at heq
  obtain ⟨e1, e2, e3, e4, e5, e6⟩ := heq
  apply List.ext_getElem (by rw [odoDecode_length, odoDecode_length])
  intro j hj hj'
  have hjr : j < order.reverse.length := by
    rw [hlenr]
    rw [odoDecode_length] at hj
    exact hj
  set nm := order.reverse.get ⟨j, hjr⟩ with hnmdef
  have hnm_mem : nm ∈ order.reverse := List.get_mem order.reverse j hjr
  have hixlt : order.reverse.indexOf nm < order.reverse.length :=
    List.indexOf_lt_length.mpr hnm_mem
  have hix : order.reverse.indexOf nm = j := by
    apply (hndr.getElem_inj_iff).mp
    rw [List.getElem_indexOf hixlt]
    rw [hnmdef]
    rfl
  have hconv : ∀ (w : Nat) (hw : j < (odoDecode rs w).length),
      (odoDecode rs w).getD j 0 = (odoDecode rs w).get ⟨j, hw⟩ := by
    intro w hw
    rw [List.getD_eq_getElem?_getD, List.getElem?_eq_getElem hw]
    rfl
  have hnm_types : nm ∈ output_types :=
    ((List.reverse_perm order).trans hperm).mem_iff.mp hnm_mem
  have hgoal : (odoDecode rs v).getD j 0 = (odoDecode rs v').getD j 0 := by
    simp only [output_types, List.mem_cons, List.not_mem_nil, or_false] at hnm_types
    rcases hnm_types with h6 | h3 | h5 | h2 | h1 | h4
    · rw [h6] at hix; rw [← hix]; exact e6
    · rw [h3] at hix; rw [← hix]; exact e3
    · rw [h5] at hix; rw [← hix]; exact e5
    · rw [h2] at hix; rw [← hix]; exact e2
    · rw [h1] at hix; rw [← hix]; exact e1
    · rw [h4] at hix; rw [← hix]; exact e4
  rw [hconv v hj, hconv v' hj'] at hgoal
  exact hgoal

theorem validCombo_iff (s : RSCounter) (c : Nat × Nat × Nat × Nat × Nat × Nat) :
    validCombo s c ↔ ∀ nm ∈ output_types, cFor c nm < lenFor s nm := by
  constructor
  · intro h nm hnm
    simp only [output_types, List.mem_cons, List.not_mem_nil, or_false] at hnm
    rcases hnm with rfl | rfl | rfl | rfl | rfl | rfl
    · exact h.2.2.2.2.2
    · exact h.2.2.1
    · exact h.2.2.2.2.1
    · exact h.2.1
    · exact h.1
    · exact h.2.2.2.1
  · intro h
    exact ⟨h "sheet" (by decide), h "object" (by decide), h "camera" (by decide),
      h "track" (by decide), h "frame" (by decide), h "angle" (by decide)⟩

theorem radsLSB_getD (s : RSCounter) (hperm : s.output_order.Perm output_types)
    {nm : String} (hnm : nm ∈ output_types) :
    (radsLSB s).getD (s.output_order.reverse.indexOf nm) 0 = lenFor s nm := by
  rw [radsLSB_eq]
  exact map_getD_indexOf (lenFor s) (List.mem_reverse.mpr (hperm.mem_iff.mpr hnm))

theorem forall₂_getD_lt {ds rs : List Nat} (h : List.Forall₂ (· < ·) ds rs)
    {i : Nat} (hi : i < ds.length) : ds.getD i 0 < rs.getD i 0 := by
  rw [List.forall₂_iff_get] at h
  obtain ⟨hlen, hget⟩ := h
  have hi' : i < rs.length := by omega
  rw [List.getD_eq_getElem?_getD, List.getElem?_eq_getElem hi,
    List.getD_eq_getElem?_getD, List.getElem?_eq_getElem hi']
  exact hget i hi hi'

theorem comboAt_valid (s : RSCounter) (hperm : s.output_order.Perm output_types)
    {v : Nat} (hpos : ∀ r ∈ radsLSB s, 0 < r) (hv : v < (radsLSB s).prod) :
    validCombo s (comboAt s.output_order (radsLSB s) v) := by
  obtain ⟨hf, -⟩ := odoDecode_spec hpos v hv
  rw [validCombo_iff]
  intro nm hnm
  have hcomp : cFor (comboAt s.output_order (radsLSB s) v) nm
      = (odoDecode (radsLSB s) v).getD (s.output_order.reverse.indexOf nm) 0 := by
    simp only [output_types, List.mem_cons, List.not_mem_nil, or_false] at hnm
    rcases hnm with rfl | rfl | rfl | rfl | rfl | rfl <;> rfl
  rw [hcomp, ← radsLSB_getD s hperm hnm]
  apply forall₂_getD_lt hf
  rw [odoDecode_length, radsLSB_eq, List.length_map]
  exact List.indexOf_lt_length.mpr (List.mem_reverse.mpr (hperm.mem_iff.mpr hnm))

theorem comboAt_of_valid (s : RSCounter) (hperm : s.output_order.Perm output_types)
    (c : Nat × Nat × Nat × Nat × Nat × Nat) (hc : validCombo s c) :
    ∃ v, v < (radsLSB s).prod ∧ comboAt s.output_order (radsLSB s) v = c := by
  have hfds : List.Forall₂ (· < ·) (s.output_order.reverse.map (cFor c)) (radsLSB s) := by
    rw [radsLSB_eq]
    apply forall₂_map_lt.mpr
    intro x hx
    exact (validCombo_iff s c).mp hc x (((List.reverse_perm _).trans hperm).mem_iff.mp hx)
  refine ⟨odoVal (radsLSB s) (s.output_order.reverse.map (cFor c)), odoVal_lt hfds, ?_⟩
  obtain ⟨hf, hv⟩ := odoDecode_spec (pos_of_forall₂ hfds) _ (odoVal_lt hfds)
  have hdec : odoDecode (radsLSB s) (odoVal (radsLSB s) (s.output_order.reverse.map (cFor c)))
      = s.output_order.reverse.map (cFor c) := odoVal_inj hf hfds hv
  have hmem : ∀ nm ∈ output_types, nm ∈ s.output_order.reverse := by
    intro nm hm
    exact List.mem_reverse.mpr (hperm.mem_iff.mpr hm)
  rw [comboAt, hdec]
  rw [map_getD_indexOf (cFor c) (hmem _ (by decide)),
    map_getD_indexOf (cFor c) (hmem _ (by decide)),
    map_getD_indexOf (cFor c) (hmem _ (by decide)),
    map_getD_indexOf (cFor c) (hmem _ (by decide)),
    map_getD_indexOf (cFor c) (hmem _ (by decide)),
    map_getD_indexOf (cFor c) (hmem _ (by decide))]
  rfl

theorem odoVal_zero : ∀ (rs ds : List Nat), (∀ d ∈ ds, d = 0) → odoVal rs ds = 0 := by
  intro rs
  induction rs with
  | nil => intro ds _; cases ds <;> rfl
  | cons r rs ih =>
    intro ds hds
    cases ds with
    | nil => rfl
    | cons d ds =>
      show d + r * odoVal rs ds = 0
      rw [hds d (by simp), ih ds (fun x hx => hds x (by simp [hx])), Nat.mul_zero]

theorem runCalls_not_finished : ∀ (m : Nat) (s : RSCounter),
    s.output_order.Perm output_types →
    List.Forall₂ (· < ·) (digitsLSB s) (radsLSB s) →
    odoVal (radsLSB s) (digitsLSB s) + m < (radsLSB s).prod →
    (runCalls m s).2 = false ∧ (runCalls m s).1.length = m := by
  intro m
  induction m with
  | zero => intro s _ _ _; exact ⟨rfl, rfl⟩
  | succ m ih =>
    intro s hperm hvalid hlt
    obtain ⟨ho, hlens, hrads, hdig, hfin⟩ := iterate_full_spec s hperm
    obtain ⟨o1, o2, o3⟩ := odoStep_spec hvalid
    have hfin_false : (iterate s).2 = false := by
      rw [hfin]
      cases hb : (odoStep (radsLSB s) (digitsLSB s)).2
      · rfl
      · exact absurd (o3.mp hb) (by omega)
    have hstep : runCalls (m + 1) s
        = (combo s :: (runCalls m (iterate s).1).1, (runCalls m (iterate s).1).2) := by
      simp [runCalls, hfin_false]
    have hperm' : (iterate s).1.output_order.Perm output_types := by rw [ho]; exact hperm
    have hvalid' : List.Forall₂ (· < ·) (digitsLSB (iterate s).1) (radsLSB (iterate s).1) := by
      rw [hdig, hrads]; exact o1
    have hval' : odoVal (radsLSB (iterate s).1) (digitsLSB (iterate s).1)
        = odoVal (radsLSB s) (digitsLSB s) + 1 := by
      rw [hdig, hrads, o2, Nat.mod_eq_of_lt (by omega)]
    obtain ⟨r1, r2⟩ := ih (iterate s).1 hperm' hvalid' (by rw [hval', hrads]; omega)
    rw [hstep]
    exact ⟨r1, by simp [r2]⟩

theorem runCalls_finishes : ∀ (m : Nat) (s : RSCounter),
    s.output_order.Perm output_types →
    List.Forall₂ (· < ·) (digitsLSB s) (radsLSB s) →
    odoVal (radsLSB s) (digitsLSB s) + m = (radsLSB s).prod →
    (runCalls m s).2 = true ∧
    (runCalls m s).1
      = (List.range' (odoVal (radsLSB s) (digitsLSB s)) m).map
          (comboAt s.output_order (radsLSB s)) := by
  intro m
  induction m with
  | zero =>
    intro s _ hvalid heq
    exact absurd heq (by have := odoVal_lt hvalid; omega)
  | succ m ih =>
    intro s hperm hvalid heq
    obtain ⟨ho, hlens, hrads, hdig, hfin⟩ := iterate_full_spec s hperm
    obtain ⟨o1, o2, o3⟩ := odoStep_spec hvalid
    have hcombo := combo_eq_comboAt s hperm hvalid
    rcases Nat.eq_zero_or_pos m with hm0 | hmpos
    · subst hm0
      have hfin_true : (iterate s).2 = true := by
        rw [hfin]; exact o3.mpr (by omega)
      refine ⟨by simp [runCalls, hfin_true], ?_⟩
      have hstep : runCalls 1 s = ([combo s], true) := by
        simp [runCalls, hfin_true]
      rw [hstep, List.range'_succ]
      simp [hcombo]
    · have hfin_false : (iterate s).2 = false := by
        rw [hfin]
        cases hb : (odoStep (radsLSB s) (digitsLSB s)).2
        · rfl
        · exact absurd (o3.mp hb) (by omega)
      have hstep : runCalls (m + 1) s
          = (combo s :: (runCalls m (iterate s).1).1, (runCalls m (iterate s).1).2) := by
        simp [runCalls, hfin_false]
      have hperm' : (iterate s).1.output_order.Perm output_types := by rw [ho]; exact hperm
      have hvalid' : List.Forall₂ (· < ·) (digitsLSB (iterate s).1) (radsLSB (iterate s).1) := by
        rw [hdig, hrads]; exact o1
      have hval' : odoVal (radsLSB (iterate s).1) (digitsLSB (iterate s).1)
          = odoVal (radsLSB s) (digitsLSB s) + 1 := by
        rw [hdig, hrads, o2, Nat.mod_eq_of_lt (by omega)]
      obtain ⟨r1, r2⟩ := ih (iterate s).1 hperm' hvalid' (by rw [hval', hrads]; omega)
      rw [hstep]
      refine ⟨r1, ?_⟩
      rw [List.range'_succ, List.map_cons, ← hcombo]
      have : (List.range' (odoVal (radsLSB s) (digitsLSB s) + 1) m).map
            (comboAt s.output_order (radsLSB s))
          = (List.range' (odoVal (radsLSB (iterate s).1) (digitsLSB (iterate s).1)) m).map
            (comboAt (iterate s).1.output_order (radsLSB (iterate s).1)) := by
        rw [hval', ho, hrads]
      rw [this, ← r2]

/-- Claim C1: with all six group lists non-empty and fixed for the run and a
valid (permutation) group order, starting from the freshly-constructed state
(all indices zero), calling `iterate()` until it returns `True` renders
exactly one image per combination of (sheet, object, camera, track, frame,
angle) — the trace has one entry per combination, no duplicates, and exactly
the in-range combinations — and `iterate()` returns `False` on every call
except the final (`totalCombos`-th) one, on which it returns `True`. -/
theorem c1_cartesian_product_run (s : RSCounter)
    (hperm : s.output_order.Perm output_types)
    (hsheets : 0 < s.sheets.length) (hobjects : 0 < s.objects.length)
    (hcameras : 0 < s.cameras.length) (htracks : 0 < s.tracks.length)
    (hframes : 0 < s.frames.length) (hangles : 0 < s.angles.length)
    (hz1 : s.i_current_sheet = 0) (hz2 : s.i_current_object = 0)
    (hz3 : s.i_current_camera = 0) (hz4 : s.i_current_track = 0)
    (hz5 : s.i_current_frame = 0) (hz6 : s.i_current_angle = 0) :
    (runCalls (totalCombos s) s).2 = true ∧
    (runCalls (totalCombos s) s).1.length = totalCombos s ∧
    (runCalls (totalCombos s) s).1.Nodup ∧
    (∀ c, c ∈ (runCalls (totalCombos s) s).1 ↔ validCombo s c) ∧
    (∀ k < totalCombos s, (runCalls k s).2 = false) := by
  have hrevperm : s.output_order.reverse.Perm output_types :=
    (List.reverse_perm _).trans hperm
  have hpos : ∀ nm ∈ output_types, 0 < lenFor s nm := by
    intro nm hnm
    simp only [output_types, List.mem_cons, List.not_mem_nil, or_false] at hnm
    rcases hnm with rfl | rfl | rfl | rfl | rfl | rfl
    · exact hangles
    · exact hcameras
    · exact hframes
    · exact hobjects
    · exact hsheets
    · exact htracks
  have hidx0 : ∀ nm ∈ output_types, idxFor s nm = 0 := by
    intro nm hnm
    simp only [output_types, List.mem_cons, List.not_mem_nil, or_false] at hnm
    rcases hnm with rfl | rfl | rfl | rfl | rfl | rfl
    · exact hz6
    · exact hz3
    · exact hz5
    · exact hz2
    · exact hz1
    · exact hz4
  have hvalid : List.Forall₂ (· < ·) (digitsLSB s) (radsLSB s) := by
    rw [digitsLSB_eq, radsLSB_eq]
    apply forall₂_map_lt.mpr
    intro x hx
    have hx' : x ∈ output_types := hrevperm.mem_iff.mp hx
    rw [hidx0 x hx']
    exact hpos x hx'
  have hposr : ∀ r ∈ radsLSB s, 0 < r := pos_of_forall₂ hvalid
  have hval0 : odoVal (radsLSB s) (digitsLSB s) = 0 := by
    apply odoVal_zero
    rw [digitsLSB_eq]
    intro d hd
    obtain ⟨x, hx, rfl⟩ := List.mem_map.mp hd
    exact hidx0 x (hrevperm.mem_iff.mp hx)
  have hprod : (radsLSB s).prod = totalCombos s := by
    rw [radsLSB_eq, (hrevperm.map (lenFor s)).prod_eq]
    simp only [output_types, List.map_cons, List.map_nil, List.prod_cons, List.prod_nil,
      lenFor, totalCombos]
    ring
  have hlenrads : (radsLSB s).length = s.output_order.length := by
    rw [radsLSB_eq, List.length_map, List.length_reverse]
  obtain ⟨hfin, htrace⟩ := runCalls_finishes (totalCombos s) s hperm hvalid
    (by rw [hval0, hprod]; omega)
  rw [hval0] at htrace
  refine ⟨hfin, ?_, ?_, ?_, ?_⟩
  · rw [htrace, List.length_map, List.length_range']
  · rw [htrace]
    apply List.Nodup.map_on ?_ (List.nodup_range' 0 (totalCombos s))
    intro x hx y hy hxy
    rw [List.mem_range'_1] at hx hy
    exact comboAt_inj hperm (by rw [radsLSB_eq, List.length_map, List.length_reverse])
      hposr (by omega) (by omega) hxy
  · intro c
    rw [htrace]
    constructor
    · intro hc
      obtain ⟨v, hvmem, rfl⟩ := List.mem_map.mp hc
      rw [List.mem_range'_1] at hvmem
      exact comboAt_valid s hperm hposr (by omega)
    · intro hc
      obtain ⟨v, hvlt, hveq⟩ := comboAt_of_valid s hperm c hc
      refine List.mem_map.mpr ⟨v, ?_, hveq⟩
      rw [List.mem_range'_1]
      omega
  · intro k hk
    exact (runCalls_not_finished k s hperm hvalid (by omega)).1

theorem c1_witness :
    (runCalls (totalCombos rsExample) rsExample).2 = true ∧
    (runCalls (totalCombos rsExample) rsExample).1.length = totalCombos rsExample ∧
    (runCalls (totalCombos rsExample) rsExample).1.Nodup ∧
    (∀ c, c ∈ (runCalls (totalCombos rsExample) rsExample).1 ↔ validCombo rsExample c) ∧
    (∀ k < totalCombos rsExample, (runCalls k rsExample).2 = false) :=
  c1_cartesian_product_run rsExample (by decide) (by decide) (by decide) (by decide)
    (by decide) (by decide) (by decide) rfl rfl rfl rfl rfl rfl

/-- Claim C3: for every level whose list is non-empty, `incr_index` advances
that level's index by one modulo the length of that level's list, touches no
other index, and returns `True` exactly when the new index wrapped to zero;
and `iterate`'s loop acts on the per-level index vector (innermost level
first) as one odometer step — an outer level is incremented exactly when all
levels inside it wrapped — reporting the run finished precisely when the
outermost level wraps, i.e. when every level's index was at its maximum. -/
theorem c3_wraparound_counters (s : RSCounter)
    (hperm : s.output_order.Perm output_types) :
    (∀ l nm, s.output_order.getD l "" = nm → nm ∈ output_types →
      idxFor (incr_index s l).1 nm = (idxFor s nm + 1) % lenFor s nm ∧
      (∀ m ∈ output_types, m ≠ nm → idxFor (incr_index s l).1 m = idxFor s m) ∧
      ((incr_index s l).2 = true ↔ (idxFor s nm + 1) % lenFor s nm = 0)) ∧
    digitsLSB (iterate s).1 = (odoStep (radsLSB s) (digitsLSB s)).1 ∧
    (iterate s).2 = (odoStep (radsLSB s) (digitsLSB s)).2 ∧
    (List.Forall₂ (· < ·) (digitsLSB s) (radsLSB s) →
      ((iterate s).2 = true ↔
        odoVal (radsLSB s) (digitsLSB s) + 1 = (radsLSB s).prod)) := by
  obtain ⟨ho, hlens, hrads, hdig, hfin⟩ := iterate_full_spec s hperm
  refine ⟨?_, hdig, hfin, ?_⟩
  · intro l nm hnm hmem
    obtain ⟨-, -, hidx, hother, hw⟩ := incr_index_spec s l nm hnm hmem
    refine ⟨hidx, hother, ?_⟩
    rw [hw]
    simp
  · intro hvalid
    obtain ⟨-, -, o3⟩ := odoStep_spec hvalid
    rw [hfin]
    exact o3

theorem c3_witness :
    (idxFor (incr_index rsExample 4).1 "angle" = (idxFor rsExample "angle" + 1) % 2 ∧
      (∀ m ∈ output_types, m ≠ "angle" →
        idxFor (incr_index rsExample 4).1 m = idxFor rsExample m) ∧
      ((incr_index rsExample 4).2 = true ↔ (idxFor rsExample "angle" + 1) % 2 = 0)) ∧
    ((iterate rsExample).2 = true ↔
      odoVal (radsLSB rsExample) (digitsLSB rsExample) + 1 = (radsLSB rsExample).prod) := by
  obtain ⟨h1, h2, h3, h4⟩ := c3_wraparound_counters rsExample (by decide)
  exact ⟨h1 4 "angle" rfl (by decide), h4 (by decide)⟩

/-- Claim C4: whenever `validate_settings` fails, constructing
`RenderSprites` raises `ValidationError` before any scene state is mutated
(`prepare_render` is never reached, the scene is returned untouched), and
`execute()` catches this and returns `{'CANCELLED'}` without starting the
modal timer. -/
theorem c4_validation_atomicity (ctx : Ctx) (h : validate_settings ctx = false) :
    RenderSprites_init ctx = (none, ctx.scene) ∧
    RenderSprites_OT_execute ctx = (ExecResult.CANCELLED, ctx.scene, false) := by
  have h1 : RenderSprites_init ctx = (none, ctx.scene) := by
    rw [RenderSprites_init, h]
    simp
  refine ⟨h1, ?_⟩
  rw [RenderSprites_OT_execute, h1]

theorem c4_witness :
    RenderSprites_init ctxInvalid = (none, ctxInvalid.scene) ∧
    RenderSprites_OT_execute ctxInvalid = (ExecResult.CANCELLED, ctxInvalid.scene, false) :=
  c4_validation_atomicity ctxInvalid (by decide)

/-- Claim C8: each modal step makes at most one `iterate()` call, and only on
a TIMER event; once `iterate()` has returned `True` (`stop_modal` set), the
next modal event of any kind cancels — removing the timer — without calling
`iterate()` again, and the modal loop then stops, so no further `iterate()`
call ever happens; an ESC event or unsaved changes cancel with `cleanup()`
run; failed validation cancels (without `cleanup()`). -/
theorem c8_modal_stepping :
    (∀ (vok dirty : Bool) (ev : ModalEvent) (sm : Bool) (r : RSCounter),
      (modal vok dirty ev sm r).iterate_calls ≤ 1 ∧
      (ev ≠ .TIMER → (modal vok dirty ev sm r).iterate_calls = 0)) ∧
    (∀ (vok dirty : Bool) (ev : ModalEvent) (r : RSCounter),
      (modal vok dirty ev true r).result = .CANCELLED ∧
      (modal vok dirty ev true r).iterate_calls = 0 ∧
      (modal vok dirty ev true r).timer_removed = true) ∧
    (∀ (dirty : Bool) (ev : ModalEvent) (sm : Bool) (r : RSCounter),
      (ev = .ESC ∨ dirty = true) →
      (modal true dirty ev sm r).result = .CANCELLED ∧
      (modal true dirty ev sm r).cleanup_called = true ∧
      (modal true dirty ev sm r).timer_removed = true) ∧
    (∀ (dirty : Bool) (ev : ModalEvent) (sm : Bool) (r : RSCounter),
      (modal false dirty ev sm r).result = .CANCELLED ∧
      (modal false dirty ev sm r).cleanup_called = false ∧
      (modal false dirty ev sm r).timer_removed = true) ∧
    (∀ (evs : List (Bool × Bool × ModalEvent)) (r : RSCounter),
      (runModal evs true r).length ≤ 1 ∧
      ((runModal evs true r).map ModalStep.iterate_calls).sum = 0) := by
  refine ⟨?_, ?_, ?_, ?_, ?_⟩
  · intro vok dirty ev sm r
    constructor
    · unfold modal
      split_ifs <;> simp
    · intro hev
      unfold modal
      split_ifs <;> simp_all
  · intro vok dirty ev r
    unfold modal
    split_ifs <;> simp_all
  · intro dirty ev sm r hcase
    unfold modal
    rw [if_neg (by simp)]
    rw [if_pos (by rcases hcase with h | h <;> simp [h])]
    exact ⟨rfl, rfl, rfl⟩
  · intro dirty ev sm r
    unfold modal
    rw [if_pos (by simp)]
    exact ⟨rfl, rfl, rfl⟩
  · intro evs r
    cases evs with
    | nil => exact ⟨by simp [runModal], by simp [runModal]⟩
    | cons e evs =>
      obtain ⟨vok, dirty, ev⟩ := e
      have hres : (modal vok dirty ev true r).result = .CANCELLED ∧
          (modal vok dirty ev true r).iterate_calls = 0 := by
        unfold modal
        split_ifs <;> simp_all
      have hrun : runModal ((vok, dirty, ev) :: evs) true r = [modal vok dirty ev true r] := by
        rw [runModal, hres.1]
      rw [hrun]
      exact ⟨by simp, by simp [hres.2]⟩

theorem c8_witness :
    (modal true false ModalEvent.TIMER false rsExample).iterate_calls ≤ 1 ∧
    (modal true false ModalEvent.ESC false rsExample).cleanup_called = true ∧
    (modal true false ModalEvent.OTHER true rsExample).result = ModalResult.CANCELLED ∧
    (runModal [(true, false, ModalEvent.TIMER), (true, false, ModalEvent.TIMER)]
        true rsExample).length ≤ 1 := by
  obtain ⟨h1, h2, h3, h4, h5⟩ := c8_modal_stepping
  exact ⟨(h1 true false ModalEvent.TIMER false rsExample).1,
    (h3 false ModalEvent.ESC false rsExample (Or.inl rfl)).2.1,
    (h2 true false ModalEvent.OTHER rsExample).1,
    (h5 [(true, false, ModalEvent.TIMER), (true, false, ModalEvent.TIMER)] rsExample).1⟩

theorem updateObj_objs_length (sc : Scene) (i : Nat) (f : SObj → SObj) :
    (updateObj sc i f).objs.length = sc.objs.length := by
  simp [updateObj]

theorem objAt_updateObj (sc : Scene) (i : Nat) (f : SObj → SObj) (j : Nat) :
    objAt (updateObj sc i f) j =
      if j = i ∧ i < sc.objs.length then f (objAt sc i) else objAt sc j := by
  unfold objAt updateObj
  by_cases hji : j = i
  · subst hji
    by_cases hlen : j < sc.objs.length
    · simp only [List.getD_eq_getElem?_getD, List.getElem?_set_self hlen, hlen, and_self,
        if_true, Option.getD_some]
    · rw [List.set_eq_of_length_le (by omega)]
      rw [if_neg (by omega)]
  · simp only [List.getD_eq_getElem?_getD, List.getElem?_set_ne (fun h => hji h.symm)]
    rw [if_neg (by omega)]

theorem find_children_updateObj (sc : Scene) (i : Nat) (f : SObj → SObj)
    (hpar : ∀ o, (f o).parent = o.parent) (hty : ∀ o, (f o).otype = o.otype)
    (p : Nat) (t : Option String) :
    find_children (updateObj sc i f).objs p t = find_children sc.objs p t := by
  have hgd : ∀ j, ((updateObj sc i f).objs.getD j noObj).parent
        = (sc.objs.getD j noObj).parent ∧
      ((updateObj sc i f).objs.getD j noObj).otype = (sc.objs.getD j noObj).otype := by
    intro j
    show (objAt (updateObj sc i f) j).parent = (objAt sc j).parent ∧
        (objAt (updateObj sc i f) j).otype = (objAt sc j).otype
    rw [objAt_updateObj]
    by_cases hc : j = i ∧ i < sc.objs.length
    · rw [if_pos hc, hc.1]
      exact ⟨hpar _, hty _⟩
    · rw [if_neg hc]
      exact ⟨rfl, rfl⟩
  cases t with
  | none =>
    unfold find_children
    rw [updateObj_objs_length]
    apply List.filter_congr
    intro j _
    show (((updateObj sc i f).objs.getD j noObj).parent == some p)
        = (((sc.objs.getD j noObj).parent == some p))
    rw [(hgd j).1]
  | some ty =>
    unfold find_children
    rw [updateObj_objs_length]
    apply List.filter_congr
    intro j _
    show ((((updateObj sc i f).objs.getD j noObj).parent == some p)
          && (((updateObj sc i f).objs.getD j noObj).otype == ty))
        = ((((sc.objs.getD j noObj).parent == some p)) && ((sc.objs.getD j noObj).otype == ty))
    rw [(hgd j).1, (hgd j).2]

theorem updateObj_camera (sc : Scene) (i : Nat) (f : SObj → SObj) :
    (updateObj sc i f).camera = sc.camera := rfl

theorem updateObj_frame (sc : Scene) (i : Nat) (f : SObj → SObj) :
    (updateObj sc i f).frame_current = sc.frame_current := rfl

theorem hideFold_objs_length (ids : List Nat) (sc : Scene) (b : Bool) :
    (hideFold sc ids b).objs.length = sc.objs.length := by
  induction ids generalizing sc with
  | nil => rfl
  | cons c ids ih =>
    show (hideFold (setHideRender sc c b) ids b).objs.length = _
    rw [ih, setHideRender, updateObj_objs_length]

theorem hideFold_camera (ids : List Nat) (sc : Scene) (b : Bool) :
    (hideFold sc ids b).camera = sc.camera := by
  induction ids generalizing sc with
  | nil => rfl
  | cons c ids ih =>
    show (hideFold (setHideRender sc c b) ids b).camera = _
    rw [ih]
    rfl

theorem hideFold_frame (ids : List Nat) (sc : Scene) (b : Bool) :
    (hideFold sc ids b).frame_current = sc.frame_current := by
  induction ids generalizing sc with
  | nil => rfl
  | cons c ids ih =>
    show (hideFold (setHideRender sc c b) ids b).frame_current = _
    rw [ih]
    rfl

theorem objAt_setHideRender (sc : Scene) (c : Nat) (b : Bool) (j : Nat) :
    objAt (setHideRender sc c b) j =
      if j = c ∧ c < sc.objs.length then { objAt sc j with hide_render := b }
      else objAt sc j := by
  rw [setHideRender, objAt_updateObj]
  by_cases h : j = c ∧ c < sc.objs.length
  · rw [if_pos h, if_pos h, h.1]
  · rw [if_neg h, if_neg h]

theorem objAt_hideFold (ids : List Nat) (sc : Scene) (b : Bool) (j : Nat) :
    objAt (hideFold sc ids b) j =
      if j ∈ ids ∧ j < sc.objs.length then { objAt sc j with hide_render := b }
      else objAt sc j := by
  induction ids generalizing sc with
  | nil => simp [hideFold]
  | cons c ids ih =>
    show objAt (hideFold (setHideRender sc c b) ids b) j = _
    rw [ih]
    rw [setHideRender, updateObj_objs_length, ← setHideRender]
    rw [objAt_setHideRender]
    by_cases hmem : j ∈ ids ∧ j < sc.objs.length
    · rw [if_pos hmem]
      by_cases hc : j = c ∧ c < sc.objs.length
      · rw [if_pos hc, if_pos ⟨List.mem_cons_of_mem c hmem.1, hmem.2⟩]
      · rw [if_neg hc, if_pos ⟨List.mem_cons_of_mem c hmem.1, hmem.2⟩]
    · rw [if_neg hmem]
      by_cases hc : j = c ∧ c < sc.objs.length
      · rw [if_pos hc, if_pos ⟨by rw [hc.1]; exact List.mem_cons_self c ids, by rw [hc.1]; exact hc.2⟩]
      · rw [if_neg hc, if_neg ?_]
        intro hboth
        rcases List.mem_cons.mp hboth.1 with hjc | hjids
        · exact hc ⟨hjc, hjc ▸ hboth.2⟩
        · exact hmem ⟨hjids, hboth.2⟩

theorem find_children_setHideRender (sc : Scene) (c : Nat) (b : Bool) (p : Nat)
    (t : Option String) :
    find_children (setHideRender sc c b).objs p t = find_children sc.objs p t := by
  rw [setHideRender]
  exact find_children_updateObj sc c (fun o => { o with hide_render := b })
    (fun _ => rfl) (fun _ => rfl) p t

theorem find_children_hideFold (ids : List Nat) (sc : Scene) (b : Bool) (p : Nat)
    (t : Option String) :
    find_children (hideFold sc ids b).objs p t = find_children sc.objs p t := by
  induction ids generalizing sc with
  | nil => rfl
  | cons c ids ih =>
    show find_children (hideFold (setHideRender sc c b) ids b).objs p t = _
    rw [ih, find_children_setHideRender]

theorem objAt_setLocation (sc : Scene) (c : Nat) (v : V3) (j : Nat) :
    objAt (setLocation sc c v) j =
      if j = c ∧ c < sc.objs.length then { objAt sc j with location := v }
      else objAt sc j := by
  rw [setLocation, objAt_updateObj]
  by_cases h : j = c ∧ c < sc.objs.length
  · rw [if_pos h, if_pos h, h.1]
  · rw [if_neg h, if_neg h]

theorem objAt_setRotZ (sc : Scene) (c : Nat) (r : ℚ) (j : Nat) :
    objAt (setRotZ sc c r) j =
      if j = c ∧ c < sc.objs.length then { objAt sc j with rotZ := r }
      else objAt sc j := by
  rw [setRotZ, objAt_updateObj]
  by_cases h : j = c ∧ c < sc.objs.length
  · rw [if_pos h, if_pos h, h.1]
  · rw [if_neg h, if_neg h]

theorem objAt_setAllMute (sc : Scene) (c : Nat) (b : Bool) (j : Nat) :
    objAt (setAllMute sc c b) j =
      if j = c ∧ c < sc.objs.length then
        { objAt sc j with
            animTracks := (objAt sc j).animTracks.map (·.map fun t => { t with mute := b }) }
      else objAt sc j := by
  rw [setAllMute, objAt_updateObj]
  by_cases h : j = c ∧ c < sc.objs.length
  · rw [if_pos h, if_pos h, h.1]
  · rw [if_neg h, if_neg h]

theorem objAt_setTrackMute (sc : Scene) (c : Nat) (tIdx : Nat) (b : Bool) (j : Nat) :
    objAt (setTrackMute sc c tIdx b) j =
      if j = c ∧ c < sc.objs.length then
        { objAt sc j with
            animTracks := (objAt sc j).animTracks.map fun ts =>
              ts.set tIdx { ts.getD tIdx noTrack with mute := b } }
      else objAt sc j := by
  rw [setTrackMute, objAt_updateObj]
  by_cases h : j = c ∧ c < sc.objs.length
  · rw [if_pos h, if_pos h, h.1]
  · rw [if_neg h, if_neg h]

theorem find_children_setLocation (sc : Scene) (c : Nat) (v : V3) (p : Nat)
    (t : Option String) :
    find_children (setLocation sc c v).objs p t = find_children sc.objs p t := by
  rw [setLocation]
  apply find_children_updateObj
  · exact fun _ => rfl
  · exact fun _ => rfl

theorem find_children_setRotZ (sc : Scene) (c : Nat) (r : ℚ) (p : Nat)
    (t : Option String) :
    find_children (setRotZ sc c r).objs p t = find_children sc.objs p t := by
  rw [setRotZ]
  apply find_children_updateObj
  · exact fun _ => rfl
  · exact fun _ => rfl

theorem find_children_setAllMute (sc : Scene) (c : Nat) (b : Bool) (p : Nat)
    (t : Option String) :
    find_children (setAllMute sc c b).objs p t = find_children sc.objs p t := by
  rw [setAllMute]
  apply find_children_updateObj
  · exact fun _ => rfl
  · exact fun _ => rfl

theorem find_children_setTrackMute (sc : Scene) (c : Nat) (tIdx : Nat) (b : Bool) (p : Nat)
    (t : Option String) :
    find_children (setTrackMute sc c tIdx b).objs p t = find_children sc.objs p t := by
  rw [setTrackMute]
  apply find_children_updateObj
  · exact fun _ => rfl
  · exact fun _ => rfl

theorem setHideRender_objs_length (sc : Scene) (c : Nat) (b : Bool) :
    (setHideRender sc c b).objs.length = sc.objs.length := updateObj_objs_length ..

theorem setLocation_objs_length (sc : Scene) (c : Nat) (v : V3) :
    (setLocation sc c v).objs.length = sc.objs.length := updateObj_objs_length ..

theorem setRotZ_objs_length (sc : Scene) (c : Nat) (r : ℚ) :
    (setRotZ sc c r).objs.length = sc.objs.length := updateObj_objs_length ..

theorem setAllMute_objs_length (sc : Scene) (c : Nat) (b : Bool) :
    (setAllMute sc c b).objs.length = sc.objs.length := updateObj_objs_length ..

theorem setTrackMute_objs_length (sc : Scene) (c : Nat) (tIdx : Nat) (b : Bool) :
    (setTrackMute sc c tIdx b).objs.length = sc.objs.length := updateObj_objs_length ..

theorem setHideRender_camera (sc : Scene) (c : Nat) (b : Bool) :
    (setHideRender sc c b).camera = sc.camera := rfl

theorem setLocation_camera (sc : Scene) (c : Nat) (v : V3) :
    (setLocation sc c v).camera = sc.camera := rfl

theorem setRotZ_camera (sc : Scene) (c : Nat) (r : ℚ) :
    (setRotZ sc c r).camera = sc.camera := rfl

theorem setAllMute_camera (sc : Scene) (c : Nat) (b : Bool) :
    (setAllMute sc c b).camera = sc.camera := rfl

theorem setTrackMute_camera (sc : Scene) (c : Nat) (tIdx : Nat) (b : Bool) :
    (setTrackMute sc c tIdx b).camera = sc.camera := rfl

theorem setHideRender_frame (sc : Scene) (c : Nat) (b : Bool) :
    (setHideRender sc c b).frame_current = sc.frame_current := rfl

theorem setLocation_frame (sc : Scene) (c : Nat) (v : V3) :
    (setLocation sc c v).frame_current = sc.frame_current := rfl

theorem setRotZ_frame (sc : Scene) (c : Nat) (r : ℚ) :
    (setRotZ sc c r).frame_current = sc.frame_current := rfl

theorem setAllMute_frame (sc : Scene) (c : Nat) (b : Bool) :
    (setAllMute sc c b).frame_current = sc.frame_current := rfl

theorem setTrackMute_frame (sc : Scene) (c : Nat) (tIdx : Nat) (b : Bool) :
    (setTrackMute sc c tIdx b).frame_current = sc.frame_current := rfl

theorem v3add_zero (v : V3) : v3add (0, 0, 0) v = v := by
  obtain ⟨a, b, c⟩ := v
  simp [v3add]

theorem track_mute_map_id {ts : List NlaTrack} (h : ∀ t ∈ ts, t.mute = false) :
    (ts.map fun t => { t with mute := false }) = ts := by
  induction ts with
  | nil => rfl
  | cons t ts ih =>
    rw [List.map_cons, ih (fun x hx => h x (by simp [hx]))]
    have ht : t.mute = false := h t (by simp)
    cases t
    simp_all

/-- The net effect on the track list of one setup/reset round trip: mute all,
unmute the current one, then unmute all — the identity when every track was
unmuted to begin with. -/
theorem mute_roundtrip (ts : List NlaTrack) (i : Nat) (h : ∀ t ∈ ts, t.mute = false) :
    (((ts.map fun t => { t with mute := true }).set i
        { (ts.map fun t => { t with mute := true }).getD i noTrack with mute := false }).map
      fun t => { t with mute := false }) = ts := by
  rw [List.map_set]
  have h1 : ((ts.map fun t => { t with mute := true }).map fun t => { t with mute := false })
      = ts := by
    rw [List.map_map]
    exact track_mute_map_id h
  rw [h1]
  by_cases hi : i < ts.length
  · have h2 : ({ ({ (ts.map fun t => { t with mute := true }).getD i noTrack with
        mute := false } : NlaTrack) with mute := false } : NlaTrack)
        = ts.getD i noTrack := by
      have hmap : (ts.map fun t => { t with mute := true }).getD i noTrack
          = { ts.getD i noTrack with mute := true } := by
        rw [List.getD_eq_getElem?_getD, List.getElem?_map,
          List.getD_eq_getElem?_getD (l := ts)]
        rw [List.getElem?_eq_getElem hi]
        rfl
      rw [hmap]
      have := h (ts.getD i noTrack) (by
        rw [List.getD_eq_getElem?_getD, List.getElem?_eq_getElem hi]
        exact List.getElem_mem hi)
      cases hts : ts.getD i noTrack
      rw [hts] at this
      simp_all
    rw [h2]
    apply List.ext_getElem (by simp)
    intro j hj hj'
    rw [List.getElem_set]
    by_cases hij : i = j
    · subst hij
      rw [if_pos rfl, List.getD_eq_getElem?_getD, List.getElem?_eq_getElem hi]
      rfl
    · rw [if_neg hij]
  · rw [List.set_eq_of_length_le (by omega)]

theorem hideHierarchy_objs_length (o : Nat) (b : Bool) (scn : Scene) :
    (hideHierarchy o b scn).objs.length = scn.objs.length := by
  rw [hideHierarchy, hideFold_objs_length, setHideRender_objs_length]

theorem hideHierarchy_camera (o : Nat) (b : Bool) (scn : Scene) :
    (hideHierarchy o b scn).camera = scn.camera := by
  rw [hideHierarchy, hideFold_camera, setHideRender_camera]

theorem hideHierarchy_frame (o : Nat) (b : Bool) (scn : Scene) :
    (hideHierarchy o b scn).frame_current = scn.frame_current := by
  rw [hideHierarchy, hideFold_frame, setHideRender_frame]

theorem find_children_hideHierarchy (o : Nat) (b : Bool) (scn : Scene) (p : Nat)
    (t : Option String) :
    find_children (hideHierarchy o b scn).objs p t = find_children scn.objs p t := by
  rw [hideHierarchy, find_children_hideFold, find_children_setHideRender]

theorem objAt_hideHierarchy (o : Nat) (b : Bool) (scn : Scene) (j : Nat) :
    objAt (hideHierarchy o b scn) j =
      if (j = o ∨ j ∈ find_children scn.objs o none) ∧ j < scn.objs.length then
        { objAt scn j with hide_render := b }
      else objAt scn j := by
  rw [hideHierarchy, objAt_hideFold, find_children_setHideRender,
    setHideRender_objs_length, objAt_setHideRender]
  by_cases hch : j ∈ find_children scn.objs o none ∧ j < scn.objs.length
  · rw [if_pos hch]
    by_cases ho : j = o ∧ o < scn.objs.length
    · rw [if_pos ho, if_pos ⟨Or.inl ho.1, hch.2⟩]
    · rw [if_neg ho, if_pos ⟨Or.inr hch.1, hch.2⟩]
  · rw [if_neg hch]
    by_cases ho : j = o ∧ o < scn.objs.length
    · rw [if_pos ho, if_pos ⟨Or.inl ho.1, ho.1 ▸ ho.2⟩]
    · rw [if_neg ho, if_neg ?_]
      intro hc
      rcases hc.1 with hjo | hjch
      · exact ho ⟨hjo, hjo ▸ hc.2⟩
      · exact hch ⟨hjch, hc.2⟩

theorem hideHierarchy_location (o : Nat) (b : Bool) (scn : Scene) (j : Nat) :
    (objAt (hideHierarchy o b scn) j).location = (objAt scn j).location := by
  rw [objAt_hideHierarchy]; split <;> rfl

theorem hideHierarchy_worldOff (o : Nat) (b : Bool) (scn : Scene) (j : Nat) :
    (objAt (hideHierarchy o b scn) j).worldOff = (objAt scn j).worldOff := by
  rw [objAt_hideHierarchy]; split <;> rfl

theorem hideHierarchy_rotZ (o : Nat) (b : Bool) (scn : Scene) (j : Nat) :
    (objAt (hideHierarchy o b scn) j).rotZ = (objAt scn j).rotZ := by
  rw [objAt_hideHierarchy]; split <;> rfl

theorem hideHierarchy_animTracks (o : Nat) (b : Bool) (scn : Scene) (j : Nat) :
    (objAt (hideHierarchy o b scn) j).animTracks = (objAt scn j).animTracks := by
  rw [objAt_hideHierarchy]; split <;> rfl

theorem hideHierarchy_hide_of_mem (o : Nat) (b : Bool) (scn : Scene) (j : Nat)
    (h : (j = o ∨ j ∈ find_children scn.objs o none) ∧ j < scn.objs.length) :
    (objAt (hideHierarchy o b scn) j).hide_render = b := by
  rw [objAt_hideHierarchy, if_pos h]

theorem hideHierarchy_hide_of_not_mem (o : Nat) (b : Bool) (scn : Scene) (j : Nat)
    (h : ¬ ((j = o ∨ j ∈ find_children scn.objs o none) ∧ j < scn.objs.length)) :
    (objAt (hideHierarchy o b scn) j).hide_render = (objAt scn j).hide_render := by
  rw [objAt_hideHierarchy, if_neg h]

theorem setupMuteTracks_objs_length (rs : RSRun) (o : Nat) (scn : Scene) :
    (setupMuteTracks rs o scn).objs.length = scn.objs.length := by
  rw [setupMuteTracks]
  split
  · match rs.tracks with
    | TracksVal.noneV => exact setAllMute_objs_length ..
    | TracksVal.noAction => exact setAllMute_objs_length ..
    | TracksVal.live aId =>
      rw [setTrackMute_objs_length, setAllMute_objs_length]
  · rfl

theorem setupMuteTracks_camera (rs : RSRun) (o : Nat) (scn : Scene) :
    (setupMuteTracks rs o scn).camera = scn.camera := by
  rw [setupMuteTracks]
  split
  · match rs.tracks with
    | TracksVal.noneV => rfl
    | TracksVal.noAction => rfl
    | TracksVal.live aId => rfl
  · rfl

theorem setupMuteTracks_frame (rs : RSRun) (o : Nat) (scn : Scene) :
    (setupMuteTracks rs o scn).frame_current = scn.frame_current := by
  rw [setupMuteTracks]
  split
  · match rs.tracks with
    | TracksVal.noneV => rfl
    | TracksVal.noAction => rfl
    | TracksVal.live aId => rfl
  · rfl

theorem find_children_setupMuteTracks (rs : RSRun) (o : Nat) (scn : Scene) (p : Nat)
    (t : Option String) :
    find_children (setupMuteTracks rs o scn).objs p t = find_children scn.objs p t := by
  rw [setupMuteTracks]
  split
  · match rs.tracks with
    | TracksVal.noneV => exact find_children_setAllMute ..
    | TracksVal.noAction => exact find_children_setAllMute ..
    | TracksVal.live aId =>
      rw [find_children_setTrackMute, find_children_setAllMute]
  · rfl

theorem setupMuteTracks_location (rs : RSRun) (o : Nat) (scn : Scene) (j : Nat) :
    (objAt (setupMuteTracks rs o scn) j).location = (objAt scn j).location := by
  rw [setupMuteTracks]
  split
  · match rs.tracks with
    | TracksVal.noneV => rw [objAt_setAllMute]; split <;> rfl
    | TracksVal.noAction => rw [objAt_setAllMute]; split <;> rfl
    | TracksVal.live aId =>
      rw [objAt_setTrackMute]
      split <;> [skip; skip] <;> rw [objAt_setAllMute] <;> split <;> rfl
  · rfl

theorem setupMuteTracks_worldOff (rs : RSRun) (o : Nat) (scn : Scene) (j : Nat) :
    (objAt (setupMuteTracks rs o scn) j).worldOff = (objAt scn j).worldOff := by
  rw [setupMuteTracks]
  split
  · match rs.tracks with
    | TracksVal.noneV => rw [objAt_setAllMute]; split <;> rfl
    | TracksVal.noAction => rw [objAt_setAllMute]; split <;> rfl
    | TracksVal.live aId =>
      rw [objAt_setTrackMute]
      split <;> [skip; skip] <;> rw [objAt_setAllMute] <;> split <;> rfl
  · rfl

theorem setupMuteTracks_rotZ (rs : RSRun) (o : Nat) (scn : Scene) (j : Nat) :
    (objAt (setupMuteTracks rs o scn) j).rotZ = (objAt scn j).rotZ := by
  rw [setupMuteTracks]
  split
  · match rs.tracks with
    | TracksVal.noneV => rw [objAt_setAllMute]; split <;> rfl
    | TracksVal.noAction => rw [objAt_setAllMute]; split <;> rfl
    | TracksVal.live aId =>
      rw [objAt_setTrackMute]
      split <;> [skip; skip] <;> rw [objAt_setAllMute] <;> split <;> rfl
  · rfl

theorem setupMuteTracks_hide (rs : RSRun) (o : Nat) (scn : Scene) (j : Nat) :
    (objAt (setupMuteTracks rs o scn) j).hide_render = (objAt scn j).hide_render := by
  rw [setupMuteTracks]
  split
  · match rs.tracks with
    | TracksVal.noneV => rw [objAt_setAllMute]; split <;> rfl
    | TracksVal.noAction => rw [objAt_setAllMute]; split <;> rfl
    | TracksVal.live aId =>
      rw [objAt_setTrackMute]
      split <;> [skip; skip] <;> rw [objAt_setAllMute] <;> split <;> rfl
  · rfl

theorem setLocation_hide (sc : Scene) (c : Nat) (v : V3) (j : Nat) :
    (objAt (setLocation sc c v) j).hide_render = (objAt sc j).hide_render := by
  rw [objAt_setLocation]; split <;> rfl

theorem setLocation_rotZ (sc : Scene) (c : Nat) (v : V3) (j : Nat) :
    (objAt (setLocation sc c v) j).rotZ = (objAt sc j).rotZ := by
  rw [objAt_setLocation]; split <;> rfl

theorem setLocation_worldOff (sc : Scene) (c : Nat) (v : V3) (j : Nat) :
    (objAt (setLocation sc c v) j).worldOff = (objAt sc j).worldOff := by
  rw [objAt_setLocation]; split <;> rfl

theorem setLocation_animTracks (sc : Scene) (c : Nat) (v : V3) (j : Nat) :
    (objAt (setLocation sc c v) j).animTracks = (objAt sc j).animTracks := by
  rw [objAt_setLocation]; split <;> rfl

theorem setLocation_location_ne (sc : Scene) (c : Nat) (v : V3) (j : Nat) (h : j ≠ c) :
    (objAt (setLocation sc c v) j).location = (objAt sc j).location := by
  rw [objAt_setLocation, if_neg (fun hc => h hc.1)]

theorem setLocation_location_self (sc : Scene) (c : Nat) (v : V3)
    (h : c < sc.objs.length) :
    (objAt (setLocation sc c v) c).location = v := by
  rw [objAt_setLocation, if_pos ⟨rfl, h⟩]

theorem setRotZ_hide (sc : Scene) (c : Nat) (r : ℚ) (j : Nat) :
    (objAt (setRotZ sc c r) j).hide_render = (objAt sc j).hide_render := by
  rw [objAt_setRotZ]; split <;> rfl

theorem setRotZ_location (sc : Scene) (c : Nat) (r : ℚ) (j : Nat) :
    (objAt (setRotZ sc c r) j).location = (objAt sc j).location := by
  rw [objAt_setRotZ]; split <;> rfl

theorem setRotZ_worldOff (sc : Scene) (c : Nat) (r : ℚ) (j : Nat) :
    (objAt (setRotZ sc c r) j).worldOff = (objAt sc j).worldOff := by
  rw [objAt_setRotZ]; split <;> rfl

theorem setRotZ_animTracks (sc : Scene) (c : Nat) (r : ℚ) (j : Nat) :
    (objAt (setRotZ sc c r) j).animTracks = (objAt sc j).animTracks := by
  rw [objAt_setRotZ]; split <;> rfl

theorem setRotZ_rotZ_self (sc : Scene) (c : Nat) (r : ℚ) (h : c < sc.objs.length) :
    (objAt (setRotZ sc c r) c).rotZ = r := by
  rw [objAt_setRotZ, if_pos ⟨rfl, h⟩]

theorem setAllMute_hide (sc : Scene) (c : Nat) (b : Bool) (j : Nat) :
    (objAt (setAllMute sc c b) j).hide_render = (objAt sc j).hide_render := by
  rw [objAt_setAllMute]; split <;> rfl

theorem setAllMute_animTracks_self (sc : Scene) (c : Nat) (b : Bool)
    (h : c < sc.objs.length) :
    (objAt (setAllMute sc c b) c).animTracks
      = (objAt sc c).animTracks.map (·.map fun t => { t with mute := b }) := by
  rw [objAt_setAllMute, if_pos ⟨rfl, h⟩]

theorem setTrackMute_animTracks_self (sc : Scene) (c : Nat) (tIdx : Nat) (b : Bool)
    (h : c < sc.objs.length) :
    (objAt (setTrackMute sc c tIdx b) c).animTracks
      = (objAt sc c).animTracks.map fun ts =>
          ts.set tIdx { ts.getD tIdx noTrack with mute := b } := by
  rw [objAt_setTrackMute, if_pos ⟨rfl, h⟩]

/-- Claim C2 (amended): under the stated preconditions — the current object
and camera rig ids are live, `self.tracks` is the `"No Action"` marker or an
alias of the current object's tracks, every NLA track of the current object
is unmuted, all the hide_render flags that `setup_scene` clears are set, the
camera rig's z-rotation and the current frame are non-zero, and the camera
rig and global parent are unparented (zero world offset) with the global
parent distinct from the camera rig — `reset_scene` after `setup_scene`
restores every piece of scene state that `setup_scene` mutates, and
`render_scene` always restores the render filepath. -/
theorem c2_roundtrip_restores (rs : RSRun) (props : AddonProperties) (scn : Scene)
    (hobjlt : rs.curObj < scn.objs.length)
    (hcamlt : rs.curCam < scn.objs.length)
    (htracks : rs.tracks = TracksVal.noAction ∨ rs.tracks = TracksVal.live rs.curObj)
    (hmutes : ∀ ts, (objAt scn rs.curObj).animTracks = some ts → ∀ t ∈ ts, t.mute = false)
    (hhobj : (objAt scn rs.curObj).hide_render = true)
    (hhchild : ∀ c ∈ find_children scn.objs rs.curObj none, (objAt scn c).hide_render = true)
    (hhcam : (objAt scn rs.curCam).hide_render = true)
    (hhcamchild : ∀ c ∈ find_children scn.objs rs.curCam none,
      (objAt scn c).hide_render = true)
    (hrot : (objAt scn rs.curCam).rotZ ≠ 0)
    (hframe : scn.frame_current ≠ 0)
    (hcamoff : (objAt scn rs.curCam).worldOff = (0, 0, 0))
    (hglobal : ∀ g, props.pointer_global_parent = some g →
      g < scn.objs.length ∧ g ≠ rs.curCam ∧ (objAt scn g).worldOff = (0, 0, 0)) :
    ((objAt (roundTrip rs props scn) rs.curObj).hide_render
        = (objAt scn rs.curObj).hide_render ∧
      (∀ c ∈ find_children scn.objs rs.curObj none,
        (objAt (roundTrip rs props scn) c).hide_render = (objAt scn c).hide_render) ∧
      (objAt (roundTrip rs props scn) rs.curCam).hide_render
        = (objAt scn rs.curCam).hide_render ∧
      (∀ c ∈ find_children scn.objs rs.curCam none,
        (objAt (roundTrip rs props scn) c).hide_render = (objAt scn c).hide_render) ∧
      (objAt (roundTrip rs props scn) rs.curObj).animTracks
        = (objAt scn rs.curObj).animTracks ∧
      (roundTrip rs props scn).camera = scn.camera ∧
      (objAt (roundTrip rs props scn) rs.curCam).location
        = (objAt scn rs.curCam).location ∧
      (objAt (roundTrip rs props scn) rs.curCam).rotZ = (objAt scn rs.curCam).rotZ ∧
      (∀ g, props.pointer_global_parent = some g →
        (objAt (roundTrip rs props scn) g).location = (objAt scn g).location) ∧
      (roundTrip rs props scn).frame_current = scn.frame_current) ∧
    (∀ (rs' : RSRun) (scn' : Scene),
      (render_scene rs' props scn').2.render_filepath = scn'.render_filepath) := by
  set objId := rs.curObj with hobjId
  set camId := rs.curCam with hcamId
  set scn1 := hideHierarchy objId false scn with hscn1
  set scn2 := setupMuteTracks rs objId scn1 with hscn2
  set obj_cam := (find_children scn2.objs camId (some "CAMERA")).getD 0 0 with hobjcam
  set scn3 := hideHierarchy camId false scn2 with hscn3
  set scn4 : Scene := { scn3 with camera := some obj_cam } with hscn4
  set scn5 := setLocation scn4 camId (world (objAt scn4 objId)) with hscn5
  set scn6 := setRotZ scn5 camId
    ((rs.angleList.getD rs.i_current_angle 0 : ℚ) * (360 / (props.int_camera_angles : ℚ)))
    with hscn6
  set scn7 := (match props.pointer_global_parent with
    | some g => setLocation scn6 g (world (objAt scn6 objId))
    | none => scn6) with hscn7
  set scn8 : Scene := { scn7 with frame_current := rs.frameList.getD rs.i_current_frame 0 }
    with hscn8
  set rs1 : RSRun := { rs with
      orig_scene_camera := scn3.camera,
      cam_orig_location := some (world (objAt scn4 camId)),
      cam_orig_rotation := some (objAt scn5 camId).rotZ,
      global_parent_orig_location :=
        (match props.pointer_global_parent with
          | some g => some (world (objAt scn6 g))
          | none => rs.global_parent_orig_location),
      orig_frame := some scn7.frame_current } with hrs1
  have hsetup : setup_scene rs props scn = (rs1, scn8) := rfl
  -- the reset stages
  set r1 := hideHierarchy objId true scn8 with hr1
  set r2 := (if rs.tracks ≠ TracksVal.noAction then setAllMute r1 objId false else r1) with hr2
  set r3 := hideHierarchy camId true r2 with hr3
  set r4 : Scene := { r3 with camera := scn3.camera } with hr4
  set r5 := setLocation r4 camId (world (objAt scn4 camId)) with hr5
  set r6 := (if (objAt scn5 camId).rotZ ≠ 0 then setRotZ r5 camId (objAt scn5 camId).rotZ
    else r5) with hr6
  set r7 := (match props.pointer_global_parent with
    | some g => setLocation r6 g
        ((match props.pointer_global_parent with
          | some g' => some (world (objAt scn6 g'))
          | none => rs.global_parent_orig_location).getD (0, 0, 0))
    | none => r6) with hr7
  set r8 := (if scn7.frame_current ≠ 0 then { r7 with frame_current := scn7.frame_current }
    else r7) with hr8
  have hRT : roundTrip rs props scn = r8 := rfl
  -- lengths along the setup chain
  have hn1 : scn1.objs.length = scn.objs.length := hideHierarchy_objs_length ..
  have hn2 : scn2.objs.length = scn.objs.length := by
    rw [hscn2, setupMuteTracks_objs_length]; exact hn1
  have hn3 : scn3.objs.length = scn.objs.length := by
    rw [hscn3, hideHierarchy_objs_length]; exact hn2
  have hn4 : scn4.objs.length = scn.objs.length := hn3
  have hn5 : scn5.objs.length = scn.objs.length := by
    rw [hscn5, setLocation_objs_length]; exact hn4
  have hn6 : scn6.objs.length = scn.objs.length := by
    rw [hscn6, setRotZ_objs_length]; exact hn5
  have hn7 : scn7.objs.length = scn.objs.length := by
    rw [hscn7]
    cases hp : props.pointer_global_parent with
    | none => exact hn6
    | some g => rw [setLocation_objs_length]; exact hn6
  have hn8 : scn8.objs.length = scn.objs.length := hn7
  -- children sets along the setup chain
  have hfc8 : ∀ p t, find_children scn8.objs p t = find_children scn.objs p t := by
    intro p t
    show find_children scn7.objs p t = _
    have h7 : find_children scn7.objs p t = find_children scn6.objs p t := by
      rw [hscn7]
      cases hp : props.pointer_global_parent with
      | none => rfl
      | some g => rw [find_children_setLocation]
    rw [h7, hscn6, find_children_setRotZ, hscn5, find_children_setLocation]
    show find_children scn3.objs p t = _
    rw [hscn3, find_children_hideHierarchy, hscn2, find_children_setupMuteTracks,
      hscn1, find_children_hideHierarchy]
  -- frame along the setup chain
  have hfr7 : scn7.frame_current = scn.frame_current := by
    have h7 : scn7.frame_current = scn6.frame_current := by
      rw [hscn7]
      cases hp : props.pointer_global_parent with
      | none => rfl
      | some g => rw [setLocation_frame]
    rw [h7, hscn6, setRotZ_frame, hscn5, setLocation_frame]
    show scn3.frame_current = _
    rw [hscn3, hideHierarchy_frame, hscn2, setupMuteTracks_frame, hscn1, hideHierarchy_frame]
  -- camera along the first three stages
  have hcam3 : scn3.camera = scn.camera := by
    rw [hscn3, hideHierarchy_camera, hscn2, setupMuteTracks_camera, hscn1,
      hideHierarchy_camera]
  -- location/worldOff up to scn4
  have hW4 : ∀ j, (objAt scn4 j).worldOff = (objAt scn j).worldOff := by
    intro j
    show (objAt scn3 j).worldOff = _
    rw [hscn3, hideHierarchy_worldOff, hscn2, setupMuteTracks_worldOff, hscn1,
      hideHierarchy_worldOff]
  have hL4 : ∀ j, (objAt scn4 j).location = (objAt scn j).location := by
    intro j
    show (objAt scn3 j).location = _
    rw [hscn3, hideHierarchy_location, hscn2, setupMuteTracks_location, hscn1,
      hideHierarchy_location]
  have hsavedloc : world (objAt scn4 camId) = (objAt scn camId).location := by
    rw [world, hW4, hL4, hcamoff, v3add_zero]
  -- rotation up to scn5
  have hR5 : ∀ j, (objAt scn5 j).rotZ = (objAt scn j).rotZ := by
    intro j
    rw [hscn5, setLocation_rotZ]
    show (objAt scn3 j).rotZ = _
    rw [hscn3, hideHierarchy_rotZ, hscn2, setupMuteTracks_rotZ, hscn1, hideHierarchy_rotZ]
  -- location/worldOff up to scn6, away from the camera
  have hW6 : ∀ j, (objAt scn6 j).worldOff = (objAt scn j).worldOff := by
    intro j
    rw [hscn6, setRotZ_worldOff, hscn5, setLocation_worldOff]
    exact hW4 j
  have hL6 : ∀ j, j ≠ camId → (objAt scn6 j).location = (objAt scn j).location := by
    intro j hj
    rw [hscn6, setRotZ_location, hscn5, setLocation_location_ne _ _ _ _ hj]
    exact hL4 j
  -- animTracks of the current object after setup
  have hA8 : (objAt scn8 objId).animTracks = (objAt scn2 objId).animTracks := by
    show (objAt scn7 objId).animTracks = _
    have h7 : (objAt scn7 objId).animTracks = (objAt scn6 objId).animTracks := by
      rw [hscn7]
      cases hp : props.pointer_global_parent with
      | none => rfl
      | some g => rw [setLocation_animTracks]
    rw [h7, hscn6, setRotZ_animTracks, hscn5, setLocation_animTracks]
    show (objAt scn3 objId).animTracks = _
    rw [hscn3, hideHierarchy_animTracks]
  -- lengths along the reset chain
  have hm1 : r1.objs.length = scn.objs.length := by
    rw [hr1, hideHierarchy_objs_length]; exact hn8
  have hm2 : r2.objs.length = scn.objs.length := by
    rw [hr2]
    split
    · rw [setAllMute_objs_length]; exact hm1
    · exact hm1
  have hm3 : r3.objs.length = scn.objs.length := by
    rw [hr3, hideHierarchy_objs_length]; exact hm2
  have hm4 : r4.objs.length = scn.objs.length := hm3
  have hm5 : r5.objs.length = scn.objs.length := by
    rw [hr5, setLocation_objs_length]; exact hm4
  have hm6 : r6.objs.length = scn.objs.length := by
    rw [hr6]
    split
    · rw [setRotZ_objs_length]; exact hm5
    · exact hm5
  -- children sets along the reset chain
  have hfcr1 : ∀ p t, find_children r1.objs p t = find_children scn.objs p t := by
    intro p t
    rw [hr1, find_children_hideHierarchy]
    exact hfc8 p t
  have hfcr2 : ∀ p t, find_children r2.objs p t = find_children scn.objs p t := by
    intro p t
    rw [hr2]
    split
    · rw [find_children_setAllMute]; exact hfcr1 p t
    · exact hfcr1 p t
  -- hide flags after the two reset hide stages
  have hhideR3 : ∀ j, j < scn.objs.length →
      (j = objId ∨ j ∈ find_children scn.objs objId none ∨ j = camId ∨
        j ∈ find_children scn.objs camId none) →
      (objAt r3 j).hide_render = true := by
    intro j hj hcase
    rw [hr3]
    by_cases hc : (j = camId ∨ j ∈ find_children r2.objs camId none) ∧ j < r2.objs.length
    · exact hideHierarchy_hide_of_mem _ _ _ _ hc
    · rw [hideHierarchy_hide_of_not_mem _ _ _ _ hc]
      have hjobj : j = objId ∨ j ∈ find_children scn.objs objId none := by
        rcases hcase with h | h | h | h
        · exact Or.inl h
        · exact Or.inr h
        · exact absurd ⟨Or.inl h, by rw [hm2]; exact hj⟩ hc
        · exact absurd ⟨Or.inr (by rw [hfcr2]; exact h), by rw [hm2]; exact hj⟩ hc
      have h2 : (objAt r2 j).hide_render = (objAt r1 j).hide_render := by
        rw [hr2]
        split
        · rw [setAllMute_hide]
        · rfl
      rw [h2, hr1]
      apply hideHierarchy_hide_of_mem
      refine ⟨?_, by rw [hn8]; exact hj⟩
      rcases hjobj with h | h
      · exact Or.inl h
      · exact Or.inr (by rw [hfc8]; exact h)
  -- hide flags survive the remaining reset stages
  have hhideR8 : ∀ j, (objAt r8 j).hide_render = (objAt r3 j).hide_render := by
    intro j
    have h8 : (objAt r8 j).hide_render = (objAt r7 j).hide_render := by
      rw [hr8]; split <;> rfl
    have h7 : (objAt r7 j).hide_render = (objAt r6 j).hide_render := by
      rw [hr7]
      cases hp : props.pointer_global_parent with
      | none => rfl
      | some g => rw [setLocation_hide]
    have h6 : (objAt r6 j).hide_render = (objAt r5 j).hide_render := by
      rw [hr6]
      split
      · rw [setRotZ_hide]
      · rfl
    have h5 : (objAt r5 j).hide_render = (objAt r4 j).hide_render := by
      rw [hr5, setLocation_hide]
    rw [h8, h7, h6, h5]
    rfl
  refine ⟨⟨?_, ?_, ?_, ?_, ?_, ?_, ?_, ?_, ?_, ?_⟩, ?_⟩
  · -- hide of the current object
    rw [hRT, hhideR8, hhideR3 objId hobjlt (Or.inl rfl), hhobj]
  · -- hide of its children
    intro c hc
    have hclt : c < scn.objs.length := by
      have : c ∈ List.range scn.objs.length := List.mem_of_mem_filter hc
      simpa using this
    rw [hRT, hhideR8, hhideR3 c hclt (Or.inr (Or.inl hc)), hhchild c hc]
  · -- hide of the camera rig
    rw [hRT, hhideR8, hhideR3 camId hcamlt (Or.inr (Or.inr (Or.inl rfl))), hhcam]
  · -- hide of the camera hierarchy
    intro c hc
    have hclt : c < scn.objs.length := by
      have : c ∈ List.range scn.objs.length := List.mem_of_mem_filter hc
      simpa using this
    rw [hRT, hhideR8, hhideR3 c hclt (Or.inr (Or.inr (Or.inr hc))), hhcamchild c hc]
  · -- the NLA mute flags of the current object
    have hAr : (objAt r8 objId).animTracks = (objAt r2 objId).animTracks := by
      have h8 : (objAt r8 objId).animTracks = (objAt r7 objId).animTracks := by
        rw [hr8]; split <;> rfl
      have h7 : (objAt r7 objId).animTracks = (objAt r6 objId).animTracks := by
        rw [hr7]
        cases hp : props.pointer_global_parent with
        | none => rfl
        | some g => rw [setLocation_animTracks]
      have h6 : (objAt r6 objId).animTracks = (objAt r5 objId).animTracks := by
        rw [hr6]
        split
        · rw [setRotZ_animTracks]
        · rfl
      have h5 : (objAt r5 objId).animTracks = (objAt r4 objId).animTracks := by
        rw [hr5, setLocation_animTracks]
      have h3 : (objAt r3 objId).animTracks = (objAt r2 objId).animTracks := by
        rw [hr3, hideHierarchy_animTracks]
      rw [h8, h7, h6, h5]
      exact h3
    rw [hRT, hAr]
    rcases htracks with htr | htr
    · -- "No Action": never touched
      have h2 : (objAt r2 objId).animTracks = (objAt r1 objId).animTracks := by
        rw [hr2, if_neg (by simp [htr])]
      have h1 : (objAt r1 objId).animTracks = (objAt scn8 objId).animTracks := by
        rw [hr1, hideHierarchy_animTracks]
      have hs2 : (objAt scn2 objId).animTracks = (objAt scn1 objId).animTracks := by
        rw [hscn2, setupMuteTracks, if_neg (by simp [htr])]
      rw [h2, h1, hA8, hs2, hscn1, hideHierarchy_animTracks]
    · -- live alias of the current object's collection
      have h2 : (objAt r2 objId).animTracks
          = ((objAt r1 objId).animTracks.map (·.map fun t => { t with mute := false })) := by
        rw [hr2, if_pos (by simp [htr])]
        exact setAllMute_animTracks_self _ _ _ (by rw [hm1]; exact hobjlt)
      have h1 : (objAt r1 objId).animTracks = (objAt scn2 objId).animTracks := by
        rw [hr1, hideHierarchy_animTracks]
        exact hA8
      have hs2 : (objAt scn2 objId).animTracks
          = ((objAt scn1 objId).animTracks.map (·.map fun t => { t with mute := true })).map
              (fun ts => ts.set rs.i_current_track
                { ts.getD rs.i_current_track noTrack with mute := false }) := by
        rw [hscn2, setupMuteTracks, if_pos (by simp [htr]), htr]
        rw [setTrackMute_animTracks_self _ _ _ _ (by rw [setAllMute_objs_length, hn1]; exact hobjlt)]
        rw [setAllMute_animTracks_self _ _ _ (by rw [hn1]; exact hobjlt)]
      have hs1 : (objAt scn1 objId).animTracks = (objAt scn objId).animTracks := by
        rw [hscn1, hideHierarchy_animTracks]
      rw [h2, h1, hs2, hs1]
      cases hat : (objAt scn objId).animTracks with
      | none => rfl
      | some ts =>
        simp only [Option.map_some]
        exact congrArg some (mute_roundtrip ts rs.i_current_track (hmutes ts hat))
  · -- the active scene camera
    have h8 : r8.camera = r7.camera := by
      rw [hr8]; split <;> rfl
    have h7 : r7.camera = r6.camera := by
      rw [hr7]
      cases hp : props.pointer_global_parent with
      | none => rfl
      | some g => rw [setLocation_camera]
    have h6 : r6.camera = r5.camera := by
      rw [hr6]
      split
      · rw [setRotZ_camera]
      · rfl
    have h5 : r5.camera = r4.camera := by rw [hr5, setLocation_camera]
    rw [hRT, h8, h7, h6, h5]
    show scn3.camera = scn.camera
    exact hcam3
  · -- the camera rig's location
    have h8 : (objAt r8 camId).location = (objAt r7 camId).location := by
      rw [hr8]; split <;> rfl
    have h7 : (objAt r7 camId).location = (objAt r6 camId).location := by
      rw [hr7]
      cases hp : props.pointer_global_parent with
      | none => rfl
      | some g =>
        rw [setLocation_location_ne _ _ _ _ (Ne.symm (hglobal g hp).2.1)]
    have h6 : (objAt r6 camId).location = (objAt r5 camId).location := by
      rw [hr6]
      split
      · rw [setRotZ_location]
      · rfl
    have h5 : (objAt r5 camId).location = world (objAt scn4 camId) := by
      rw [hr5]
      exact setLocation_location_self _ _ _ (by rw [hm4]; exact hcamlt)
    rw [hRT, h8, h7, h6, h5, hsavedloc]
  · -- the camera rig's z-rotation
    have h8 : (objAt r8 camId).rotZ = (objAt r7 camId).rotZ := by
      rw [hr8]; split <;> rfl
    have h7 : (objAt r7 camId).rotZ = (objAt r6 camId).rotZ := by
      rw [hr7]
      cases hp : props.pointer_global_parent with
      | none => rfl
      | some g => rw [setLocation_rotZ]
    have hcond : (objAt scn5 camId).rotZ ≠ 0 := by
      rw [hR5]; exact hrot
    have h6 : (objAt r6 camId).rotZ = (objAt scn5 camId).rotZ := by
      rw [hr6, if_pos hcond]
      exact setRotZ_rotZ_self _ _ _ (by rw [hm5]; exact hcamlt)
    rw [hRT, h8, h7, h6, hR5]
  · -- the global parent's location
    intro g hg
    obtain ⟨hglt, hgne, hgoff⟩ := hglobal g hg
    have h8 : (objAt r8 g).location = (objAt r7 g).location := by
      rw [hr8]; split <;> rfl
    have h7 : (objAt r7 g).location = world (objAt scn6 g) := by
      rw [hr7, hg]
      rw [setLocation_location_self _ _ _ (by rw [hm6]; exact hglt)]
      rfl
    rw [hRT, h8, h7, world, hW6, hL6 g hgne, hgoff, v3add_zero]
  · -- the current frame
    have hcond : scn7.frame_current ≠ 0 := by rw [hfr7]; exact hframe
    rw [hRT, hr8, if_pos hcond]
    show scn7.frame_current = scn.frame_current
    exact hfr7
  · -- render_scene restores the render filepath
    intro rs' scn'
    rfl

/-- Claim C2 as frozen is refuted at the iteration state `rsC2` on the scene
whose current frame is 0: the source's `if self.orig_frame:` treats the
saved frame 0 as falsy, so after `setup_scene` + `reset_scene` the frame is
the rendered frame 5, not the original 0. -/
theorem c2_counterexample :
    (roundTrip rsC2 propsC2 scnC2zero).frame_current ≠ scnC2zero.frame_current := by
  decide

theorem c2_witness :
    (roundTrip rsC2 propsC2 scnC2).frame_current = scnC2.frame_current ∧
    (objAt (roundTrip rsC2 propsC2 scnC2) rsC2.curCam).rotZ
      = (objAt scnC2 rsC2.curCam).rotZ := by
  have h := c2_roundtrip_restores rsC2 propsC2 scnC2 (by decide) (by decide)
    (Or.inl rfl) (fun ts hts => Option.noConfusion hts) (by decide) (by decide)
    (by decide) (by decide) (by decide) (by decide) (by decide)
    (fun g hg => Option.noConfusion hg)
  exact ⟨h.1.2.2.2.2.2.2.2.2.2, h.1.2.2.2.2.2.2.2.1⟩

theorem update_lists_inv (ctx : Ctx) (rs : RSRun) (l : Nat) :
    (update_lists ctx rs l).output_order = rs.output_order ∧
    (update_lists ctx rs l).i_current_angle = rs.i_current_angle ∧
    (update_lists ctx rs l).i_current_camera = rs.i_current_camera ∧
    (update_lists ctx rs l).i_current_frame = rs.i_current_frame ∧
    (update_lists ctx rs l).i_current_object = rs.i_current_object ∧
    (update_lists ctx rs l).i_current_sheet = rs.i_current_sheet ∧
    (update_lists ctx rs l).i_current_track = rs.i_current_track := by
  simp only [update_lists]
  repeat' split
  all_goals exact ⟨rfl, rfl, rfl, rfl, rfl, rfl, rfl⟩

theorem update_lists_angles_ne (ctx : Ctx) (rs : RSRun) (l : Nat)
    (h : rs.output_order.getD l "" ≠ "angle") :
    (update_lists ctx rs l).angles = rs.angles := by
  simp only [update_lists]
  repeat' split
  all_goals first | rfl | simp_all

theorem update_lists_cameras_ne (ctx : Ctx) (rs : RSRun) (l : Nat)
    (h : rs.output_order.getD l "" ≠ "camera") :
    (update_lists ctx rs l).cameras = rs.cameras := by
  simp only [update_lists]
  repeat' split
  all_goals first | rfl | simp_all

theorem update_lists_sheets_ne (ctx : Ctx) (rs : RSRun) (l : Nat)
    (h : rs.output_order.getD l "" ≠ "sheet") :
    (update_lists ctx rs l).sheets = rs.sheets := by
  simp only [update_lists]
  repeat' split
  all_goals first | rfl | simp_all

theorem update_lists_objects_ne (ctx : Ctx) (rs : RSRun) (l : Nat)
    (h : rs.output_order.getD l "" ≠ "object") :
    (update_lists ctx rs l).objects = rs.objects := by
  simp only [update_lists]
  repeat' split
  all_goals first | rfl | simp_all

theorem update_lists_tracks_ne (ctx : Ctx) (rs : RSRun) (l : Nat)
    (h : rs.output_order.getD l "" ≠ "track") :
    (update_lists ctx rs l).tracks = rs.tracks := by
  simp only [update_lists]
  repeat' split
  all_goals first | rfl | simp_all

theorem update_lists_frames_ne (ctx : Ctx) (rs : RSRun) (l : Nat)
    (h : rs.output_order.getD l "" ≠ "frame") :
    (update_lists ctx rs l).frames = rs.frames := by
  simp only [update_lists]
  repeat' split
  all_goals first | rfl | simp_all

theorem update_lists_angles_of (ctx : Ctx) (rs : RSRun) (l : Nat)
    (h : rs.output_order.getD l "" = "angle") :
    (update_lists ctx rs l).angles = some (List.range ctx.props.int_camera_angles) := by
  simp only [update_lists, h, String.reduceEq, reduceIte]

theorem update_lists_cameras_of (ctx : Ctx) (rs : RSRun) (l : Nat)
    (h : rs.output_order.getD l "" = "camera") :
    (update_lists ctx rs l).cameras = some (camerasOf ctx.props) := by
  simp only [update_lists, h, String.reduceEq, reduceIte]

theorem update_lists_sheets_of (ctx : Ctx) (rs : RSRun) (l : Nat)
    (h : rs.output_order.getD l "" = "sheet") :
    (update_lists ctx rs l).sheets = some (sheetsOf ctx) := by
  simp only [update_lists, h, String.reduceEq, reduceIte]

theorem update_lists_objects_of (ctx : Ctx) (rs : RSRun) (l : Nat) (sl : List (List Nat))
    (h : rs.output_order.getD l "" = "object")
    (hsh : rs.sheets = some sl) (hne : sl ≠ []) :
    (update_lists ctx rs l).objects = some (sl.getD rs.i_current_sheet []) := by
  simp only [update_lists, h, String.reduceEq, reduceIte, hsh]
  rw [if_pos hne]

theorem update_lists_tracks_of (ctx : Ctx) (rs : RSRun) (l : Nat) (ol : List Nat)
    (h : rs.output_order.getD l "" = "track")
    (hob : rs.objects = some ol) (hne : ol ≠ []) :
    (update_lists ctx rs l).tracks = tracksOf ctx.scene (ol.getD rs.i_current_object 0) := by
  simp only [update_lists, h, String.reduceEq, reduceIte, hob]
  rw [if_pos hne]

theorem update_lists_frames_of (ctx : Ctx) (rs : RSRun) (l : Nat)
    (h : rs.output_order.getD l "" = "frame")
    (htt : tracksTruthy ctx.scene rs.tracks = true)
    (hfne : framesOf ctx.scene rs.tracks rs.i_current_track ≠ []) :
    (update_lists ctx rs l).frames =
      some (framesOf ctx.scene rs.tracks rs.i_current_track) := by
  simp only [update_lists, h, String.reduceEq, reduceIte, htt]
  cases htv : rs.tracks with
  | noneV => rw [htv] at htt; exact absurd htt (by simp [tracksTruthy])
  | noAction => simp [framesOf]
  | live aId =>
    rw [htv] at hfne
    simp only [framesOf] at hfne ⊢
    cases has : animStart (stripsFor ctx.scene aId rs.i_current_track) with
    | none => rw [has] at hfne; exact absurd rfl hfne
    | some a => simp [has]

theorem foldl_ul_inv (ctx : Ctx) : ∀ (levels : List Nat) (rs : RSRun),
    (levels.foldl (update_lists ctx) rs).output_order = rs.output_order ∧
    (levels.foldl (update_lists ctx) rs).i_current_angle = rs.i_current_angle ∧
    (levels.foldl (update_lists ctx) rs).i_current_camera = rs.i_current_camera ∧
    (levels.foldl (update_lists ctx) rs).i_current_frame = rs.i_current_frame ∧
    (levels.foldl (update_lists ctx) rs).i_current_object = rs.i_current_object ∧
    (levels.foldl (update_lists ctx) rs).i_current_sheet = rs.i_current_sheet ∧
    (levels.foldl (update_lists ctx) rs).i_current_track = rs.i_current_track := by
  intro levels
  induction levels with
  | nil => intro rs; exact ⟨rfl, rfl, rfl, rfl, rfl, rfl, rfl⟩
  | cons a t ih =>
    intro rs
    obtain ⟨e1, e2, e3, e4, e5, e6, e7⟩ := ih (update_lists ctx rs a)
    obtain ⟨f1, f2, f3, f4, f5, f6, f7⟩ := update_lists_inv ctx rs a
    exact ⟨e1.trans f1, e2.trans f2, e3.trans f3, e4.trans f4, e5.trans f5,
      e6.trans f6, e7.trans f7⟩

theorem foldl_ul_angles_none (ctx : Ctx) : ∀ (levels : List Nat) (rs : RSRun),
    (∀ l ∈ levels, rs.output_order.getD l "" ≠ "angle") →
    (levels.foldl (update_lists ctx) rs).angles = rs.angles := by
  intro levels
  induction levels with
  | nil => intro rs _; rfl
  | cons a t ih =>
    intro rs h
    rw [List.foldl_cons]
    rw [ih (update_lists ctx rs a) (fun l hl => by
      rw [(update_lists_inv ctx rs a).1]; exact h l (List.mem_cons_of_mem a hl))]
    exact update_lists_angles_ne ctx rs a (h a (List.mem_cons_self a t))

theorem foldl_ul_cameras_none (ctx : Ctx) : ∀ (levels : List Nat) (rs : RSRun),
    (∀ l ∈ levels, rs.output_order.getD l "" ≠ "camera") →
    (levels.foldl (update_lists ctx) rs).cameras = rs.cameras := by
  intro levels
  induction levels with
  | nil => intro rs _; rfl
  | cons a t ih =>
    intro rs h
    rw [List.foldl_cons]
    rw [ih (update_lists ctx rs a) (fun l hl => by
      rw [(update_lists_inv ctx rs a).1]; exact h l (List.mem_cons_of_mem a hl))]
    exact update_lists_cameras_ne ctx rs a (h a (List.mem_cons_self a t))

theorem foldl_ul_sheets_none (ctx : Ctx) : ∀ (levels : List Nat) (rs : RSRun),
    (∀ l ∈ levels, rs.output_order.getD l "" ≠ "sheet") →
    (levels.foldl (update_lists ctx) rs).sheets = rs.sheets := by
  intro levels
  induction levels with
  | nil => intro rs _; rfl
  | cons a t ih =>
    intro rs h
    rw [List.foldl_cons]
    rw [ih (update_lists ctx rs a) (fun l hl => by
      rw [(update_lists_inv ctx rs a).1]; exact h l (List.mem_cons_of_mem a hl))]
    exact update_lists_sheets_ne ctx rs a (h a (List.mem_cons_self a t))

theorem foldl_ul_objects_none (ctx : Ctx) : ∀ (levels : List Nat) (rs : RSRun),
    (∀ l ∈ levels, rs.output_order.getD l "" ≠ "object") →
    (levels.foldl (update_lists ctx) rs).objects = rs.objects := by
  intro levels
  induction levels with
  | nil => intro rs _; rfl
  | cons a t ih =>
    intro rs h
    rw [List.foldl_cons]
    rw [ih (update_lists ctx rs a) (fun l hl => by
      rw [(update_lists_inv ctx rs a).1]; exact h l (List.mem_cons_of_mem a hl))]
    exact update_lists_objects_ne ctx rs a (h a (List.mem_cons_self a t))

theorem foldl_ul_tracks_none (ctx : Ctx) : ∀ (levels : List Nat) (rs : RSRun),
    (∀ l ∈ levels, rs.output_order.getD l "" ≠ "track") →
    (levels.foldl (update_lists ctx) rs).tracks = rs.tracks := by
  intro levels
  induction levels with
  | nil => intro rs _; rfl
  | cons a t ih =>
    intro rs h
    rw [List.foldl_cons]
    rw [ih (update_lists ctx rs a) (fun l hl => by
      rw [(update_lists_inv ctx rs a).1]; exact h l (List.mem_cons_of_mem a hl))]
    exact update_lists_tracks_ne ctx rs a (h a (List.mem_cons_self a t))

theorem foldl_ul_frames_none (ctx : Ctx) : ∀ (levels : List Nat) (rs : RSRun),
    (∀ l ∈ levels, rs.output_order.getD l "" ≠ "frame") →
    (levels.foldl (update_lists ctx) rs).frames = rs.frames := by
  intro levels
  induction levels with
  | nil => intro rs _; rfl
  | cons a t ih =>
    intro rs h
    rw [List.foldl_cons]
    rw [ih (update_lists ctx rs a) (fun l hl => by
      rw [(update_lists_inv ctx rs a).1]; exact h l (List.mem_cons_of_mem a hl))]
    exact update_lists_frames_ne ctx rs a (h a (List.mem_cons_self a t))

theorem getD_indexOf_self {order : List String} {nm : String} (hmem : nm ∈ order) :
    order.getD (order.indexOf nm) "" = nm := by
  have hi : order.indexOf nm < order.length := List.indexOf_lt_length.mpr hmem
  rw [List.getD_eq_getElem?_getD, List.getElem?_eq_getElem hi]
  simp [List.getElem_indexOf hi]

theorem getD_ne_of_ne_indexOf {order : List String} (hnd : order.Nodup) {nm : String}
    (hmem : nm ∈ order) (hnm : nm ≠ "") {l : Nat} (h : l ≠ order.indexOf nm) :
    order.getD l "" ≠ nm := by
  intro he
  by_cases hl : l < order.length
  · rw [List.getD_eq_getElem?_getD, List.getElem?_eq_getElem hl] at he
    have hgl : order[l] = nm := he
    have hi : order.indexOf nm < order.length := List.indexOf_lt_length.mpr hmem
    have hee : order[order.indexOf nm] = order[l] := by rw [List.getElem_indexOf hi, hgl]
    exact h ((hnd.getElem_inj_iff).mp hee).symm
  · rw [List.getD_eq_getElem?_getD, List.getElem?_eq_none (by omega)] at he
    exact hnm he.symm

theorem foldl_range_angles (ctx : Ctx) (rs : RSRun)
    (hnd : rs.output_order.Nodup) (hmem : "angle" ∈ rs.output_order) :
    ∀ n, rs.output_order.indexOf "angle" < n →
    ((List.range n).foldl (update_lists ctx) rs).angles
      = some (List.range ctx.props.int_camera_angles) := by
  intro n
  induction n with
  | zero => omega
  | succ m ih =>
    intro h
    rw [List.range_succ, List.foldl_append, List.foldl_cons, List.foldl_nil]
    set r := (List.range m).foldl (update_lists ctx) rs with hr
    have hro : r.output_order = rs.output_order := (foldl_ul_inv ctx _ rs).1
    by_cases hm : rs.output_order.indexOf "angle" < m
    · have hname : rs.output_order.getD m "" ≠ "angle" :=
        getD_ne_of_ne_indexOf hnd hmem (by decide) (by omega)
      rw [update_lists_angles_ne ctx r m (by rw [hro]; exact hname)]
      exact ih hm
    · have hm' : rs.output_order.indexOf "angle" = m := by omega
      apply update_lists_angles_of ctx r m
      rw [hro, ← hm']
      exact getD_indexOf_self hmem

theorem foldl_range_cameras (ctx : Ctx) (rs : RSRun)
    (hnd : rs.output_order.Nodup) (hmem : "camera" ∈ rs.output_order) :
    ∀ n, rs.output_order.indexOf "camera" < n →
    ((List.range n).foldl (update_lists ctx) rs).cameras = some (camerasOf ctx.props) := by
  intro n
  induction n with
  | zero => omega
  | succ m ih =>
    intro h
    rw [List.range_succ, List.foldl_append, List.foldl_cons, List.foldl_nil]
    set r := (List.range m).foldl (update_lists ctx) rs with hr
    have hro : r.output_order = rs.output_order := (foldl_ul_inv ctx _ rs).1
    by_cases hm : rs.output_order.indexOf "camera" < m
    · have hname : rs.output_order.getD m "" ≠ "camera" :=
        getD_ne_of_ne_indexOf hnd hmem (by decide) (by omega)
      rw [update_lists_cameras_ne ctx r m (by rw [hro]; exact hname)]
      exact ih hm
    · have hm' : rs.output_order.indexOf "camera" = m := by omega
      apply update_lists_cameras_of ctx r m
      rw [hro, ← hm']
      exact getD_indexOf_self hmem

theorem foldl_range_sheets (ctx : Ctx) (rs : RSRun)
    (hnd : rs.output_order.Nodup) (hmem : "sheet" ∈ rs.output_order) :
    ∀ n, rs.output_order.indexOf "sheet" < n →
    ((List.range n).foldl (update_lists ctx) rs).sheets = some (sheetsOf ctx) := by
  intro n
  induction n with
  | zero => omega
  | succ m ih =>
    intro h
    rw [List.range_succ, List.foldl_append, List.foldl_cons, List.foldl_nil]
    set r := (List.range m).foldl (update_lists ctx) rs with hr
    have hro : r.output_order = rs.output_order := (foldl_ul_inv ctx _ rs).1
    by_cases hm : rs.output_order.indexOf "sheet" < m
    · have hname : rs.output_order.getD m "" ≠ "sheet" :=
        getD_ne_of_ne_indexOf hnd hmem (by decide) (by omega)
      rw [update_lists_sheets_ne ctx r m (by rw [hro]; exact hname)]
      exact ih hm
    · have hm' : rs.output_order.indexOf "sheet" = m := by omega
      apply update_lists_sheets_of ctx r m
      rw [hro, ← hm']
      exact getD_indexOf_self hmem

theorem foldl_range_objects (ctx : Ctx) (rs : RSRun)
    (hnd : rs.output_order.Nodup)
    (hmemS : "sheet" ∈ rs.output_order) (hmemO : "object" ∈ rs.output_order)
    (hso : rs.output_order.indexOf "sheet" < rs.output_order.indexOf "object")
    (hsne : sheetsOf ctx ≠ []) :
    ∀ n, rs.output_order.indexOf "object" < n →
    ((List.range n).foldl (update_lists ctx) rs).objects
      = some ((sheetsOf ctx).getD rs.i_current_sheet []) := by
  intro n
  induction n with
  | zero => omega
  | succ m ih =>
    intro h
    rw [List.range_succ, List.foldl_append, List.foldl_cons, List.foldl_nil]
    set r := (List.range m).foldl (update_lists ctx) rs with hr
    have hro : r.output_order = rs.output_order := (foldl_ul_inv ctx _ rs).1
    by_cases hm : rs.output_order.indexOf "object" < m
    · have hname : rs.output_order.getD m "" ≠ "object" :=
        getD_ne_of_ne_indexOf hnd hmemO (by decide) (by omega)
      rw [update_lists_objects_ne ctx r m (by rw [hro]; exact hname)]
      exact ih hm
    · have hm' : rs.output_order.indexOf "object" = m := by omega
      have hsh : r.sheets = some (sheetsOf ctx) :=
        foldl_range_sheets ctx rs hnd hmemS m (by omega)
      have hic : r.i_current_sheet = rs.i_current_sheet := (foldl_ul_inv ctx _ rs).2.2.2.2.2.1
      rw [update_lists_objects_of ctx r m (sheetsOf ctx)
        (by rw [hro, ← hm']; exact getD_indexOf_self hmemO) hsh hsne, hic]

theorem foldl_range_tracks (ctx : Ctx) (rs : RSRun)
    (hnd : rs.output_order.Nodup)
    (hmemS : "sheet" ∈ rs.output_order) (hmemO : "object" ∈ rs.output_order)
    (hmemT : "track" ∈ rs.output_order)
    (hso : rs.output_order.indexOf "sheet" < rs.output_order.indexOf "object")
    (hot : rs.output_order.indexOf "object" < rs.output_order.indexOf "track")
    (hsne : sheetsOf ctx ≠ [])
    (hone : (sheetsOf ctx).getD rs.i_current_sheet [] ≠ []) :
    ∀ n, rs.output_order.indexOf "track" < n →
    ((List.range n).foldl (update_lists ctx) rs).tracks
      = tracksOf ctx.scene (oidOf ctx rs) := by
  intro n
  induction n with
  | zero => omega
  | succ m ih =>
    intro h
    rw [List.range_succ, List.foldl_append, List.foldl_cons, List.foldl_nil]
    set r := (List.range m).foldl (update_lists ctx) rs with hr
    have hro : r.output_order = rs.output_order := (foldl_ul_inv ctx _ rs).1
    by_cases hm : rs.output_order.indexOf "track" < m
    · have hname : rs.output_order.getD m "" ≠ "track" :=
        getD_ne_of_ne_indexOf hnd hmemT (by decide) (by omega)
      rw [update_lists_tracks_ne ctx r m (by rw [hro]; exact hname)]
      exact ih hm
    · have hm' : rs.output_order.indexOf "track" = m := by omega
      have hob : r.objects = some ((sheetsOf ctx).getD rs.i_current_sheet []) :=
        foldl_range_objects ctx rs hnd hmemS hmemO hso hsne m (by omega)
      have hic : r.i_current_object = rs.i_current_object := (foldl_ul_inv ctx _ rs).2.2.2.2.1
      rw [update_lists_tracks_of ctx r m ((sheetsOf ctx).getD rs.i_current_sheet [])
        (by rw [hro, ← hm']; exact getD_indexOf_self hmemT) hob hone, hic]
      rfl

theorem foldl_range_frames (ctx : Ctx) (rs : RSRun)
    (hnd : rs.output_order.Nodup)
    (hmemS : "sheet" ∈ rs.output_order) (hmemO : "object" ∈ rs.output_order)
    (hmemT : "track" ∈ rs.output_order) (hmemF : "frame" ∈ rs.output_order)
    (hso : rs.output_order.indexOf "sheet" < rs.output_order.indexOf "object")
    (hot : rs.output_order.indexOf "object" < rs.output_order.indexOf "track")
    (htf : rs.output_order.indexOf "track" < rs.output_order.indexOf "frame")
    (hsne : sheetsOf ctx ≠ [])
    (hone : (sheetsOf ctx).getD rs.i_current_sheet [] ≠ [])
    (htt : tracksTruthy ctx.scene (tracksOf ctx.scene (oidOf ctx rs)) = true)
    (hfne : framesOf ctx.scene (tracksOf ctx.scene (oidOf ctx rs)) rs.i_current_track ≠ []) :
    ∀ n, rs.output_order.indexOf "frame" < n →
    ((List.range n).foldl (update_lists ctx) rs).frames
      = some (framesOf ctx.scene (tracksOf ctx.scene (oidOf ctx rs)) rs.i_current_track) := by
  intro n
  induction n with
  | zero => omega
  | succ m ih =>
    intro h
    rw [List.range_succ, List.foldl_append, List.foldl_cons, List.foldl_nil]
    set r := (List.range m).foldl (update_lists ctx) rs with hr
    have hro : r.output_order = rs.output_order := (foldl_ul_inv ctx _ rs).1
    by_cases hm : rs.output_order.indexOf "frame" < m
    · have hname : rs.output_order.getD m "" ≠ "frame" :=
        getD_ne_of_ne_indexOf hnd hmemF (by decide) (by omega)
      rw [update_lists_frames_ne ctx r m (by rw [hro]; exact hname)]
      exact ih hm
    · have hm' : rs.output_order.indexOf "frame" = m := by omega
      have htr : r.tracks = tracksOf ctx.scene (oidOf ctx rs) :=
        foldl_range_tracks ctx rs hnd hmemS hmemO hmemT hso hot hsne hone m (by omega)
      have hic : r.i_current_track = rs.i_current_track := (foldl_ul_inv ctx _ rs).2.2.2.2.2.2
      rw [update_lists_frames_of ctx r m
        (by rw [hro, ← hm']; exact getD_indexOf_self hmemF)
        (by rw [htr]; exact htt)
        (by rw [htr, hic]; exact hfne), htr, hic]

/-- The `update_lists` loop of `render_iteration` under a valid group order:
with the order a permutation of the six names in which `sheet` precedes
`object` precedes `track` precedes `frame`, and the dependencies truthy,
every group list is rebuilt from the scene at the current indices. -/
theorem update_all_spec (ctx : Ctx) (rs : RSRun)
    (horder : rs.output_order.Perm output_types)
    (hso : rs.output_order.indexOf "sheet" < rs.output_order.indexOf "object")
    (hot : rs.output_order.indexOf "object" < rs.output_order.indexOf "track")
    (htf : rs.output_order.indexOf "track" < rs.output_order.indexOf "frame")
    (hsne : sheetsOf ctx ≠ [])
    (hone : (sheetsOf ctx).getD rs.i_current_sheet [] ≠ [])
    (htt : tracksTruthy ctx.scene (tracksOf ctx.scene (oidOf ctx rs)) = true)
    (hfne : framesOf ctx.scene (tracksOf ctx.scene (oidOf ctx rs)) rs.i_current_track ≠ []) :
    (update_all ctx rs).angles = some (List.range ctx.props.int_camera_angles) ∧
    (update_all ctx rs).cameras = some (camerasOf ctx.props) ∧
    (update_all ctx rs).sheets = some (sheetsOf ctx) ∧
    (update_all ctx rs).objects = some ((sheetsOf ctx).getD rs.i_current_sheet []) ∧
    (update_all ctx rs).tracks = tracksOf ctx.scene (oidOf ctx rs) ∧
    (update_all ctx rs).frames
      = some (framesOf ctx.scene (tracksOf ctx.scene (oidOf ctx rs)) rs.i_current_track) := by
  have hnd : rs.output_order.Nodup := horder.nodup_iff.mpr (by decide)
  have hmemA : "angle" ∈ rs.output_order := horder.mem_iff.mpr (by decide)
  have hmemC : "camera" ∈ rs.output_order := horder.mem_iff.mpr (by decide)
  have hmemS : "sheet" ∈ rs.output_order := horder.mem_iff.mpr (by decide)
  have hmemO : "object" ∈ rs.output_order := horder.mem_iff.mpr (by decide)
  have hmemT : "track" ∈ rs.output_order := horder.mem_iff.mpr (by decide)
  have hmemF : "frame" ∈ rs.output_order := horder.mem_iff.mpr (by decide)
  have hlt : ∀ nm ∈ rs.output_order, rs.output_order.indexOf nm < rs.output_order.length :=
    fun nm h => List.indexOf_lt_length.mpr h
  refine ⟨foldl_range_angles ctx rs hnd hmemA _ (hlt _ hmemA),
    foldl_range_cameras ctx rs hnd hmemC _ (hlt _ hmemC),
    foldl_range_sheets ctx rs hnd hmemS _ (hlt _ hmemS),
    foldl_range_objects ctx rs hnd hmemS hmemO hso hsne _ (hlt _ hmemO),
    foldl_range_tracks ctx rs hnd hmemS hmemO hmemT hso hot hsne hone _ (hlt _ hmemT),
    foldl_range_frames ctx rs hnd hmemS hmemO hmemT hmemF hso hot htf hsne hone htt hfne _
      (hlt _ hmemF)⟩

theorem trackLen_pos_of_truthy {scn : Scene} {tv : TracksVal}
    (h : tracksTruthy scn tv = true) : 0 < trackLenV scn tv := by
  cases tv with
  | noneV => exact absurd h (by simp [tracksTruthy])
  | noAction => simp [trackLenV]
  | live aId =>
    simp only [tracksTruthy, bne_iff_ne, ne_eq] at h
    simp only [trackLenV]
    omega

theorem getD_mem_of_lt {α : Type} {l : List α} {n : Nat} {d : α} (h : n < l.length) :
    l.getD n d ∈ l := by
  rw [List.getD_eq_getElem?_getD, List.getElem?_eq_getElem h]
  exact List.getElem_mem h

theorem indexOf_reverse_eq {l : List String} (hnd : l.Nodup) {x : String} (hx : x ∈ l) :
    l.reverse.indexOf x = l.length - 1 - l.indexOf x := by
  have hi : l.indexOf x < l.length := List.indexOf_lt_length.mpr hx
  have hbound : l.length - 1 - l.indexOf x < l.reverse.length := by
    rw [List.length_reverse]; omega
  have hrg : l.reverse[l.length - 1 - l.indexOf x] = x := by
    rw [List.getElem_reverse]
    have h4 : l[l.length - 1 - (l.length - 1 - l.indexOf x)] = l[l.indexOf x] := by
      congr 1
      omega
    rw [h4]
    exact List.getElem_indexOf hi
  have hxr : x ∈ l.reverse := List.mem_reverse.mpr hx
  have hjl : l.reverse.indexOf x < l.reverse.length := List.indexOf_lt_length.mpr hxr
  have hndr : l.reverse.Nodup := by rwa [List.nodup_reverse]
  apply (hndr.getElem_inj_iff).mp
  rw [List.getElem_indexOf hjl, hrg]

/-- In one odometer step, every digit below a digit that changed has wrapped
to zero (the loop only reaches an outer level by wrapping all inner ones). -/
theorem odoStep_lower : ∀ (rads ds : List Nat) (p q : Nat), q < p →
    (odoStep rads ds).1.getD p 0 ≠ ds.getD p 0 → (odoStep rads ds).1.getD q 0 = 0 := by
  intro rads
  induction rads with
  | nil =>
    intro ds p q hqp hne
    show List.getD [] q 0 = 0
    simp
  | cons r rads ih =>
    intro ds p q hqp hne
    cases ds with
    | nil =>
      show List.getD [] q 0 = 0
      simp
    | cons d ds =>
      by_cases hw : (d + 1) % r = 0
      · have hred : odoStep (r :: rads) (d :: ds)
            = ((d + 1) % r :: (odoStep rads ds).1, (odoStep rads ds).2) := by
          rw [odoStep, if_pos hw]
        rw [hred] at hne ⊢
        cases q with
        | zero => simpa using hw
        | succ q' =>
          cases p with
          | zero => omega
          | succ p' =>
            simp only [List.getD_cons_succ] at hne ⊢
            exact ih ds p' q' (by omega) hne
      · have hred : odoStep (r :: rads) (d :: ds) = ((d + 1) % r :: ds, false) := by
          rw [odoStep, if_neg hw]
        rw [hred] at hne ⊢
        cases p with
        | zero => omega
        | succ p' =>
          simp only [List.getD_cons_succ] at hne
          exact absurd rfl hne

/-- The index-increment loop preserves the between-iterations invariant: a
level's index either stays within the list it was just checked against, or
has wrapped to zero together with every level inside it, so it is in range
for whatever list the next `update_lists` pass rebuilds. -/
theorem iterate_preserves_inv (ctx : Ctx) (rs' : RSRun)
    (horder : rs'.output_order.Perm output_types)
    (hso : rs'.output_order.indexOf "sheet" < rs'.output_order.indexOf "object")
    (hot : rs'.output_order.indexOf "object" < rs'.output_order.indexOf "track")
    (htf : rs'.output_order.indexOf "track" < rs'.output_order.indexOf "frame")
    (hobjAll : ∀ s ∈ sheetsOf ctx, s ≠ [])
    (htrAll : ∀ s ∈ sheetsOf ctx, ∀ o ∈ s,
        tracksTruthy ctx.scene (tracksOf ctx.scene o) = true)
    (hfrAll : ∀ s ∈ sheetsOf ctx, ∀ o ∈ s,
        ∀ i, i < trackLenV ctx.scene (tracksOf ctx.scene o) →
          framesOf ctx.scene (tracksOf ctx.scene o) i ≠ [])
    (ha : rs'.angles = some (List.range ctx.props.int_camera_angles))
    (hc : rs'.cameras = some (camerasOf ctx.props))
    (hsh : rs'.sheets = some (sheetsOf ctx))
    (hob : rs'.objects = some ((sheetsOf ctx).getD rs'.i_current_sheet []))
    (htr : rs'.tracks = tracksOf ctx.scene (oidOf ctx rs'))
    (hfr : rs'.frames
      = some (framesOf ctx.scene (tracksOf ctx.scene (oidOf ctx rs')) rs'.i_current_track))
    (hinv : c9inv ctx rs') :
    c9inv ctx (iterate_indices ctx.scene rs').1 := by
  obtain ⟨h1, h2, h3, h4, h5, h6⟩ := hinv
  have la : rs'.angleList = List.range ctx.props.int_camera_angles := by
    unfold RSRun.angleList; rw [ha]; rfl
  have lc : rs'.camList = camerasOf ctx.props := by
    unfold RSRun.camList; rw [hc]; rfl
  have lsh : rs'.sheetList = sheetsOf ctx := by
    unfold RSRun.sheetList; rw [hsh]; rfl
  have lob : rs'.objList = (sheetsOf ctx).getD rs'.i_current_sheet [] := by
    unfold RSRun.objList; rw [hob]; rfl
  have lfr : rs'.frameList
      = framesOf ctx.scene (tracksOf ctx.scene (oidOf ctx rs')) rs'.i_current_track := by
    unfold RSRun.frameList; rw [hfr]; rfl
  have hnd : rs'.output_order.Nodup := horder.nodup_iff.mpr (by decide)
  have sperm : (counterOf ctx.scene rs').output_order.Perm output_types := horder
  obtain ⟨io, ilen, irads, idig, ifin⟩ := iterate_full_spec (counterOf ctx.scene rs') sperm
  have hmemS' : "sheet" ∈ rs'.output_order := horder.mem_iff.mpr (by decide)
  have hmemO' : "object" ∈ rs'.output_order := horder.mem_iff.mpr (by decide)
  have hmemT' : "track" ∈ rs'.output_order := horder.mem_iff.mpr (by decide)
  have hmemF' : "frame" ∈ rs'.output_order := horder.mem_iff.mpr (by decide)
  have hlenA : lenFor (counterOf ctx.scene rs') "angle" = ctx.props.int_camera_angles := by
    show rs'.angleList.length = _
    rw [la, List.length_range]
  have hlenC : lenFor (counterOf ctx.scene rs') "camera" = (camerasOf ctx.props).length := by
    show rs'.camList.length = _
    rw [lc]
  have hlenS : lenFor (counterOf ctx.scene rs') "sheet" = (sheetsOf ctx).length := by
    show rs'.sheetList.length = _
    rw [lsh]
  have hlenO : lenFor (counterOf ctx.scene rs') "object"
      = ((sheetsOf ctx).getD rs'.i_current_sheet []).length := by
    show rs'.objList.length = _
    rw [lob]
  have hlenT : lenFor (counterOf ctx.scene rs') "track"
      = trackLenV ctx.scene (tracksOf ctx.scene (oidOf ctx rs')) := by
    show (List.replicate (trackLenV ctx.scene rs'.tracks) "").length = _
    rw [List.length_replicate, htr]
  have hlenF : lenFor (counterOf ctx.scene rs') "frame"
      = (framesOf ctx.scene (tracksOf ctx.scene (oidOf ctx rs')) rs'.i_current_track).length := by
    show rs'.frameList.length = _
    rw [lfr]
  have hbold : ∀ nm ∈ output_types,
      idxFor (counterOf ctx.scene rs') nm < lenFor (counterOf ctx.scene rs') nm := by
    intro nm hm
    simp only [output_types, List.mem_cons, List.not_mem_nil, or_false] at hm
    rcases hm with rfl | rfl | rfl | rfl | rfl | rfl
    · rw [hlenA]; exact h1
    · rw [hlenC]; exact h2
    · rw [hlenF]; exact h6
    · rw [hlenO]; exact h4
    · rw [hlenS]; exact h3
    · rw [hlenT]; exact h5
  have hvalid : List.Forall₂ (· < ·) (digitsLSB (counterOf ctx.scene rs'))
      (radsLSB (counterOf ctx.scene rs')) := by
    rw [digitsLSB_eq, radsLSB_eq]
    apply forall₂_map_lt.mpr
    intro x hx
    exact hbold x (horder.mem_iff.mp (List.mem_reverse.mp hx))
  obtain ⟨of2, oval, owrap⟩ := odoStep_spec hvalid
  have hqd : ∀ nm ∈ output_types,
      (digitsLSB (counterOf ctx.scene rs')).getD (rs'.output_order.reverse.indexOf nm) 0
        = idxFor (counterOf ctx.scene rs') nm := by
    intro nm hm
    rw [digitsLSB_eq]
    exact map_getD_indexOf _ (List.mem_reverse.mpr (horder.mem_iff.mpr hm))
  have hqd' : ∀ nm ∈ output_types,
      ((odoStep (radsLSB (counterOf ctx.scene rs'))
          (digitsLSB (counterOf ctx.scene rs'))).1).getD
        (rs'.output_order.reverse.indexOf nm) 0
        = idxFor (iterate (counterOf ctx.scene rs')).1 nm := by
    intro nm hm
    rw [← idig, digitsLSB_eq, io]
    exact map_getD_indexOf _ (List.mem_reverse.mpr (horder.mem_iff.mpr hm))
  have hqrad : ∀ nm ∈ output_types,
      (radsLSB (counterOf ctx.scene rs')).getD (rs'.output_order.reverse.indexOf nm) 0
        = lenFor (counterOf ctx.scene rs') nm :=
    fun nm hm => radsLSB_getD _ sperm hm
  have hb : ∀ nm ∈ output_types,
      idxFor (iterate (counterOf ctx.scene rs')).1 nm
        < lenFor (counterOf ctx.scene rs') nm := by
    intro nm hm
    rw [← hqd' nm hm, ← hqrad nm hm]
    apply forall₂_getD_lt of2
    rw [of2.length_eq, radsLSB_eq, List.length_map]
    exact List.indexOf_lt_length.mpr (List.mem_reverse.mpr (horder.mem_iff.mpr hm))
  have hq_os : rs'.output_order.reverse.indexOf "object"
      < rs'.output_order.reverse.indexOf "sheet" := by
    rw [indexOf_reverse_eq hnd hmemS', indexOf_reverse_eq hnd hmemO']
    have hiS := List.indexOf_lt_length.mpr hmemS'
    have hiO := List.indexOf_lt_length.mpr hmemO'
    omega
  have hq_to : rs'.output_order.reverse.indexOf "track"
      < rs'.output_order.reverse.indexOf "object" := by
    rw [indexOf_reverse_eq hnd hmemO', indexOf_reverse_eq hnd hmemT']
    have hiO := List.indexOf_lt_length.mpr hmemO'
    have hiT := List.indexOf_lt_length.mpr hmemT'
    omega
  have hq_ft : rs'.output_order.reverse.indexOf "frame"
      < rs'.output_order.reverse.indexOf "track" := by
    rw [indexOf_reverse_eq hnd hmemT', indexOf_reverse_eq hnd hmemF']
    have hiT := List.indexOf_lt_length.mpr hmemT'
    have hiF := List.indexOf_lt_length.mpr hmemF'
    omega
  have hzero : ∀ nb ∈ output_types, ∀ ns ∈ output_types,
      rs'.output_order.reverse.indexOf ns < rs'.output_order.reverse.indexOf nb →
      idxFor (iterate (counterOf ctx.scene rs')).1 nb ≠ idxFor (counterOf ctx.scene rs') nb →
      idxFor (iterate (counterOf ctx.scene rs')).1 ns = 0 := by
    intro nb hnb ns hns hlt hne
    rw [← hqd' ns hns]
    apply odoStep_lower _ _ _ _ hlt
    rw [hqd' nb hnb, hqd nb hnb]
    exact hne
  have c1' : idxFor (iterate (counterOf ctx.scene rs')).1 "angle"
      < ctx.props.int_camera_angles := by
    have hx := hb "angle" (by decide)
    rwa [hlenA] at hx
  have c2' : idxFor (iterate (counterOf ctx.scene rs')).1 "camera"
      < (camerasOf ctx.props).length := by
    have hx := hb "camera" (by decide)
    rwa [hlenC] at hx
  have c3' : idxFor (iterate (counterOf ctx.scene rs')).1 "sheet"
      < (sheetsOf ctx).length := by
    have hx := hb "sheet" (by decide)
    rwa [hlenS] at hx
  have c4' : idxFor (iterate (counterOf ctx.scene rs')).1 "object"
      < ((sheetsOf ctx).getD (idxFor (iterate (counterOf ctx.scene rs')).1 "sheet") []).length := by
    by_cases hch : idxFor (iterate (counterOf ctx.scene rs')).1 "sheet" = rs'.i_current_sheet
    · rw [hch]
      have hx := hb "object" (by decide)
      rwa [hlenO] at hx
    · have hz := hzero "sheet" (by decide) "object" (by decide) hq_os hch
      rw [hz]
      exact List.length_pos.mpr (hobjAll _ (getD_mem_of_lt c3'))
  have c5' : idxFor (iterate (counterOf ctx.scene rs')).1 "track"
      < trackLenV ctx.scene (tracksOf ctx.scene
          (((sheetsOf ctx).getD (idxFor (iterate (counterOf ctx.scene rs')).1 "sheet") []).getD
            (idxFor (iterate (counterOf ctx.scene rs')).1 "object") 0)) := by
    by_cases hchS : idxFor (iterate (counterOf ctx.scene rs')).1 "sheet" = rs'.i_current_sheet
    · by_cases hchO : idxFor (iterate (counterOf ctx.scene rs')).1 "object"
          = rs'.i_current_object
      · rw [hchS, hchO]
        have hx := hb "track" (by decide)
        rwa [hlenT] at hx
      · have hz := hzero "object" (by decide) "track" (by decide) hq_to hchO
        rw [hz]
        exact trackLen_pos_of_truthy (htrAll _ (getD_mem_of_lt c3') _ (getD_mem_of_lt c4'))
    · have hz := hzero "sheet" (by decide) "track" (by decide)
        (Nat.lt_trans hq_to hq_os) hchS
      rw [hz]
      exact trackLen_pos_of_truthy (htrAll _ (getD_mem_of_lt c3') _ (getD_mem_of_lt c4'))
  have c6' : idxFor (iterate (counterOf ctx.scene rs')).1 "frame"
      < (framesOf ctx.scene (tracksOf ctx.scene
          (((sheetsOf ctx).getD (idxFor (iterate (counterOf ctx.scene rs')).1 "sheet") []).getD
            (idxFor (iterate (counterOf ctx.scene rs')).1 "object") 0))
          (idxFor (iterate (counterOf ctx.scene rs')).1 "track")).length := by
    by_cases hchS : idxFor (iterate (counterOf ctx.scene rs')).1 "sheet" = rs'.i_current_sheet
    · by_cases hchO : idxFor (iterate (counterOf ctx.scene rs')).1 "object"
          = rs'.i_current_object
      · by_cases hchT : idxFor (iterate (counterOf ctx.scene rs')).1 "track"
            = rs'.i_current_track
        · rw [hchS, hchO, hchT]
          have hx := hb "frame" (by decide)
          rwa [hlenF] at hx
        · have hz := hzero "track" (by decide) "frame" (by decide) hq_ft hchT
          rw [hz]
          exact List.length_pos.mpr
            (hfrAll _ (getD_mem_of_lt c3') _ (getD_mem_of_lt c4') _ c5')
      · have hz := hzero "object" (by decide) "frame" (by decide)
          (Nat.lt_trans hq_ft hq_to) hchO
        rw [hz]
        exact List.length_pos.mpr
          (hfrAll _ (getD_mem_of_lt c3') _ (getD_mem_of_lt c4') _ c5')
    · have hz := hzero "sheet" (by decide) "frame" (by decide)
        (Nat.lt_trans (Nat.lt_trans hq_ft hq_to) hq_os) hchS
      rw [hz]
      exact List.length_pos.mpr
        (hfrAll _ (getD_mem_of_lt c3') _ (getD_mem_of_lt c4') _ c5')
  exact ⟨c1', c2', c3', c4', c5', c6'⟩

theorem update_all_inv (ctx : Ctx) (rs : RSRun) :
    (update_all ctx rs).output_order = rs.output_order ∧
    (update_all ctx rs).i_current_angle = rs.i_current_angle ∧
    (update_all ctx rs).i_current_camera = rs.i_current_camera ∧
    (update_all ctx rs).i_current_frame = rs.i_current_frame ∧
    (update_all ctx rs).i_current_object = rs.i_current_object ∧
    (update_all ctx rs).i_current_sheet = rs.i_current_sheet ∧
    (update_all ctx rs).i_current_track = rs.i_current_track :=
  foldl_ul_inv ctx (List.range rs.output_order.length) rs

/-- Claim C9 (amended): under the claim's preconditions — a validated group
order (a permutation of the six names with `sheet` before `object` before
`track` before `frame`), a positive camera-angle count, a non-empty camera
pointer list, a non-empty sheet list all of whose sheets are non-empty,
every object's track state truthy and every track yielding at least one
frame — plus the condition the claim omits, that every configured camera
rig has a child `CAMERA` object (which `validate_settings` enforces), the
iteration step after `update_lists` is free of index and zero-division
errors: every `incr_index` level divides by a positive length, every list
subscript in `get_item_string` and `setup_scene` (including
`find_children(camera, 'CAMERA')[0]`) is within bounds, and the index
invariant is preserved for the next iteration. -/
theorem c9_iteration_safety (ctx : Ctx) (rs : RSRun)
    (horder : rs.output_order.Perm output_types)
    (hso : rs.output_order.indexOf "sheet" < rs.output_order.indexOf "object")
    (hot : rs.output_order.indexOf "object" < rs.output_order.indexOf "track")
    (htf : rs.output_order.indexOf "track" < rs.output_order.indexOf "frame")
    (hang : 0 < ctx.props.int_camera_angles)
    (hcams : camerasOf ctx.props ≠ [])
    (hsne : sheetsOf ctx ≠ [])
    (hobjAll : ∀ s ∈ sheetsOf ctx, s ≠ [])
    (htrAll : ∀ s ∈ sheetsOf ctx, ∀ o ∈ s,
        tracksTruthy ctx.scene (tracksOf ctx.scene o) = true)
    (hfrAll : ∀ s ∈ sheetsOf ctx, ∀ o ∈ s,
        ∀ i, i < trackLenV ctx.scene (tracksOf ctx.scene o) →
          framesOf ctx.scene (tracksOf ctx.scene o) i ≠ [])
    (hcamchild : ∀ c ∈ camerasOf ctx.props,
        find_children ctx.scene.objs c (some "CAMERA") ≠ [])
    (hinv : c9inv ctx rs) :
    step_safe ctx (update_all ctx rs) ∧
    c9inv ctx (iterate_indices ctx.scene (update_all ctx rs)).1 := by
  obtain ⟨h1, h2, h3, h4, h5, h6⟩ := hinv
  have hone : (sheetsOf ctx).getD rs.i_current_sheet [] ≠ [] :=
    hobjAll _ (getD_mem_of_lt h3)
  have hoid_mem : oidOf ctx rs ∈ (sheetsOf ctx).getD rs.i_current_sheet [] :=
    getD_mem_of_lt h4
  have htt : tracksTruthy ctx.scene (tracksOf ctx.scene (oidOf ctx rs)) = true :=
    htrAll _ (getD_mem_of_lt h3) _ hoid_mem
  have hfne : framesOf ctx.scene (tracksOf ctx.scene (oidOf ctx rs)) rs.i_current_track ≠ [] :=
    hfrAll _ (getD_mem_of_lt h3) _ hoid_mem _ h5
  obtain ⟨ea, ec, es, eo, et, ef⟩ := update_all_spec ctx rs horder hso hot htf hsne hone htt hfne
  obtain ⟨g0, g1, g2, g3, g4, g5, g6⟩ := update_all_inv ctx rs
  have la : (update_all ctx rs).angleList = List.range ctx.props.int_camera_angles := by
    unfold RSRun.angleList; rw [ea]; rfl
  have lc : (update_all ctx rs).camList = camerasOf ctx.props := by
    unfold RSRun.camList; rw [ec]; rfl
  have lsh : (update_all ctx rs).sheetList = sheetsOf ctx := by
    unfold RSRun.sheetList; rw [es]; rfl
  have lob : (update_all ctx rs).objList = (sheetsOf ctx).getD rs.i_current_sheet [] := by
    unfold RSRun.objList; rw [eo]; rfl
  have lfr : (update_all ctx rs).frameList
      = framesOf ctx.scene (tracksOf ctx.scene (oidOf ctx rs)) rs.i_current_track := by
    unfold RSRun.frameList; rw [ef]; rfl
  have hoid : oidOf ctx (update_all ctx rs) = oidOf ctx rs := by
    unfold oidOf; rw [g5, g4]
  constructor
  · refine ⟨?_, hang, ?_, ?_, ?_, ?_, ?_, ?_, ?_⟩
    · intro l hl
      rw [g0] at hl ⊢
      have hl' : l < rs.output_order.length := hl
      have hmem : rs.output_order.getD l "" ∈ output_types := by
        rw [List.getD_eq_getElem?_getD, List.getElem?_eq_getElem hl']
        exact horder.mem_iff.mp (List.getElem_mem hl')
      simp only [output_types, List.mem_cons, List.not_mem_nil, or_false] at hmem
      rcases hmem with heq | heq | heq | heq | heq | heq <;> rw [heq]
      · show 0 < (update_all ctx rs).angleList.length
        rw [la, List.length_range]
        exact hang
      · show 0 < (update_all ctx rs).camList.length
        rw [lc]
        exact List.length_pos.mpr hcams
      · show 0 < (update_all ctx rs).frameList.length
        rw [lfr]
        omega
      · show 0 < (update_all ctx rs).objList.length
        rw [lob]
        exact List.length_pos.mpr hone
      · show 0 < (update_all ctx rs).sheetList.length
        rw [lsh]
        exact List.length_pos.mpr hsne
      · show 0 < trackLenV ctx.scene (update_all ctx rs).tracks
        rw [et]
        exact trackLen_pos_of_truthy htt
    · rw [g1, la, List.length_range]; exact h1
    · rw [g2, lc]; exact h2
    · rw [g3, lfr]; exact h6
    · rw [g4, lob]; exact h4
    · rw [g5, lsh]; exact h3
    · show (update_all ctx rs).i_current_track < trackLenV ctx.scene (update_all ctx rs).tracks
      rw [g6, et]
      exact h5
    · have hcur : (update_all ctx rs).curCam ∈ camerasOf ctx.props := by
        unfold RSRun.curCam
        rw [lc, g2]
        exact getD_mem_of_lt h2
      exact hcamchild _ hcur
  · apply iterate_preserves_inv ctx (update_all ctx rs)
    · rw [g0]; exact horder
    · rw [g0]; exact hso
    · rw [g0]; exact hot
    · rw [g0]; exact htf
    · exact hobjAll
    · exact htrAll
    · exact hfrAll
    · exact ea
    · exact ec
    · exact es
    · rw [g5]; exact eo
    · rw [hoid]; exact et
    · rw [hoid, g6]; exact ef
    · exact ⟨by rw [g1]; exact h1, by rw [g2]; exact h2, by rw [g5]; exact h3,
        by rw [g4, g5]; exact h4, by rw [g6, hoid]; exact h5,
        by rw [g3, hoid, g6]; exact h6⟩

/-- Claim C9 as frozen is refuted: every precondition the claim states —
valid group order, positive angle count, a camera pointer set, the output
parent with a child, every group list that `update_lists` rebuilds
non-empty, all indices in range — holds for `ctxC9bad`, yet the iteration
step is not safe, because the camera rig has no child `CAMERA` object and
`setup_scene`'s `find_children(camera, 'CAMERA')[0]` would raise
`IndexError`. -/
theorem c9_counterexample :
    rsC9bad.output_order.Perm output_types ∧
    rsC9bad.output_order.indexOf "sheet" < rsC9bad.output_order.indexOf "object" ∧
    rsC9bad.output_order.indexOf "object" < rsC9bad.output_order.indexOf "track" ∧
    rsC9bad.output_order.indexOf "track" < rsC9bad.output_order.indexOf "frame" ∧
    0 < ctxC9bad.props.int_camera_angles ∧
    camerasOf ctxC9bad.props ≠ [] ∧
    sheetsOf ctxC9bad ≠ [] ∧
    (∀ s ∈ sheetsOf ctxC9bad, s ≠ []) ∧
    (∀ s ∈ sheetsOf ctxC9bad, ∀ o ∈ s,
      tracksTruthy ctxC9bad.scene (tracksOf ctxC9bad.scene o) = true) ∧
    (∀ s ∈ sheetsOf ctxC9bad, ∀ o ∈ s,
      ∀ i, i < trackLenV ctxC9bad.scene (tracksOf ctxC9bad.scene o) →
        framesOf ctxC9bad.scene (tracksOf ctxC9bad.scene o) i ≠ []) ∧
    c9inv ctxC9bad rsC9bad ∧
    ¬ step_safe ctxC9bad (update_all ctxC9bad rsC9bad) := by
  decide

theorem c9_witness :
    step_safe ctxC9 (update_all ctxC9 rsC9) ∧
    c9inv ctxC9 (iterate_indices ctxC9.scene (update_all ctxC9 rsC9)).1 :=
  c9_iteration_safety ctxC9 rsC9 (by decide) (by decide) (by decide) (by decide)
    (by decide) (by decide) (by decide) (by decide) (by decide) (by decide)
    (by decide) (by decide)

theorem paste_loop_horizontal : ∀ (imgs : List PILImage) (off : Nat),
    paste_loop "HORIZONTAL" imgs off
      = (List.range imgs.length).map (fun k =>
          (imgs.getD k anyImg, off + ((imgs.take k).map (fun i => i.size.1)).sum, 0)) := by
  intro imgs
  induction imgs with
  | nil => intro off; rfl
  | cons i rest ih =>
    intro off
    rw [List.length_cons, List.range_succ_eq_map, List.map_cons, List.map_map]
    simp only [paste_loop, String.reduceEq, reduceIte]
    congr 1
    rw [ih (off + i.size.1)]
    apply List.map_congr_left
    intro k hk
    simp [Function.comp, List.take_succ_cons, Nat.add_assoc]

theorem paste_loop_vertical : ∀ (imgs : List PILImage) (off : Nat),
    paste_loop "VERTICAL" imgs off
      = (List.range imgs.length).map (fun k =>
          (imgs.getD k anyImg, 0, off + ((imgs.take k).map (fun i => i.size.2)).sum)) := by
  intro imgs
  induction imgs with
  | nil => intro off; rfl
  | cons i rest ih =>
    intro off
    rw [List.length_cons, List.range_succ_eq_map, List.map_cons, List.map_map]
    simp only [paste_loop, String.reduceEq, reduceIte]
    congr 1
    rw [ih (off + i.size.2)]
    apply List.map_congr_left
    intro k hk
    simp [Function.comp, List.take_succ_cons, Nat.add_assoc]

/-- Claim C6: merging a non-empty folder of images is pure concatenation —
in direction HORIZONTAL the output width is the sum of the input widths and
the height the maximum of the input heights, with the `k`-th image pasted
unchanged at the cumulative width of the images before it (and at `y = 0`);
in direction VERTICAL symmetrically with heights and widths swapped.  (On
an empty folder the source raises `ValueError` unpacking the empty zip.) -/
theorem c6_concatenation (images : List PILImage) (himgs : images ≠ []) :
    ((merge_images_flat "HORIZONTAL" images).1.1 = (images.map (fun i => i.size.1)).sum ∧
      (merge_images_flat "HORIZONTAL" images).1.2
        = (images.map (fun i => i.size.2)).foldl max 0 ∧
      (merge_images_flat "HORIZONTAL" images).2
        = (List.range images.length).map (fun k =>
            (images.getD k anyImg, ((images.take k).map (fun i => i.size.1)).sum, 0))) ∧
    ((merge_images_flat "VERTICAL" images).1.1
        = (images.map (fun i => i.size.1)).foldl max 0 ∧
      (merge_images_flat "VERTICAL" images).1.2 = (images.map (fun i => i.size.2)).sum ∧
      (merge_images_flat "VERTICAL" images).2
        = (List.range images.length).map (fun k =>
            (images.getD k anyImg, 0, ((images.take k).map (fun i => i.size.2)).sum))) := by
  refine ⟨⟨rfl, rfl, ?_⟩, rfl, rfl, ?_⟩
  · show paste_loop "HORIZONTAL" images 0 = _
    rw [paste_loop_horizontal]
    apply List.map_congr_left
    intro k hk
    simp
  · show paste_loop "VERTICAL" images 0 = _
    rw [paste_loop_vertical]
    apply List.map_congr_left
    intro k hk
    simp

theorem c6_witness :
    (merge_images_flat "HORIZONTAL" [imgA, imgB]).1.1
        = ([imgA, imgB].map (fun i => i.size.1)).sum ∧
    (merge_images_flat "VERTICAL" [imgA, imgB]).1.2
        = ([imgA, imgB].map (fun i => i.size.2)).sum :=
  ⟨(c6_concatenation [imgA, imgB] (by decide)).1.1,
   (c6_concatenation [imgA, imgB] (by decide)).2.2.1⟩

theorem mem_foldr_append {α β : Type} (f : α → List β) :
    ∀ (l : List α) (e : β), e ∈ l.foldr (fun s acc => f s ++ acc) [] ↔ ∃ s ∈ l, e ∈ f s := by
  intro l e
  induction l with
  | nil => simp
  | cons a t ih => simp [List.mem_append, ih]

theorem mergeEvents_level_ge (ori : List String) : ∀ (fuel : Nat) (t : FTree) (level : Nat),
    ∀ e ∈ mergeEvents ori fuel t level, level ≤ e.2 := by
  intro fuel
  induction fuel with
  | zero =>
    intro t level e he
    cases t
    simp only [mergeEvents] at he
    exact absurd he (List.not_mem_nil e)
  | succ fuel ih =>
    intro t level e he
    cases t with
    | node name subs =>
      simp only [mergeEvents] at he
      by_cases hd : ori.getD level "" = "-"
      · rw [if_pos hd] at he
        obtain ⟨s, hs, hes⟩ := (mem_foldr_append _ subs e).mp he
        have := ih s (level + 1) e hes
        omega
      · rw [if_neg hd] at he
        rcases List.mem_append.mp he with he1 | he2
        · obtain ⟨s, hs, hes⟩ := (mem_foldr_append _ subs e).mp he1
          have := ih s (level + 1) e hes
          omega
        · rw [List.mem_singleton] at he2
          subst he2
          exact Nat.le_refl _

theorem mergeEvents_not_dash (ori : List String) : ∀ (fuel : Nat) (t : FTree) (level : Nat),
    ∀ e ∈ mergeEvents ori fuel t level, ori.getD e.2 "" ≠ "-" := by
  intro fuel
  induction fuel with
  | zero =>
    intro t level e he
    cases t
    simp only [mergeEvents] at he
    exact absurd he (List.not_mem_nil e)
  | succ fuel ih =>
    intro t level e he
    cases t with
    | node name subs =>
      simp only [mergeEvents] at he
      by_cases hd : ori.getD level "" = "-"
      · rw [if_pos hd] at he
        obtain ⟨s, hs, hes⟩ := (mem_foldr_append _ subs e).mp he
        exact ih s (level + 1) e hes
      · rw [if_neg hd] at he
        rcases List.mem_append.mp he with he1 | he2
        · obtain ⟨s, hs, hes⟩ := (mem_foldr_append _ subs e).mp he1
          exact ih s (level + 1) e hes
        · rw [List.mem_singleton] at he2
          subst he2
          exact hd

theorem foldr_append_eq_flatten {α β : Type} (f : α → List β) :
    ∀ (l : List α), l.foldr (fun s acc => f s ++ acc) [] = (l.map f).flatten := by
  intro l
  induction l with
  | nil => rfl
  | cons a t ih => simp [ih]

/-- Claim C7: on a recursive call, `merge_images` first emits every merge of
every sub-folder (recursing at `level + 1`, in listing order) and only then
merges the folder's own files, so the events of a folder are its
sub-folders' events followed by its own merge: the tree is folded bottom-up.
All sub-folder events lie at levels strictly deeper than the folder's own,
no event is ever emitted at a level whose configured orientation is `'-'`
(the first, sheet level, in the shipped default), and when the folder's own
level is not `'-'` its own merge is the last event it emits. -/
theorem c7_bottom_up_merge (ori : List String) (fuel : Nat) (name : String)
    (subs : List FTree) (level : Nat) :
    (mergeEvents ori (fuel + 1) (FTree.node name subs) level
      = (subs.map (fun s => mergeEvents ori fuel s (level + 1))).flatten ++
        (if ori.getD level "" = "-" then [] else [(name, level)])) ∧
    (∀ e ∈ (subs.map (fun s => mergeEvents ori fuel s (level + 1))).flatten, level + 1 ≤ e.2) ∧
    (∀ e ∈ mergeEvents ori (fuel + 1) (FTree.node name subs) level, ori.getD e.2 "" ≠ "-") ∧
    (ori.getD level "" ≠ "-" →
      (mergeEvents ori (fuel + 1) (FTree.node name subs) level).getLast? = some (name, level)) := by
  have hdec : mergeEvents ori (fuel + 1) (FTree.node name subs) level
      = (subs.map (fun s => mergeEvents ori fuel s (level + 1))).flatten ++
        (if ori.getD level "" = "-" then [] else [(name, level)]) := by
    show (if ori.getD level "" = "-"
        then subs.foldr (fun s acc => mergeEvents ori fuel s (level + 1) ++ acc) []
        else subs.foldr (fun s acc => mergeEvents ori fuel s (level + 1) ++ acc) []
          ++ [(name, level)]) = _
    rw [foldr_append_eq_flatten]
    split
    · rw [List.append_nil]
    · rfl
  refine ⟨hdec, ?_, mergeEvents_not_dash ori (fuel + 1) (FTree.node name subs) level, ?_⟩
  · intro e he
    rw [← foldr_append_eq_flatten] at he
    obtain ⟨s, hs, hes⟩ := (mem_foldr_append _ subs e).mp he
    exact mergeEvents_level_ge ori fuel s (level + 1) e hes
  · intro hd
    rw [hdec, if_neg hd]
    exact List.getLast?_concat _

theorem c7_witness :
    (mergeEvents ["-", "v", "h", "v", "v", "h"] 2 sampleTree 1).getLast? = some ("out", 1) :=
  (c7_bottom_up_merge ["-", "v", "h", "v", "v", "h"] 1 "out"
    [FTree.node "000" [], FTree.node "045" []] 1).2.2.2 (by decide)

theorem c5_witness :
    validate_output_order ["sheet", "object", "camera", "track", "angle", "frame"] = none ∧
    (["* The following six elements must be in the list, separated by commas:\nangle, camera, frame, object, sheet, track."] : List String) ≠ [] :=
  ⟨((c5_order_validator_iff ["sheet", "object", "camera", "track", "angle", "frame"]).1).mpr
      (by decide),
   (c5_order_validator_iff ["x"]).2 _ (by decide)⟩

theorem c10_witness :
    validate_output_orientation ["-", "v", "h", "v", "v", "h"] = none :=
  (c10_orientation_validator_iff.1 ["-", "v", "h", "v", "v", "h"]).mpr (by decide)

end GameSprite
